import Mathlib

/-!
# Real-Time-Fluid-Simulation: the 2D Lagrangian (SPH) solver

A shallow embedding of `fluid2d/Lagrangian/src/Solver.cpp` and of
`Lagrangian2dComponent::simulate`.

* `float` is idealised as an arbitrary linear ordered field `F` (exact arithmetic, no rounding,
  no NaN).  All definitions are computable and can be run over `ℚ`.
* `std::sqrt`, `std::pow`, `std::tan` come from the C++ library; they are the fields of
  `MathLib`.  Theorems that need a property of one of them state it as a hypothesis.
* `uint32_t` values are naturals reduced modulo `2^32`; `int` values are integers.
* An out-of-range read of `particles[j]` or `blockExtens[c]` (undefined behaviour in C++) makes
  the embedded function return `none`.
-/

namespace FluidSimulation
namespace Lagrangian2d

/-! ## Vectors -/

/-- The type `glm::vec2`. -/
structure Vec2 (F : Type) where
  x : F
  y : F
deriving DecidableEq, Repr

section Model

variable {F : Type} [LinearOrderedField F]

/-- Componentwise `a + b`. -/
def Vec2.add (a b : Vec2 F) : Vec2 F := ⟨a.x + b.x, a.y + b.y⟩

/-- Componentwise `a - b`. -/
def Vec2.sub (a b : Vec2 F) : Vec2 F := ⟨a.x - b.x, a.y - b.y⟩

/-- Vector times scalar, `v * k`. -/
def Vec2.mulS (v : Vec2 F) (k : F) : Vec2 F := ⟨v.x * k, v.y * k⟩

/-- Scalar times vector, `k * v`. -/
def Vec2.smul (k : F) (v : Vec2 F) : Vec2 F := ⟨k * v.x, k * v.y⟩

/-- Vector divided by scalar, `v / k`. -/
def Vec2.divS (v : Vec2 F) (k : F) : Vec2 F := ⟨v.x / k, v.y / k⟩

/-- The function `glm::dot`. -/
def Vec2.dot (a b : Vec2 F) : F := a.x * b.x + a.y * b.y

/-- The vector `glm::vec2(0.0f)`. -/
def Vec2.zero : Vec2 F := ⟨0, 0⟩

/-- Functions of the C++ maths library used by the solver and the emitter. -/
structure MathLib (F : Type) where
  /-- The function `std::sqrt`. -/
  sqrt : F → F
  /-- The function `std::pow`. -/
  pow : F → F → F
  /-- The function `std::tan`. -/
  tan : F → F
  /-- The macro `LERP(a, b, t)` of `Global.h`, which is not among the sources. -/
  lerp : F → F → F → F

/-- The function `glm::length`: the square root of `dot(v, v)`. -/
def Vec2.length (M : MathLib F) (v : Vec2 F) : F := M.sqrt (v.dot v)

/-! ## Data model -/

/-- The record `ParticleInfo2d` (field names as in the source, `accleration` included). -/
structure ParticleInfo2d (F : Type) where
  position : Vec2 F
  velocity : Vec2 F
  accleration : Vec2 F
  density : F
  pressure : F
  pressDivDens2 : F
  blockId : Nat
deriving DecidableEq, Repr

/-- The members of `ParticleSystem2d` that `Solver::solve` and
`Lagrangian2dComponent::simulate` read or write.  `getBlockIdByPosition` is the method of that
name: its body is not among the sources, so it is a field (the grid geometry is fixed once the
container is set). -/
structure ParticleSystem2d (F : Type) where
  particles : List (ParticleInfo2d F)
  blockExtens : List (Nat × Nat)
  blockNum : Nat × Nat
  lowerBound : Vec2 F
  upperBound : Vec2 F
  supportRadius : F
  supportRadius2 : F
  particleVolume : F
  particleDiameter : F
  scale : F
  getBlockIdByPosition : Vec2 F → Nat

/-- The globals of namespace `Lagrangian2dPara` read by the solver and the component. -/
structure Lagrangian2dPara (F : Type) where
  dt : F
  substep : Int
  maxVelocity : F
  velocityAttenuation : F
  eps : F
  gravityX : F
  gravityY : F
  density : F
  stiffness : F
  exponent : F
  viscosity : F
  enableFountain2d : Bool

/-! ## Machine integers -/

/-- Reduction to `uint32_t`. -/
def u32 (n : Nat) : Nat := n % 4294967296

/-- The conversion `static_cast<int>(u)` of a `uint32_t` (two's complement). -/
def toInt32 (u : Nat) : Int :=
  if u32 u < 2147483648 then (u32 u : Int) else (u32 u : Int) - 4294967296

/-- Addition of two `int` values, wrapping in two's complement. -/
def addInt32 (a b : Int) : Int := (a + b + 2147483648) % 4294967296 - 2147483648

/-- The conversion of an `int` to `uint32_t`, as in `glm::uvec2(nx, ny)`. -/
def ofInt32 (z : Int) : Nat := (z % 4294967296).toNat

/-- The value `static_cast<uint32_t>(-1)`, the invalid cell id. -/
def invalidBlockId : Nat := 4294967295

/-! ## Helpers of `Solver.cpp` -/

/-- Source: `clampFloat`. -/
def clampFloat (value low high : F) : F := max low (min high value)

/-- Source: `clampVec2`. -/
def clampVec2 (value low high : Vec2 F) : Vec2 F :=
  ⟨clampFloat value.x low.x high.x, clampFloat value.y low.y high.y⟩

/-- Source: `isValidBlockId`. -/
def isValidBlockId (blockId blockCount : Nat) : Bool := decide (blockId < blockCount)

/-- Source: `blockCoordFromId`. -/
def blockCoordFromId (blockId blocksX : Nat) : Nat × Nat := (blockId % blocksX, blockId / blocksX)

/-- Source: `blockIdFromCoord` (`coord = (x, y)`), in `uint32_t` arithmetic. -/
def blockIdFromCoord (coord : Nat × Nat) (blocksX : Nat) : Nat := u32 (coord.2 * blocksX + coord.1)

/-- Source: `poly6Kernel2D`. -/
def poly6Kernel2D (r2 h2 poly6Coeff : F) : F :=
  if r2 ≥ h2 then 0
  else
    let diff := h2 - r2
    let diff3 := diff * diff * diff
    poly6Coeff * diff3

/-- Source: `spikyGradKernel2D`. -/
def spikyGradKernel2D (r : Vec2 F) (dist h spikyGradCoeff eps : F) : Vec2 F :=
  if dist ≤ eps ∨ dist ≥ h then Vec2.zero
  else
    let diff := h - dist
    let diff2 := diff * diff
    let dir := r.divS dist
    Vec2.smul (spikyGradCoeff * diff2) dir

/-- Source: `viscosityLaplacian2D`. -/
def viscosityLaplacian2D (dist h viscLapCoeff : F) : F :=
  if dist ≥ h then 0 else viscLapCoeff * (h - dist)

/-- The literal `3.14159265358979323846f` of `Solver::solve`. -/
def piLit : F := 3.14159265358979323846

/-! ## The constants `Solver::solve` computes on entry -/

/-- The local `substep = max(1, Lagrangian2dPara::substep)`. -/
def solveSubstep (cfg : Lagrangian2dPara F) : Int := max 1 cfg.substep

/-- The local `dt = Lagrangian2dPara::dt / static_cast<float>(substep)`. -/
def solveDt (cfg : Lagrangian2dPara F) : F := cfg.dt / ((solveSubstep cfg : Int) : F)

/-- The local `eps = max(1e-6f, Lagrangian2dPara::eps)`. -/
def solveEps (cfg : Lagrangian2dPara F) : F := max 1e-6 cfg.eps

/-- The local `gravity = (gravityX, -gravityY)`. -/
def solveGravity (cfg : Lagrangian2dPara F) : Vec2 F := ⟨cfg.gravityX, -cfg.gravityY⟩

/-- The local `poly6Coeff = 4 / (pi * pow(h, 8))`. -/
def poly6Coeff (M : MathLib F) (h : F) : F := 4 / (piLit * M.pow h 8)

/-- The local `spikyGradCoeff = -30 / (pi * pow(h, 5))`. -/
def spikyGradCoeff (M : MathLib F) (h : F) : F := -30 / (piLit * M.pow h 5)

/-- The local `viscLapCoeff = 40 / (pi * pow(h, 5))`. -/
def viscLapCoeff (M : MathLib F) (h : F) : F := 40 / (piLit * M.pow h 5)

/-- The local `particleMass = restDensity * particleVolume`. -/
def particleMass (cfg : Lagrangian2dPara F) (ps : ParticleSystem2d F) : F :=
  cfg.density * ps.particleVolume

/-- The local `blockCount = blocksX * blocksY`, a `uint32_t` product. -/
def blockCount (ps : ParticleSystem2d F) : Nat := u32 (ps.blockNum.1 * ps.blockNum.2)

/-! ## Spatial index -/

/-- Modelled from the spec: `ParticleSystem2d::updateBlockInfo` ("Reindex"), whose body is not
among the sources.  It (a) recomputes `blockId` for every particle from its current position,
(b) stably sorts the particle collection by `blockId` ascending, (c) recomputes each cell's
half-open range `[start, end)` from the sorted collection; the table has one entry per cell. -/
def updateBlockInfo (ps : ParticleSystem2d F) : ParticleSystem2d F :=
  let relabelled := ps.particles.map fun p =>
    { p with blockId := ps.getBlockIdByPosition p.position }
  let sorted := relabelled.insertionSort (fun a b => a.blockId ≤ b.blockId)
  { ps with
    particles := sorted
    blockExtens := (List.range (blockCount ps)).map fun c =>
      ((sorted.filter fun p => decide (p.blockId < c)).length,
       (sorted.filter fun p => decide (p.blockId ≤ c)).length) }

/-! ## `Solver::solve` -/

/-- The self-healing prologue of the density loop (lines 184-192). -/
def healParticle (ps : ParticleSystem2d F) (p : ParticleInfo2d F) : ParticleInfo2d F :=
  if isValidBlockId p.blockId (blockCount ps) then p
  else
    let p := { p with position := clampVec2 p.position ps.lowerBound ps.upperBound }
    let p := { p with blockId := ps.getBlockIdByPosition p.position }
    if isValidBlockId p.blockId (blockCount ps) then p else { p with blockId := 0 }

/-- The cell ids `neighborBlockId` that the `dy`/`dx` loops of the density and force passes
reach without `continue`, in loop order (lines 195-213 and 248-266). -/
def neighborBlockIds (blockId blocksX blocksY : Nat) : List Nat :=
  let baseCoord := blockCoordFromId blockId blocksX
  ([-1, 0, 1] : List Int).flatMap fun dy =>
    let ny := addInt32 (toInt32 baseCoord.2) dy
    if ny < 0 ∨ ny ≥ toInt32 blocksY then []
    else ([-1, 0, 1] : List Int).flatMap fun dx =>
      let nx := addInt32 (toInt32 baseCoord.1) dx
      if nx < 0 ∨ nx ≥ toInt32 blocksX then []
      else [blockIdFromCoord (ofInt32 nx, ofInt32 ny) blocksX]

/-- The loop `for (j = startIndex; j < endIndex; ++j)` over the indices `js`, reading
`particles[j]`; `none` when an index is out of range. -/
def forRange {β : Type} (particles : List (ParticleInfo2d F)) (body : β → ParticleInfo2d F → β) :
    List Nat → β → Option β
  | [], acc => some acc
  | j :: js, acc =>
    match particles[j]? with
    | none => none
    | some pjParticle => forRange particles body js (body acc pjParticle)

/-- The body shared by the `dy`/`dx` loops: read `blockExtens[neighborBlockId]`, skip an empty
range, run the `j` loop; `none` when a read is out of range. -/
def forNeighbors {β : Type} (particles : List (ParticleInfo2d F)) (blockExtens : List (Nat × Nat))
    (body : β → ParticleInfo2d F → β) : List Nat → β → Option β
  | [], acc => some acc
  | neighborBlockId :: rest, acc =>
    match blockExtens[neighborBlockId]? with
    | none => none
    | some extent =>
      let startIndex := extent.1
      let endIndex := extent.2
      if endIndex ≤ startIndex then forNeighbors particles blockExtens body rest acc
      else
        match forRange particles body (List.range' startIndex (endIndex - startIndex)) acc with
        | none => none
        | some acc1 => forNeighbors particles blockExtens body rest acc1

/-- A loop `for (ParticleInfo2d &p : mPs.particles)` whose body updates the vector in place:
`step i` is the body for the particle at index `i`. -/
def forEachParticle (step : Nat → List (ParticleInfo2d F) → Option (List (ParticleInfo2d F))) :
    List Nat → List (ParticleInfo2d F) → Option (List (ParticleInfo2d F))
  | [], particles => some particles
  | i :: is, particles =>
    match step i particles with
    | none => none
    | some particles1 => forEachParticle step is particles1

/-- The statement `densitySum += particleMass * poly6Kernel2D(r2, h2, poly6Coeff)`. -/
def densityBody (M : MathLib F) (cfg : Lagrangian2dPara F) (ps : ParticleSystem2d F)
    (position : Vec2 F) (densitySum : F) (pjParticle : ParticleInfo2d F) : F :=
  let rij := position.sub pjParticle.position
  let r2 := rij.dot rij
  densitySum + particleMass cfg ps *
    poly6Kernel2D r2 ps.supportRadius2 (poly6Coeff M ps.supportRadius)

/-- One iteration of the first particle loop (lines 182-234): self-healing, then density. -/
def densityStep (M : MathLib F) (cfg : Lagrangian2dPara F) (ps : ParticleSystem2d F) (i : Nat)
    (particles : List (ParticleInfo2d F)) : Option (List (ParticleInfo2d F)) :=
  match particles[i]? with
  | none => none
  | some p =>
    let piParticle := healParticle ps p
    let particles := particles.set i piParticle
    match forNeighbors particles ps.blockExtens (densityBody M cfg ps piParticle.position)
        (neighborBlockIds piParticle.blockId ps.blockNum.1 ps.blockNum.2) 0 with
    | none => none
    | some densitySum =>
      some (particles.set i { piParticle with density := max densitySum (cfg.density * 0.1) })

/-- The first particle loop of the main path. -/
def densityPass (M : MathLib F) (cfg : Lagrangian2dPara F) (ps : ParticleSystem2d F)
    (particles : List (ParticleInfo2d F)) : Option (List (ParticleInfo2d F)) :=
  forEachParticle (densityStep M cfg ps) (List.range particles.length) particles

/-- The body of the second particle loop (lines 236-241). -/
def pressureParticle (M : MathLib F) (cfg : Lagrangian2dPara F) (p : ParticleInfo2d F) :
    ParticleInfo2d F :=
  let ratio := p.density / cfg.density
  let p := { p with pressure := cfg.stiffness * (M.pow ratio cfg.exponent - 1) }
  { p with pressDivDens2 := p.pressure / (p.density * p.density) }

/-- The body of the `j` loop of the force pass (lines 278-293); the accumulator is
`(pressureAcc, viscosityAcc)`. -/
def forceBody (M : MathLib F) (cfg : Lagrangian2dPara F) (ps : ParticleSystem2d F)
    (piParticle : ParticleInfo2d F) (acc : Vec2 F × Vec2 F) (pjParticle : ParticleInfo2d F) :
    Vec2 F × Vec2 F :=
  let h := ps.supportRadius
  let rij := piParticle.position.sub pjParticle.position
  let r2 := rij.dot rij
  if r2 ≥ ps.supportRadius2 ∨ r2 ≤ 0 then acc
  else
    let dist := M.sqrt r2
    let gradW := spikyGradKernel2D rij dist h (spikyGradCoeff M h) (solveEps cfg)
    let pressureAcc := acc.1.sub
      (Vec2.smul (particleMass cfg ps * (piParticle.pressDivDens2 + pjParticle.pressDivDens2)) gradW)
    let lapW := viscosityLaplacian2D dist h (viscLapCoeff M h)
    let viscosityAcc := acc.2.add
      (((Vec2.smul (cfg.viscosity * particleMass cfg ps)
        (pjParticle.velocity.sub piParticle.velocity)).divS pjParticle.density).mulS lapW)
    (pressureAcc, viscosityAcc)

/-- One iteration of the third particle loop (lines 243-299). -/
def forceStep (M : MathLib F) (cfg : Lagrangian2dPara F) (ps : ParticleSystem2d F) (i : Nat)
    (particles : List (ParticleInfo2d F)) : Option (List (ParticleInfo2d F)) :=
  match particles[i]? with
  | none => none
  | some piParticle =>
    match forNeighbors particles ps.blockExtens (forceBody M cfg ps piParticle)
        (neighborBlockIds piParticle.blockId ps.blockNum.1 ps.blockNum.2)
        (Vec2.zero, Vec2.zero) with
    | none => none
    | some acc =>
      some (particles.set i
        { piParticle with accleration := (acc.1.add acc.2).add (solveGravity cfg) })

/-- The third particle loop of the main path. -/
def forcePass (M : MathLib F) (cfg : Lagrangian2dPara F) (ps : ParticleSystem2d F)
    (particles : List (ParticleInfo2d F)) : Option (List (ParticleInfo2d F)) :=
  forEachParticle (forceStep M cfg ps) (List.range particles.length) particles

/-! ### The last particle loop of the main path (lines 301-345)

The loop body is a straight-line sequence of five groups of statements; each group is one
function below and `integrateParticle` is their composition. -/

/-- Lines 303-309: `velocity += accleration * dt` and the speed clamp. -/
def stageVelocity (M : MathLib F) (cfg : Lagrangian2dPara F) (p : ParticleInfo2d F) :
    ParticleInfo2d F :=
  let p := { p with velocity := p.velocity.add (p.accleration.mulS (solveDt cfg)) }
  let speed := p.velocity.length M
  if speed > cfg.maxVelocity ∧ speed > solveEps cfg then
    { p with velocity := p.velocity.mulS (cfg.maxVelocity / speed) }
  else p

/-- Line 311: `position += velocity * dt`. -/
def stagePosition (cfg : Lagrangian2dPara F) (p : ParticleInfo2d F) : ParticleInfo2d F :=
  { p with position := p.position.add (p.velocity.mulS (solveDt cfg)) }

/-- Lines 313-322: the wall test on the x axis. -/
def stageWallX (cfg : Lagrangian2dPara F) (ps : ParticleSystem2d F) (p : ParticleInfo2d F) :
    ParticleInfo2d F :=
  if p.position.x < ps.lowerBound.x then
    { p with position := ⟨ps.lowerBound.x, p.position.y⟩
             velocity := ⟨-p.velocity.x * cfg.velocityAttenuation, p.velocity.y⟩ }
  else if p.position.x > ps.upperBound.x then
    { p with position := ⟨ps.upperBound.x, p.position.y⟩
             velocity := ⟨-p.velocity.x * cfg.velocityAttenuation, p.velocity.y⟩ }
  else p

/-- Lines 324-333: the wall test on the y axis. -/
def stageWallY (cfg : Lagrangian2dPara F) (ps : ParticleSystem2d F) (p : ParticleInfo2d F) :
    ParticleInfo2d F :=
  if p.position.y < ps.lowerBound.y then
    { p with position := ⟨p.position.x, ps.lowerBound.y⟩
             velocity := ⟨p.velocity.x, -p.velocity.y * cfg.velocityAttenuation⟩ }
  else if p.position.y > ps.upperBound.y then
    { p with position := ⟨p.position.x, ps.upperBound.y⟩
             velocity := ⟨p.velocity.x, -p.velocity.y * cfg.velocityAttenuation⟩ }
  else p

/-- Lines 335-344: the cell id of the new position, with the clamp when it is invalid. -/
def stageBlock (ps : ParticleSystem2d F) (p : ParticleInfo2d F) : ParticleInfo2d F :=
  let p := { p with blockId := ps.getBlockIdByPosition p.position }
  if isValidBlockId p.blockId (blockCount ps) then p
  else
    let p := { p with position := clampVec2 p.position ps.lowerBound ps.upperBound }
    let p := { p with blockId := ps.getBlockIdByPosition p.position }
    if isValidBlockId p.blockId (blockCount ps) then p else { p with blockId := 0 }

/-- The body of the last particle loop of the main path (lines 303-344): integration, speed
clamp, wall reflection, cell id. -/
def integrateParticle (M : MathLib F) (cfg : Lagrangian2dPara F) (ps : ParticleSystem2d F)
    (p : ParticleInfo2d F) : ParticleInfo2d F :=
  stageBlock ps (stageWallY cfg ps (stageWallX cfg ps (stagePosition cfg (stageVelocity M cfg p))))

/-! ### The degenerate-grid branch (lines 126-180)

Its loop body repeats the statements of the last loop of the main path after four assignments;
it is transcribed separately, group by group. -/

/-- Lines 130-133: `density`, `pressure`, `pressDivDens2` and `accleration` are overwritten. -/
def fallbackInit (cfg : Lagrangian2dPara F) (p : ParticleInfo2d F) : ParticleInfo2d F :=
  let p := { p with density := cfg.density }
  let p := { p with pressure := 0 }
  let p := { p with pressDivDens2 := 0 }
  { p with accleration := solveGravity cfg }

/-- Lines 134-140: `velocity += accleration * dt` and the speed clamp. -/
def fallbackVelocity (M : MathLib F) (cfg : Lagrangian2dPara F) (p : ParticleInfo2d F) :
    ParticleInfo2d F :=
  let p := { p with velocity := p.velocity.add (p.accleration.mulS (solveDt cfg)) }
  let speed := p.velocity.length M
  if speed > cfg.maxVelocity ∧ speed > solveEps cfg then
    { p with velocity := p.velocity.mulS (cfg.maxVelocity / speed) }
  else p

/-- Line 142: `position += velocity * dt`. -/
def fallbackPosition (cfg : Lagrangian2dPara F) (p : ParticleInfo2d F) : ParticleInfo2d F :=
  { p with position := p.position.add (p.velocity.mulS (solveDt cfg)) }

/-- Lines 144-153: the wall test on the x axis. -/
def fallbackWallX (cfg : Lagrangian2dPara F) (ps : ParticleSystem2d F) (p : ParticleInfo2d F) :
    ParticleInfo2d F :=
  if p.position.x < ps.lowerBound.x then
    { p with position := ⟨ps.lowerBound.x, p.position.y⟩
             velocity := ⟨-p.velocity.x * cfg.velocityAttenuation, p.velocity.y⟩ }
  else if p.position.x > ps.upperBound.x then
    { p with position := ⟨ps.upperBound.x, p.position.y⟩
             velocity := ⟨-p.velocity.x * cfg.velocityAttenuation, p.velocity.y⟩ }
  else p

/-- Lines 155-164: the wall test on the y axis. -/
def fallbackWallY (cfg : Lagrangian2dPara F) (ps : ParticleSystem2d F) (p : ParticleInfo2d F) :
    ParticleInfo2d F :=
  if p.position.y < ps.lowerBound.y then
    { p with position := ⟨p.position.x, ps.lowerBound.y⟩
             velocity := ⟨p.velocity.x, -p.velocity.y * cfg.velocityAttenuation⟩ }
  else if p.position.y > ps.upperBound.y then
    { p with position := ⟨p.position.x, ps.upperBound.y⟩
             velocity := ⟨p.velocity.x, -p.velocity.y * cfg.velocityAttenuation⟩ }
  else p

/-- Lines 166-175: the cell id of the new position, with the clamp when it is invalid. -/
def fallbackBlock (ps : ParticleSystem2d F) (p : ParticleInfo2d F) : ParticleInfo2d F :=
  let p := { p with blockId := ps.getBlockIdByPosition p.position }
  if isValidBlockId p.blockId (blockCount ps) then p
  else
    let p := { p with position := clampVec2 p.position ps.lowerBound ps.upperBound }
    let p := { p with blockId := ps.getBlockIdByPosition p.position }
    if isValidBlockId p.blockId (blockCount ps) then p else { p with blockId := 0 }

/-- The per-particle body of the degenerate-grid branch of `Solver::solve` (lines 128-176). -/
def fallbackParticle (M : MathLib F) (cfg : Lagrangian2dPara F) (ps : ParticleSystem2d F)
    (p : ParticleInfo2d F) : ParticleInfo2d F :=
  fallbackBlock ps (fallbackWallY cfg ps (fallbackWallX cfg ps (fallbackPosition cfg
    (fallbackVelocity M cfg (fallbackInit cfg p)))))

/-- Source: `Solver::solve`.  `none` stands for an out-of-range read in a neighbour loop. -/
def solve (M : MathLib F) (cfg : Lagrangian2dPara F) (ps : ParticleSystem2d F) :
    Option (ParticleSystem2d F) :=
  if ps.particles.isEmpty then some ps
  else if blockCount ps = 0 ∨ ps.blockExtens.length ≠ blockCount ps then
    some (updateBlockInfo { ps with particles := ps.particles.map (fallbackParticle M cfg ps) })
  else
    match densityPass M cfg ps ps.particles with
    | none => none
    | some withDensity =>
      match forcePass M cfg ps (withDensity.map (pressureParticle M cfg)) with
      | none => none
      | some withForce =>
        some (updateBlockInfo { ps with particles := withForce.map (integrateParticle M cfg ps) })

/-! ## `Lagrangian2dComponent::simulate` -/

/-- The constant `maxParticleCount`. -/
def maxParticleCount : Nat := 40000

/-- The constant `drainMinX`. -/
def drainMinX : F := -0.25

/-- The constant `drainMaxX`. -/
def drainMaxX : F := 0.25

/-- The constant `drainY`. -/
def drainY : F := -1.0

/-- The constant `emitterMinX`. -/
def emitterMinX : F := -0.03

/-- The constant `emitterMaxX`. -/
def emitterMaxX : F := 0.03

/-- The constant `emitterY`. -/
def emitterY : F := -0.95

/-- The constant `emitterSpeed`. -/
def emitterSpeed : F := 13.0

/-- The constant `emitterHalfAngleRad`. -/
def emitterHalfAngleRad : F := 0.10

/-- The constant `killBound`. -/
def killBound : F := 1.25

/-- The lambda handed to `std::remove_if` (lines 174-180). -/
def cullPredicate (ps : ParticleSystem2d F) (p : ParticleInfo2d F) : Bool :=
  let invScale := 1.0 / ps.scale
  let wp := p.position.mulS invScale
  let inDrain : Bool := decide (wp.x ≥ drainMinX ∧ wp.x ≤ drainMaxX ∧ wp.y ≤ drainY)
  let outOfSim : Bool :=
    decide (wp.x < -killBound ∨ wp.x > killBound ∨ wp.y < -killBound ∨ wp.y > killBound)
  inDrain || outOfSim

/-- The idiom `v.erase(std::remove_if(v.begin(), v.end(), pred), v.end())`: one pass that keeps,
in order, the elements on which `pred` is false. -/
def eraseRemoveIf {α : Type} (pred : α → Bool) : List α → List α
  | [] => []
  | a :: l => if pred a then eraseRemoveIf pred l else a :: eraseRemoveIf pred l

/-- Lines 170-181: the cull at the end of a continuous-flow sub-step. -/
def cull (ps : ParticleSystem2d F) : ParticleSystem2d F :=
  { ps with particles := eraseRemoveIf (cullPredicate ps) ps.particles }

/-- The state threaded through the emission loops: the particle vector and the number of values
drawn so far from the `Glb::RandomGenerator`, whose `k`-th outcome is `rand k`. -/
structure EmitState (F : Type) where
  particles : List (ParticleInfo2d F)
  draws : Nat

/-- The particle built at lines 150-155 for the emitter abscissa `x`. -/
def emitCandidate (M : MathLib F) (cfg : Lagrangian2dPara F) (ps : ParticleSystem2d F)
    (jitterX y u : F) (x : F) : ParticleInfo2d F :=
  let tangent := M.tan emitterHalfAngleRad
  let maxVx := tangent * emitterSpeed
  let position := (Vec2.mk (x + jitterX) y).mulS ps.scale
  { position := position
    velocity := ⟨M.lerp (-0.7 * maxVx) (0.7 * maxVx) u, emitterSpeed⟩
    accleration := Vec2.zero
    density := cfg.density
    pressure := 0
    pressDivDens2 := 0
    blockId := ps.getBlockIdByPosition position }

/-- The loop `for (float x = ...; x <= emitterMaxX + 1e-6f; x += xStep)` (lines 143-160), started
at `x`.  `fuel` bounds the number of evaluations of the loop test; `none` when it is used up. -/
def emitLayer (M : MathLib F) (cfg : Lagrangian2dPara F) (ps : ParticleSystem2d F)
    (rand : Nat → F) (jitterX y xStep : F) : Nat → F → EmitState F → Option (EmitState F)
  | 0, _, _ => none
  | fuel + 1, x, st =>
    if x ≤ emitterMaxX + 1e-6 then
      if st.particles.length ≥ maxParticleCount then some st
      else
        let p := emitCandidate M cfg ps jitterX y (rand st.draws) x
        let st := { st with draws := st.draws + 1 }
        let st := if p.blockId ≠ invalidBlockId then
            { st with particles := st.particles ++ [p] }
          else st
        emitLayer M cfg ps rand jitterX y xStep fuel (x + xStep) st
    else some st

/-- The abscissa at which the x loop of layer `layer` starts. -/
def layerStartX (xStep : F) (layer : Nat) : F :=
  let layerXOffset := if layer % 2 = 1 then 0.5 * xStep else 0.0
  emitterMinX + layerXOffset

/-- Lines 120-163: the emission phase of one sub-step. -/
def emitPhase (M : MathLib F) (cfg : Lagrangian2dPara F) (ps : ParticleSystem2d F)
    (rand : Nat → F) (emitterStep : Nat) (fuel : Nat) (st : EmitState F) :
    Option (EmitState F) :=
  if st.particles.length < maxParticleCount then
    let particleSpace := ps.particleDiameter
    let jitterX := (rand st.draws - 0.5) * particleSpace * 0.05
    let st := { st with draws := st.draws + 1 }
    let phaseSpacingY := particleSpace * 0.04
    let baseY := emitterY + (((emitterStep % 4 : Nat) : F) - 1.5) * phaseSpacingY
    let layerSpacing := particleSpace * 0.85
    let xStep := particleSpace * 0.85
    match emitLayer M cfg ps rand jitterX (baseY + ((0 : Nat) : F) * layerSpacing) xStep fuel
        (layerStartX xStep 0) st with
    | none => none
    | some st =>
      emitLayer M cfg ps rand jitterX (baseY + ((1 : Nat) : F) * layerSpacing) xStep fuel
        (layerStartX xStep 1) st
  else some st

/-- The state of one continuous-flow run of `simulate`: the particle system and the number of
random values drawn. -/
structure FountainState (F : Type) where
  ps : ParticleSystem2d F
  draws : Nat

/-- The body of the continuous-flow loop (lines 120-181): emission, `updateBlockInfo`, `solve`,
cull. -/
def fountainSubstep (M : MathLib F) (cfg : Lagrangian2dPara F) (rand : Nat → F)
    (emitterStep fuel : Nat) (st : FountainState F) : Option (FountainState F) :=
  match emitPhase M cfg st.ps rand emitterStep fuel ⟨st.ps.particles, st.draws⟩ with
  | none => none
  | some emitted =>
    match solve M cfg (updateBlockInfo { st.ps with particles := emitted.particles }) with
    | none => none
    | some solved => some ⟨cull solved, emitted.draws⟩

/-- The loop `for (int i = 0; i < substep; i++)` of the continuous-flow mode, run `n` times. -/
def fountainLoop (M : MathLib F) (cfg : Lagrangian2dPara F) (rand : Nat → F)
    (emitterStep fuel : Nat) : Nat → FountainState F → Option (FountainState F)
  | 0, st => some st
  | n + 1, st =>
    match fountainSubstep M cfg rand emitterStep fuel st with
    | none => none
    | some st1 => fountainLoop M cfg rand emitterStep fuel n st1

/-- The loop `for (int i = 0; i < substep; i++)` of the plain mode (lines 88-92), run `n`
times. -/
def plainLoop (M : MathLib F) (cfg : Lagrangian2dPara F) :
    Nat → ParticleSystem2d F → Option (ParticleSystem2d F)
  | 0, ps => some ps
  | n + 1, ps =>
    match solve M cfg (updateBlockInfo ps) with
    | none => none
    | some ps1 => plainLoop M cfg n ps1

/-- An initialised `Lagrangian2dComponent` (`ps` and `solver` non-null) together with the
function-local `static uint64_t emitterStep` of `simulate`. -/
structure Lagrangian2dComponent (F : Type) where
  ps : ParticleSystem2d F
  emitterStep : Nat

/-- Source: `Lagrangian2dComponent::simulate` on an initialised component.  `rand` lists the
outcomes of the local random generator and `fuel` bounds every emitter x loop. -/
def simulate (M : MathLib F) (cfg : Lagrangian2dPara F) (rand : Nat → F) (fuel : Nat)
    (c : Lagrangian2dComponent F) : Option (Lagrangian2dComponent F) :=
  if ¬ cfg.enableFountain2d then
    match plainLoop M cfg cfg.substep.toNat c.ps with
    | none => none
    | some ps => some { c with ps := ps }
  else
    let emitterStep := (c.emitterStep + 1) % 18446744073709551616
    match fountainLoop M cfg rand emitterStep fuel cfg.substep.toNat ⟨c.ps, 0⟩ with
    | none => none
    | some st => some ⟨st.ps, emitterStep⟩

/-! ## Predicates used in the statements -/

/-- Componentwise membership of a position in the box `[lo, hi]`. -/
def inBox (lo hi v : Vec2 F) : Prop := lo.x ≤ v.x ∧ v.x ≤ hi.x ∧ lo.y ≤ v.y ∧ v.y ≤ hi.y

/-- The function `M.sqrt` is an exact square root on the non-negative numbers. -/
def MathLib.SqrtExact (M : MathLib F) : Prop :=
  ∀ x : F, 0 ≤ x → 0 ≤ M.sqrt x ∧ M.sqrt x * M.sqrt x = x

/-- The grid of `ps` is valid: the cell count does not wrap, is positive, and the bucket table
has one entry per cell. -/
def validGrid (ps : ParticleSystem2d F) : Prop :=
  blockCount ps = ps.blockNum.1 * ps.blockNum.2 ∧ 0 < blockCount ps ∧
    ps.blockExtens.length = blockCount ps

/-- One step of the integration from position-velocity `s` under the constant acceleration `g`
when neither the speed clamp nor a wall applies: `v += g * dt`, then `x += v * dt`. -/
def eulerStep (dt : F) (g : Vec2 F) (s : Vec2 F × Vec2 F) : Vec2 F × Vec2 F :=
  let v := s.2.add (g.mulS dt)
  (s.1.add (v.mulS dt), v)

/-- The position-velocity pair after `k` steps of `eulerStep`. -/
def eulerSteps (dt : F) (g : Vec2 F) : Nat → Vec2 F × Vec2 F → Vec2 F × Vec2 F
  | 0, s => s
  | k + 1, s => eulerSteps dt g k (eulerStep dt g s)

/-- The position lies strictly inside the box `(lo, hi)`. -/
def strictlyInside (lo hi v : Vec2 F) : Prop := lo.x < v.x ∧ v.x < hi.x ∧ lo.y < v.y ∧ v.y < hi.y

/-- The cell count of `ps` does not wrap around and is positive. -/
def validBlockNum (ps : ParticleSystem2d F) : Prop :=
  blockCount ps = ps.blockNum.1 * ps.blockNum.2 ∧ 0 < blockCount ps

/-- The cells of row `n` of the stencil around column `x`, in loop order. -/
def stencilRow (blocksX x n : Nat) : List Nat :=
  (if 1 ≤ x then [n * blocksX + (x - 1)] else []) ++ [n * blocksX + x] ++
    (if x + 1 < blocksX then [n * blocksX + (x + 1)] else [])

/-- The 3 x 3 stencil around the cell of column `x` and row `y`, cut at the grid border. -/
def stencil (blocksX blocksY x y : Nat) : List Nat :=
  (if 1 ≤ y then stencilRow blocksX x (y - 1) else []) ++ stencilRow blocksX x y ++
    (if y + 1 < blocksY then stencilRow blocksX x (y + 1) else [])

/-- Two cell ids of a grid with `blocksX` columns are the same cell or adjacent cells (also
diagonally): their column and row numbers differ by at most one. -/
def adjacentCells (blocksX c c1 : Nat) : Prop :=
  (c % blocksX ≤ c1 % blocksX + 1 ∧ c1 % blocksX ≤ c % blocksX + 1) ∧
  (c / blocksX ≤ c1 / blocksX + 1 ∧ c1 / blocksX ≤ c / blocksX + 1)

/-- The density contribution `particleMass * poly6Kernel2D(r2, h2, poly6Coeff)` of a particle at
`other` to a particle at `position`. -/
def densityTerm (M : MathLib F) (cfg : Lagrangian2dPara F) (ps : ParticleSystem2d F)
    (position other : Vec2 F) : F :=
  particleMass cfg ps *
    poly6Kernel2D ((position.sub other).dot (position.sub other)) ps.supportRadius2
      (poly6Coeff M ps.supportRadius)

/-- The drain test in the words of the specification: `-0.25 ≤ x/scale ≤ 0.25` and
`y/scale ≤ -1`. -/
def inDrain (scale : F) (p : ParticleInfo2d F) : Bool :=
  decide (-0.25 ≤ p.position.x / scale ∧ p.position.x / scale ≤ 0.25 ∧
    p.position.y / scale ≤ -1)

/-- The kill-boundary test in the words of the specification: `x/scale` or `y/scale` lies
outside `[-1.25, 1.25]`. -/
def outOfSim (scale : F) (p : ParticleInfo2d F) : Bool :=
  decide (¬ (-1.25 ≤ p.position.x / scale ∧ p.position.x / scale ≤ 1.25) ∨
    ¬ (-1.25 ≤ p.position.y / scale ∧ p.position.y / scale ≤ 1.25))

/-! ## Predicates and counts of the continuous-flow mode -/

/-- The successive values of `x` in a loop `for (x = x0; ...; x += xStep)` that runs `K`
iterations. -/
def emitterXs (xStep : F) : Nat → F → List F
  | 0, _ => []
  | K + 1, x => x :: emitterXs xStep K (x + xStep)

/-- The loop `for (x = x0; x <= xMax; x += xStep)` started at `x` runs exactly `K` iterations:
the test holds for the first `K` values of `x` and fails for the next one. -/
def loopRuns (xMax xStep : F) : Nat → F → Prop
  | 0, x => xMax < x
  | K + 1, x => x ≤ xMax ∧ loopRuns xMax xStep K (x + xStep)

/-- The emitter candidate at abscissa `x` resolves to a cell id other than the invalid
sentinel. -/
def candidateValid (ps : ParticleSystem2d F) (jitterX y x : F) : Bool :=
  decide (ps.getBlockIdByPosition ((Vec2.mk (x + jitterX) y).mulS ps.scale) ≠ invalidBlockId)

/-- The step `xStep = 0.85 * particleDiameter` of the emitter x loops. -/
def emitXStep (ps : ParticleSystem2d F) : F := ps.particleDiameter * 0.85

/-- The value `jitterX` of a sub-step whose first random outcome is `u`. -/
def emitJitterX (ps : ParticleSystem2d F) (u : F) : F := (u - 0.5) * ps.particleDiameter * 0.05

/-- The ordinate `y` of the emitter layer `layer`. -/
def emitLayerY (ps : ParticleSystem2d F) (emitterStep layer : Nat) : F :=
  emitterY + (((emitterStep % 4 : Nat) : F) - 1.5) * (ps.particleDiameter * 0.04) +
    ((layer : Nat) : F) * (ps.particleDiameter * 0.85)

/-- The number `V` of emitter candidates of one sub-step that resolve to a valid cell, when the
x loops of the two layers run `K0` and `K1` iterations and `draws` random values have been drawn
before the sub-step. -/
def emitCandidates (ps : ParticleSystem2d F) (rand : Nat → F) (emitterStep K0 K1 draws : Nat) :
    Nat :=
  ((emitterXs (emitXStep ps) K0 (layerStartX (emitXStep ps) 0)).filter
      (candidateValid ps (emitJitterX ps (rand draws)) (emitLayerY ps emitterStep 0))).length +
    ((emitterXs (emitXStep ps) K1 (layerStartX (emitXStep ps) 1)).filter
      (candidateValid ps (emitJitterX ps (rand draws)) (emitLayerY ps emitterStep 1))).length

/-- The numbers `V` of valid emitter candidates of the first `n` sub-steps of a continuous-flow
run started in state `st`, in order. -/
def candidateCounts (M : MathLib F) (cfg : Lagrangian2dPara F) (rand : Nat → F)
    (emitterStep fuel K0 K1 : Nat) : Nat → FountainState F → List Nat
  | 0, _ => []
  | n + 1, st =>
    emitCandidates st.ps rand emitterStep K0 K1 st.draws ::
      match fountainSubstep M cfg rand emitterStep fuel st with
      | none => []
      | some st1 => candidateCounts M cfg rand emitterStep fuel K0 K1 n st1

/-- The numbers of particles appended by the emission phases of the first `n` sub-steps of a
continuous-flow run started in state `st`, in order. -/
def emittedCounts (M : MathLib F) (cfg : Lagrangian2dPara F) (rand : Nat → F)
    (emitterStep fuel : Nat) : Nat → FountainState F → List Nat
  | 0, _ => []
  | n + 1, st =>
    match emitPhase M cfg st.ps rand emitterStep fuel ⟨st.ps.particles, st.draws⟩ with
    | none => []
    | some e =>
      (e.particles.length - st.ps.particles.length) ::
        match fountainSubstep M cfg rand emitterStep fuel st with
        | none => []
        | some st1 => emittedCounts M cfg rand emitterStep fuel n st1

/-- In the first `n` sub-steps of a continuous-flow run started in state `st` the cull removes no
particle. -/
def cullIdle (M : MathLib F) (cfg : Lagrangian2dPara F) (rand : Nat → F)
    (emitterStep fuel : Nat) : Nat → FountainState F → Prop
  | 0, _ => True
  | n + 1, st =>
    ∀ e solved, emitPhase M cfg st.ps rand emitterStep fuel ⟨st.ps.particles, st.draws⟩ = some e →
      solve M cfg (updateBlockInfo { st.ps with particles := e.particles }) = some solved →
      (cull solved).particles = solved.particles ∧
        cullIdle M cfg rand emitterStep fuel n ⟨cull solved, e.draws⟩

/-- No position inside the container of `ps` satisfies the drain test or the kill-boundary test:
the container is not inverted, lies inside the kill boundary and its floor is above the drain
line. -/
def drainUnreachable (ps : ParticleSystem2d F) : Prop :=
  0 < ps.scale ∧ ps.lowerBound.x ≤ ps.upperBound.x ∧ ps.lowerBound.y ≤ ps.upperBound.y ∧
    -1.25 * ps.scale ≤ ps.lowerBound.x ∧ ps.upperBound.x ≤ 1.25 * ps.scale ∧
    -1 * ps.scale < ps.lowerBound.y ∧ ps.upperBound.y ≤ 1.25 * ps.scale

/-! ## Concrete instances -/

/-- The initial values of namespace `Lagrangian2dPara` in `Configure.cpp`. -/
def defaultPara : Lagrangian2dPara F :=
  { dt := 0.0016
    substep := 1
    maxVelocity := 10
    velocityAttenuation := 0.7
    eps := 1e-5
    gravityX := 0.0
    gravityY := 9.8
    density := 1000.0
    stiffness := 70.0
    exponent := 7.0
    viscosity := 0.03
    enableFountain2d := false }

/-- A value-initialised particle (`ParticleInfo2d p{}`) with the given position and velocity. -/
def particleAt (position velocity : Vec2 F) : ParticleInfo2d F :=
  { position := position
    velocity := velocity
    accleration := Vec2.zero
    density := 0
    pressure := 0
    pressDivDens2 := 0
    blockId := 0 }

/-- A particle system with the given container, grid and particles; support radius `0.04` and
particle diameter `0.02` as in `Configure.cpp`, and a cell lookup that sends every position to
cell `0`. -/
def testSystem (lowerBound upperBound : Vec2 F) (blockNum : Nat × Nat)
    (blockExtens : List (Nat × Nat)) (particles : List (ParticleInfo2d F)) : ParticleSystem2d F :=
  { particles := particles
    blockExtens := blockExtens
    blockNum := blockNum
    lowerBound := lowerBound
    upperBound := upperBound
    supportRadius := 0.04
    supportRadius2 := 0.0016
    particleVolume := 0.0004
    particleDiameter := 0.02
    scale := 1
    getBlockIdByPosition := fun _ => 0 }

/-- The default configuration with the continuous-flow mode switched on. -/
def fountainPara : Lagrangian2dPara F := { defaultPara with enableFountain2d := true }

/-- An empty particle system on a 50 x 50 grid whose floor `y = -0.99` is above the drain
line. -/
def fountainSystem : ParticleSystem2d F := testSystem ⟨-1, -0.99⟩ ⟨1, 1⟩ (50, 50) [] []

/-- A computable maths library over `ℚ`: square roots exact on squares of rationals, powers with
the exponent rounded down to a natural number, `tan x` replaced by `x`, linear interpolation. -/
def ratMath : MathLib ℚ :=
  { sqrt := Rat.sqrt
    pow := fun b e => b ^ e.floor.toNat
    tan := fun x => x
    lerp := fun a b t => a + (b - a) * t }

/-- The maths library over `ℝ`. -/
noncomputable def realMath : MathLib ℝ :=
  { sqrt := Real.sqrt
    pow := fun b e => b ^ e
    tan := Real.tan
    lerp := fun a b t => a + (b - a) * t }

/-- The function `M.pow` behaves like a power with exponent `e` on the non-negative numbers:
`pow(1, e) = 1` and `pow(·, e)` is strictly increasing there. -/
def MathLib.PowMonotone (M : MathLib F) (e : F) : Prop :=
  M.pow 1 e = 1 ∧ ∀ x y : F, 0 ≤ x → x < y → M.pow x e < M.pow y e

/-- Componentwise `-v`. -/
def Vec2.neg (v : Vec2 F) : Vec2 F := ⟨-v.x, -v.y⟩

/-- Two particles of the test system, `0.03` apart, each with `pressDivDens2 = s`. -/
def pairLeft (s : F) : ParticleInfo2d F := { particleAt ⟨0.03, 0⟩ ⟨0, 0⟩ with pressDivDens2 := s }

/-- The second particle of the pair, at the origin. -/
def pairRight (s : F) : ParticleInfo2d F := { particleAt ⟨0, 0⟩ ⟨0, 0⟩ with pressDivDens2 := s }

/-- The operations that `Lagrangian2dComponent::simulate` performs on the particle system: the
emission phase (lines 120-163), `ps->updateBlockInfo()`, `solver->solve()` and the cull (lines
170-181). -/
inductive Op where
  | emit
  | updateBlockInfo
  | solve
  | cull
deriving DecidableEq, Repr

/-- The operations performed by `n` iterations of the plain loop (lines 88-92) started on `ps`,
in order, each with the particle system it is applied to.  The list ends at a `solve` that reads
out of range. -/
def plainTrace (M : MathLib F) (cfg : Lagrangian2dPara F) :
    Nat → ParticleSystem2d F → List (Op × ParticleSystem2d F)
  | 0, _ => []
  | n + 1, ps =>
    (Op.updateBlockInfo, ps) :: (Op.solve, updateBlockInfo ps) ::
      match solve M cfg (updateBlockInfo ps) with
      | none => []
      | some ps1 => plainTrace M cfg n ps1

/-- The operations performed by `n` iterations of the continuous-flow loop (lines 118-182)
started in state `st`, in order, each with the particle system it is applied to.  The list ends
at an emission whose fuel runs out and at a `solve` that reads out of range. -/
def fountainTrace (M : MathLib F) (cfg : Lagrangian2dPara F) (rand : Nat → F)
    (emitterStep fuel : Nat) : Nat → FountainState F → List (Op × ParticleSystem2d F)
  | 0, _ => []
  | n + 1, st =>
    (Op.emit, st.ps) ::
      match emitPhase M cfg st.ps rand emitterStep fuel ⟨st.ps.particles, st.draws⟩ with
      | none => []
      | some emitted =>
        (Op.updateBlockInfo, { st.ps with particles := emitted.particles }) ::
          (Op.solve, updateBlockInfo { st.ps with particles := emitted.particles }) ::
            match solve M cfg (updateBlockInfo { st.ps with particles := emitted.particles }) with
            | none => []
            | some solved =>
              (Op.cull, solved) ::
                fountainTrace M cfg rand emitterStep fuel n ⟨cull solved, emitted.draws⟩

/-- The operations performed by one call of `Lagrangian2dComponent::simulate`, in order. -/
def simulateTrace (M : MathLib F) (cfg : Lagrangian2dPara F) (rand : Nat → F) (fuel : Nat)
    (c : Lagrangian2dComponent F) : List (Op × ParticleSystem2d F) :=
  if ¬ cfg.enableFountain2d then plainTrace M cfg cfg.substep.toNat c.ps
  else
    fountainTrace M cfg rand ((c.emitterStep + 1) % 18446744073709551616) fuel
      cfg.substep.toNat ⟨c.ps, 0⟩

/-- The number of `solver->solve()` calls in a list of operations. -/
def solveCalls (t : List (Op × ParticleSystem2d F)) : Nat :=
  (t.filter fun e => decide (e.1 = Op.solve)).length

end Model

set_option linter.unusedSectionVars false
set_option linter.unusedVariables false

section Proofs

variable {F : Type} [LinearOrderedField F]

/-! ## The integration loop body -/


theorem fallbackParticle_eq (M : MathLib F) (cfg : Lagrangian2dPara F) (ps : ParticleSystem2d F)
    (p : ParticleInfo2d F) :
    fallbackParticle M cfg ps p = integrateParticle M cfg ps
      { p with density := cfg.density, pressure := 0, pressDivDens2 := 0,
               accleration := solveGravity cfg } := rfl

theorem integrateParticle_eq (M : MathLib F) (cfg : Lagrangian2dPara F) (ps : ParticleSystem2d F)
    (p : ParticleInfo2d F) :
    integrateParticle M cfg ps p =
      stageBlock ps (stageWallY cfg ps (stageWallX cfg ps (stagePosition cfg
        (stageVelocity M cfg p)))) := rfl

theorem stageBlock_eq (ps : ParticleSystem2d F) (p : ParticleInfo2d F) :
    stageBlock ps p = healParticle ps { p with blockId := ps.getBlockIdByPosition p.position } :=
  rfl

/-! ### Reindexing -/

theorem updateBlockInfo_perm (ps : ParticleSystem2d F) :
    (updateBlockInfo ps).particles.Perm
      (ps.particles.map fun p => { p with blockId := ps.getBlockIdByPosition p.position }) := by
  unfold updateBlockInfo
  exact List.perm_insertionSort _ _

theorem mem_updateBlockInfo {ps : ParticleSystem2d F} {p : ParticleInfo2d F} :
    p ∈ (updateBlockInfo ps).particles ↔
      ∃ q ∈ ps.particles, p = { q with blockId := ps.getBlockIdByPosition q.position } := by
  rw [(updateBlockInfo_perm ps).mem_iff, List.mem_map]
  constructor
  · rintro ⟨q, hq, rfl⟩; exact ⟨q, hq, rfl⟩
  · rintro ⟨q, hq, rfl⟩; exact ⟨q, hq, rfl⟩

theorem updateBlockInfo_length (ps : ParticleSystem2d F) :
    (updateBlockInfo ps).particles.length = ps.particles.length := by
  rw [(updateBlockInfo_perm ps).length_eq, List.length_map]

/-! ### Clamping and the wall tests -/

theorem clampFloat_mem {v lo hi : F} (h : lo ≤ hi) :
    lo ≤ clampFloat v lo hi ∧ clampFloat v lo hi ≤ hi := by
  unfold clampFloat
  exact ⟨le_max_left _ _, max_le h (min_le_left _ _)⟩

theorem clampFloat_of_mem {v lo hi : F} (h1 : lo ≤ v) (h2 : v ≤ hi) : clampFloat v lo hi = v := by
  unfold clampFloat
  rw [min_eq_right h2, max_eq_right h1]


theorem healParticle_position (ps : ParticleSystem2d F) (p : ParticleInfo2d F) :
    (healParticle ps p).position = p.position ∨
      (healParticle ps p).position = clampVec2 p.position ps.lowerBound ps.upperBound := by
  simp only [healParticle]
  split_ifs <;> simp

theorem healParticle_inBox (ps : ParticleSystem2d F) (p : ParticleInfo2d F)
    (h : inBox ps.lowerBound ps.upperBound p.position) :
    (healParticle ps p).position = p.position := by
  obtain ⟨h1, h2, h3, h4⟩ := h
  rcases healParticle_position ps p with h | h
  · exact h
  · rw [h]; unfold clampVec2
    rw [clampFloat_of_mem h1 h2, clampFloat_of_mem h3 h4]

theorem stageWall_inBox (cfg : Lagrangian2dPara F) (ps : ParticleSystem2d F) (p : ParticleInfo2d F)
    (hx : ps.lowerBound.x ≤ ps.upperBound.x) (hy : ps.lowerBound.y ≤ ps.upperBound.y) :
    inBox ps.lowerBound ps.upperBound (stageWallY cfg ps (stageWallX cfg ps p)).position := by
  unfold stageWallY stageWallX inBox
  split_ifs <;> simp_all

theorem healParticle_fields (ps : ParticleSystem2d F) (p : ParticleInfo2d F) :
    (healParticle ps p).velocity = p.velocity ∧ (healParticle ps p).accleration = p.accleration ∧
    (healParticle ps p).density = p.density ∧ (healParticle ps p).pressure = p.pressure ∧
    (healParticle ps p).pressDivDens2 = p.pressDivDens2 := by
  simp only [healParticle]
  split_ifs <;> simp

theorem healParticle_blockId (ps : ParticleSystem2d F) (p : ParticleInfo2d F)
    (h : 0 < blockCount ps) : (healParticle ps p).blockId < blockCount ps := by
  simp only [healParticle, isValidBlockId, decide_eq_true_eq]
  split_ifs <;> simp_all

theorem integrateParticle_inBox (M : MathLib F) (cfg : Lagrangian2dPara F) (ps : ParticleSystem2d F)
    (p : ParticleInfo2d F)
    (hx : ps.lowerBound.x ≤ ps.upperBound.x) (hy : ps.lowerBound.y ≤ ps.upperBound.y) :
    inBox ps.lowerBound ps.upperBound (integrateParticle M cfg ps p).position := by
  rw [integrateParticle_eq, stageBlock_eq, healParticle_inBox]
  · exact stageWall_inBox cfg ps _ hx hy
  · exact stageWall_inBox cfg ps _ hx hy

theorem solve_cases (M : MathLib F) (cfg : Lagrangian2dPara F) (ps ps1 : ParticleSystem2d F)
    (hne : ps.particles ≠ []) (h : solve M cfg ps = some ps1) :
    (∃ l, ps1 = updateBlockInfo { ps with particles := l } ∧
      ((blockCount ps = 0 ∨ ps.blockExtens.length ≠ blockCount ps) ∧
          l = ps.particles.map (fallbackParticle M cfg ps) ∨
       (¬ (blockCount ps = 0 ∨ ps.blockExtens.length ≠ blockCount ps) ∧
          ∃ withDensity withForce, densityPass M cfg ps ps.particles = some withDensity ∧
            forcePass M cfg ps (withDensity.map (pressureParticle M cfg)) = some withForce ∧
            l = withForce.map (integrateParticle M cfg ps)))) := by
  unfold solve at h
  have hemp : ps.particles.isEmpty = false := by
    cases hl : ps.particles with
    | nil => exact absurd hl hne
    | cons a l => rfl
  rw [hemp] at h
  simp only [Bool.false_eq_true, if_false] at h
  split_ifs at h with hc
  · refine ⟨_, (Option.some.inj h).symm, Or.inl ⟨hc, rfl⟩⟩
  · cases h1 : densityPass M cfg ps ps.particles with
    | none => rw [h1] at h; exact absurd h (by simp)
    | some wd =>
      rw [h1] at h
      simp only at h
      cases h2 : forcePass M cfg ps (wd.map (pressureParticle M cfg)) with
      | none => rw [h2] at h; exact absurd h (by simp)
      | some wf =>
        rw [h2] at h
        exact ⟨_, (Option.some.inj h).symm, Or.inr ⟨hc, wd, wf, rfl, h2, rfl⟩⟩

theorem solve_inBox (M : MathLib F) (cfg : Lagrangian2dPara F)
    (ps ps1 : ParticleSystem2d F) (hne : ps.particles ≠ [])
    (hx : ps.lowerBound.x ≤ ps.upperBound.x) (hy : ps.lowerBound.y ≤ ps.upperBound.y)
    (h : solve M cfg ps = some ps1) :
    ps1.lowerBound = ps.lowerBound ∧ ps1.upperBound = ps.upperBound ∧
    ∀ p ∈ ps1.particles,
      ps.lowerBound.x ≤ p.position.x ∧ p.position.x ≤ ps.upperBound.x ∧
      ps.lowerBound.y ≤ p.position.y ∧ p.position.y ≤ ps.upperBound.y := by
  obtain ⟨l, rfl, hl⟩ := solve_cases M cfg ps ps1 hne h
  refine ⟨rfl, rfl, ?_⟩
  intro p hp
  obtain ⟨q, hq, rfl⟩ := mem_updateBlockInfo.mp hp
  simp only at hq ⊢
  rcases hl with ⟨_, rfl⟩ | ⟨_, wd, wf, _, _, rfl⟩
  · obtain ⟨r, _, rfl⟩ := List.mem_map.mp hq
    rw [fallbackParticle_eq]
    exact integrateParticle_inBox M cfg ps _ hx hy
  · obtain ⟨r, _, rfl⟩ := List.mem_map.mp hq
    exact integrateParticle_inBox M cfg ps _ hx hy

/-! ### Speed -/



theorem dot_self_nonneg (v : Vec2 F) : 0 ≤ v.dot v := by
  unfold Vec2.dot
  nlinarith [mul_self_nonneg v.x, mul_self_nonneg v.y]

theorem solveEps_pos (cfg : Lagrangian2dPara F) : 0 < solveEps cfg := by
  unfold solveEps
  exact lt_of_lt_of_le (by norm_num) (le_max_left _ _)

theorem forEachParticle_rel
    {step : Nat → List (ParticleInfo2d F) → Option (List (ParticleInfo2d F))}
    {R : ParticleInfo2d F → ParticleInfo2d F → Prop}
    (hstep : ∀ i l l1, step i l = some l1 → ∃ p q, l[i]? = some p ∧ l1 = l.set i q ∧ R p q) :
    ∀ (is : List Nat) (l l1 : List (ParticleInfo2d F)), is.Nodup →
      forEachParticle step is l = some l1 →
      l1.length = l.length ∧
      (∀ k ∈ is, ∃ p q, l[k]? = some p ∧ l1[k]? = some q ∧ R p q) ∧
      (∀ k, k ∉ is → l1[k]? = l[k]?) := by
  intro is
  induction is with
  | nil =>
    intro l l1 _ h
    simp only [forEachParticle, Option.some.injEq] at h
    subst h
    simp
  | cons i is ih =>
    intro l l1 hnd h
    rw [List.nodup_cons] at hnd
    simp only [forEachParticle] at h
    cases h1 : step i l with
    | none => rw [h1] at h; exact absurd h (by simp)
    | some l2 =>
      rw [h1] at h
      simp only at h
      obtain ⟨p, q, hp, rfl, hR⟩ := hstep i l l2 h1
      obtain ⟨hlen, hin, hout⟩ := ih _ _ hnd.2 h
      have hi : i < l.length := by
        rcases Nat.lt_or_ge i l.length with hlt | hge
        · exact hlt
        · rw [List.getElem?_eq_none hge] at hp; exact absurd hp (by simp)
      refine ⟨by rw [hlen, List.length_set], ?_, ?_⟩
      · intro k hk
        rcases List.mem_cons.mp hk with rfl | hk
        · refine ⟨p, q, hp, ?_, hR⟩
          rw [hout k hnd.1, List.getElem?_set_self hi]
        · obtain ⟨p1, q1, hp1, hq1, hR1⟩ := hin k hk
          have hne : i ≠ k := fun e => hnd.1 (e ▸ hk)
          rw [List.getElem?_set_ne hne] at hp1
          exact ⟨p1, q1, hp1, hq1, hR1⟩
      · intro k hk
        rw [List.mem_cons, not_or] at hk
        rw [hout k hk.2, List.getElem?_set_ne (Ne.symm hk.1)]

theorem forEachParticle_range_rel
    {step : Nat → List (ParticleInfo2d F) → Option (List (ParticleInfo2d F))}
    {R : ParticleInfo2d F → ParticleInfo2d F → Prop}
    (hstep : ∀ i l l1, step i l = some l1 → ∃ p q, l[i]? = some p ∧ l1 = l.set i q ∧ R p q)
    (l l1 : List (ParticleInfo2d F))
    (h : forEachParticle step (List.range l.length) l = some l1) :
    List.Forall₂ R l l1 := by
  obtain ⟨hlen, hin, _⟩ := forEachParticle_rel hstep _ l l1 (List.nodup_range _) h
  rw [List.forall₂_iff_get]
  refine ⟨hlen.symm, ?_⟩
  intro i h1 h2
  obtain ⟨p, q, hp, hq, hR⟩ := hin i (List.mem_range.mpr h1)
  rw [List.getElem?_eq_getElem h1, Option.some.injEq] at hp
  rw [List.getElem?_eq_getElem h2, Option.some.injEq] at hq
  simp only [List.get_eq_getElem]
  rw [hp, hq]
  exact hR

theorem densityStep_rel (M : MathLib F) (cfg : Lagrangian2dPara F) (ps : ParticleSystem2d F)
    (i : Nat) (l l1 : List (ParticleInfo2d F)) (h : densityStep M cfg ps i l = some l1) :
    ∃ p q, l[i]? = some p ∧ l1 = l.set i q ∧
      ∃ s, q = { healParticle ps p with density := max s (cfg.density * 0.1) } := by
  unfold densityStep at h
  cases hp : l[i]? with
  | none => rw [hp] at h; exact absurd h (by simp)
  | some p =>
    rw [hp] at h
    simp only at h
    split at h
    · exact absurd h (by simp)
    · rename_i s hs
      refine ⟨p, _, rfl, ?_, s, rfl⟩
      rw [← Option.some.inj h, List.set_set]

theorem forceStep_rel (M : MathLib F) (cfg : Lagrangian2dPara F) (ps : ParticleSystem2d F)
    (i : Nat) (l l1 : List (ParticleInfo2d F)) (h : forceStep M cfg ps i l = some l1) :
    ∃ p q, l[i]? = some p ∧ l1 = l.set i q ∧ ∃ a, q = { p with accleration := a } := by
  unfold forceStep at h
  cases hp : l[i]? with
  | none => rw [hp] at h; exact absurd h (by simp)
  | some p =>
    rw [hp] at h
    simp only at h
    split at h
    · exact absurd h (by simp)
    · rename_i acc hs
      exact ⟨p, _, rfl, (Option.some.inj h).symm, _, rfl⟩

theorem forall₂_mem_right {α : Type} {R : α → α → Prop} {l l1 : List α}
    (h : List.Forall₂ R l l1) : ∀ q ∈ l1, ∃ p ∈ l, R p q := by
  induction h with
  | nil => intro q hq; exact absurd hq (List.not_mem_nil q)
  | cons hab _ ih =>
    intro q hq
    rcases List.mem_cons.mp hq with rfl | hq
    · exact ⟨_, List.mem_cons_self _ _, hab⟩
    · obtain ⟨p, hp, hR⟩ := ih q hq
      exact ⟨p, List.mem_cons_of_mem _ hp, hR⟩

theorem densityPass_rel (M : MathLib F) (cfg : Lagrangian2dPara F) (ps : ParticleSystem2d F)
    (l l1 : List (ParticleInfo2d F)) (h : densityPass M cfg ps l = some l1) :
    List.Forall₂ (fun p q => ∃ s, q = { healParticle ps p with
      density := max s (cfg.density * 0.1) }) l l1 :=
  forEachParticle_range_rel (densityStep_rel M cfg ps) l l1 h

theorem forcePass_rel (M : MathLib F) (cfg : Lagrangian2dPara F) (ps : ParticleSystem2d F)
    (l l1 : List (ParticleInfo2d F)) (h : forcePass M cfg ps l = some l1) :
    List.Forall₂ (fun p q => ∃ a, q = { p with accleration := a }) l l1 :=
  forEachParticle_range_rel (forceStep_rel M cfg ps) l l1 h

theorem stages_fields (M : MathLib F) (cfg : Lagrangian2dPara F) (ps : ParticleSystem2d F)
    (p : ParticleInfo2d F) :
    (integrateParticle M cfg ps p).density = p.density ∧
    (integrateParticle M cfg ps p).pressure = p.pressure ∧
    (integrateParticle M cfg ps p).pressDivDens2 = p.pressDivDens2 ∧
    (integrateParticle M cfg ps p).accleration = p.accleration := by
  rw [integrateParticle_eq, stageBlock_eq]
  obtain ⟨_, h2, h3, h4, h5⟩ := healParticle_fields ps
    { stageWallY cfg ps (stageWallX cfg ps (stagePosition cfg (stageVelocity M cfg p))) with
      blockId := ps.getBlockIdByPosition
        (stageWallY cfg ps (stageWallX cfg ps (stagePosition cfg
          (stageVelocity M cfg p)))).position }
  rw [h2, h3, h4, h5]
  simp only [stageWallY, stageWallX, stagePosition, stageVelocity]
  split_ifs <;> simp

/-- In the main path every particle of the result comes from a particle of the input through
the four loop bodies and the reindexing. -/
theorem solve_main_mem (M : MathLib F) (cfg : Lagrangian2dPara F) (ps ps1 : ParticleSystem2d F)
    (hne : ps.particles ≠ [])
    (hmain : ¬ (blockCount ps = 0 ∨ ps.blockExtens.length ≠ blockCount ps))
    (h : solve M cfg ps = some ps1) :
    ∀ r ∈ ps1.particles, ∃ p ∈ ps.particles, ∃ (s : F) (a : Vec2 F) (id : Nat),
      r = { integrateParticle M cfg ps
              { pressureParticle M cfg
                  { healParticle ps p with density := max s (cfg.density * 0.1) } with
                accleration := a } with blockId := id } := by
  obtain ⟨l, rfl, hl⟩ := solve_cases M cfg ps ps1 hne h
  rcases hl with ⟨hc, _⟩ | ⟨_, wd, wf, h1, h2, rfl⟩
  · exact absurd hc hmain
  · intro r hr
    obtain ⟨q, hq, rfl⟩ := mem_updateBlockInfo.mp hr
    obtain ⟨q3, hq3, rfl⟩ := List.mem_map.mp hq
    obtain ⟨q2, hq2, a, rfl⟩ := forall₂_mem_right (forcePass_rel M cfg ps _ _ h2) q3 hq3
    obtain ⟨q1, hq1, rfl⟩ := List.mem_map.mp hq2
    obtain ⟨p, hp, s, rfl⟩ := forall₂_mem_right (densityPass_rel M cfg ps _ _ h1) q1 hq1
    exact ⟨p, hp, s, a, _, rfl⟩

theorem solve_fallback_mem (M : MathLib F) (cfg : Lagrangian2dPara F) (ps ps1 : ParticleSystem2d F)
    (hne : ps.particles ≠ [])
    (hfb : blockCount ps = 0 ∨ ps.blockExtens.length ≠ blockCount ps)
    (h : solve M cfg ps = some ps1) :
    ∀ r ∈ ps1.particles, ∃ p ∈ ps.particles, ∃ id : Nat,
      r = { fallbackParticle M cfg ps p with blockId := id } := by
  obtain ⟨l, rfl, hl⟩ := solve_cases M cfg ps ps1 hne h
  rcases hl with ⟨_, rfl⟩ | ⟨hc, _⟩
  · intro r hr
    obtain ⟨q, hq, rfl⟩ := mem_updateBlockInfo.mp hr
    obtain ⟨p, hp, rfl⟩ := List.mem_map.mp hq
    exact ⟨p, hp, _, rfl⟩
  · exact absurd hfb hc

theorem solve_density_ge (M : MathLib F) (cfg : Lagrangian2dPara F)
    (ps ps1 : ParticleSystem2d F) (hne : ps.particles ≠ [])
    (hrest : 0 ≤ cfg.density ∨ ¬ (blockCount ps = 0 ∨ ps.blockExtens.length ≠ blockCount ps))
    (h : solve M cfg ps = some ps1) :
    ∀ p ∈ ps1.particles, 0.1 * cfg.density ≤ p.density := by
  intro r hr
  by_cases hc : blockCount ps = 0 ∨ ps.blockExtens.length ≠ blockCount ps
  · obtain ⟨p, _, id, rfl⟩ := solve_fallback_mem M cfg ps ps1 hne hc h r hr
    have h0 : 0 ≤ cfg.density := by
      rcases hrest with h0 | h0
      · exact h0
      · exact absurd hc h0
    simp only [fallbackParticle_eq, (stages_fields M cfg ps _).1]
    linarith
  · obtain ⟨p, _, s, a, id, rfl⟩ := solve_main_mem M cfg ps ps1 hne hc h r hr
    simp only [(stages_fields M cfg ps _).1, pressureParticle]
    rw [mul_comm]
    exact le_max_right _ _


/-! ### The wall tests -/


theorem neighbor_coord_lt {base n : Nat} {d : Int} (hd : d = -1 ∨ d = 0 ∨ d = 1)
    (hn : n < 4294967296)
    (h0 : ¬ (addInt32 (toInt32 base) d < 0 ∨ addInt32 (toInt32 base) d ≥ toInt32 n)) :
    ofInt32 (addInt32 (toInt32 base) d) < n ∧ n < 2147483648 := by
  unfold addInt32 toInt32 ofInt32 u32 at *
  push_neg at h0
  obtain ⟨h1, h2⟩ := h0
  split_ifs at h1 h2 <;> rcases hd with rfl | rfl | rfl <;> omega

theorem neighborBlockIds_lt {blockId blocksX blocksY : Nat}
    (hprod : blocksX * blocksY < 4294967296) (hpos : 0 < blocksX * blocksY) :
    ∀ c ∈ neighborBlockIds blockId blocksX blocksY, c < blocksX * blocksY := by
  intro c hc
  have hx0 : 0 < blocksX := Nat.pos_of_ne_zero (fun e => by simp [e] at hpos)
  have hy0 : 0 < blocksY := Nat.pos_of_ne_zero (fun e => by simp [e] at hpos)
  have hxlt : blocksX < 4294967296 :=
    lt_of_le_of_lt (Nat.le_mul_of_pos_right _ hy0) hprod
  have hylt : blocksY < 4294967296 :=
    lt_of_le_of_lt (Nat.le_mul_of_pos_left _ hx0) hprod
  unfold neighborBlockIds at hc
  simp only [List.mem_flatMap] at hc
  obtain ⟨dy, hdy, hc⟩ := hc
  split_ifs at hc with hy
  · exact absurd hc (List.not_mem_nil c)
  · simp only [List.mem_flatMap] at hc
    obtain ⟨dx, hdx, hc⟩ := hc
    split_ifs at hc with hx
    · exact absurd hc (List.not_mem_nil c)
    · rw [List.mem_singleton] at hc
      have hdy1 : dy = -1 ∨ dy = 0 ∨ dy = 1 := by simpa using hdy
      have hdx1 : dx = -1 ∨ dx = 0 ∨ dx = 1 := by simpa using hdx
      obtain ⟨hny, _⟩ := neighbor_coord_lt hdy1 hylt hy
      obtain ⟨hnx, _⟩ := neighbor_coord_lt hdx1 hxlt hx
      subst hc
      unfold blockIdFromCoord u32
      simp only
      have hb : ofInt32 (addInt32 (toInt32 (blockCoordFromId blockId blocksX).2) dy) * blocksX +
          ofInt32 (addInt32 (toInt32 (blockCoordFromId blockId blocksX).1) dx) <
          blocksX * blocksY := by
        calc _ < ofInt32 (addInt32 (toInt32 (blockCoordFromId blockId blocksX).2) dy) * blocksX +
              blocksX := by omega
          _ = (ofInt32 (addInt32 (toInt32 (blockCoordFromId blockId blocksX).2) dy) + 1) *
              blocksX := by ring
          _ ≤ blocksY * blocksX := Nat.mul_le_mul_right _ hny
          _ = blocksX * blocksY := Nat.mul_comm _ _
      rw [Nat.mod_eq_of_lt (lt_trans hb hprod)]
      exact hb

theorem forRange_isSome {β : Type} (particles : List (ParticleInfo2d F))
    (body : β → ParticleInfo2d F → β) :
    ∀ (js : List Nat) (acc : β), (∀ j ∈ js, j < particles.length) →
      ∃ r, forRange particles body js acc = some r := by
  intro js
  induction js with
  | nil => intro acc _; exact ⟨acc, rfl⟩
  | cons j js ih =>
    intro acc h
    have hj : j < particles.length := h j (List.mem_cons_self _ _)
    simp only [forRange, List.getElem?_eq_getElem hj]
    exact ih _ (fun k hk => h k (List.mem_cons_of_mem _ hk))

theorem forNeighbors_isSome {β : Type} (particles : List (ParticleInfo2d F))
    (blockExtens : List (Nat × Nat)) (body : β → ParticleInfo2d F → β)
    (hext : ∀ e ∈ blockExtens, e.2 ≤ particles.length) :
    ∀ (cells : List Nat) (acc : β), (∀ c ∈ cells, c < blockExtens.length) →
      ∃ r, forNeighbors particles blockExtens body cells acc = some r := by
  intro cells
  induction cells with
  | nil => intro acc _; exact ⟨acc, rfl⟩
  | cons c cells ih =>
    intro acc h
    have hc : c < blockExtens.length := h c (List.mem_cons_self _ _)
    have hrest : ∀ c ∈ cells, c < blockExtens.length := fun k hk => h k (List.mem_cons_of_mem _ hk)
    simp only [forNeighbors, List.getElem?_eq_getElem hc]
    split_ifs with hle
    · exact ih _ hrest
    · have hend : blockExtens[c].2 ≤ particles.length := hext _ (List.getElem_mem hc)
      obtain ⟨r, hr⟩ := forRange_isSome particles body
        (List.range' blockExtens[c].1 (blockExtens[c].2 - blockExtens[c].1)) acc (by
          intro j hj
          rw [List.mem_range'_1] at hj
          omega)
      rw [hr]
      exact ih _ hrest

theorem forEachParticle_isSome
    {step : Nat → List (ParticleInfo2d F) → Option (List (ParticleInfo2d F))}
    (Inv : List (ParticleInfo2d F) → Prop)
    (hstep : ∀ i l, Inv l → i < l.length →
      ∃ l1, step i l = some l1 ∧ Inv l1 ∧ l1.length = l.length) :
    ∀ (is : List Nat) (l : List (ParticleInfo2d F)), Inv l → (∀ i ∈ is, i < l.length) →
      ∃ l1, forEachParticle step is l = some l1 := by
  intro is
  induction is with
  | nil => intro l _ _; exact ⟨l, rfl⟩
  | cons i is ih =>
    intro l hinv h
    obtain ⟨l1, h1, hinv1, hlen⟩ := hstep i l hinv (h i (List.mem_cons_self _ _))
    simp only [forEachParticle, h1]
    exact ih l1 hinv1 (fun k hk => by rw [hlen]; exact h k (List.mem_cons_of_mem _ hk))

theorem blockNum_prod_lt (ps : ParticleSystem2d F) (hg : validGrid ps) :
    ps.blockNum.1 * ps.blockNum.2 < 4294967296 := by
  have h := hg.1
  unfold blockCount u32 at h
  rw [← h]
  exact Nat.mod_lt _ (by norm_num)

theorem densityStep_isSome (M : MathLib F) (cfg : Lagrangian2dPara F) (ps : ParticleSystem2d F)
    (hg : validGrid ps) (n : Nat) (hext : ∀ e ∈ ps.blockExtens, e.2 ≤ n)
    (i : Nat) (l : List (ParticleInfo2d F)) (hl : l.length = n) (hi : i < l.length) :
    ∃ l1, densityStep M cfg ps i l = some l1 ∧ l1.length = n ∧ l1.length = l.length := by
  simp only [densityStep, List.getElem?_eq_getElem hi]
  obtain ⟨r, hr⟩ := forNeighbors_isSome (l.set i (healParticle ps l[i])) ps.blockExtens
    (densityBody M cfg ps (healParticle ps l[i]).position)
    (by rw [List.length_set, hl]; exact hext)
    (neighborBlockIds (healParticle ps l[i]).blockId ps.blockNum.1 ps.blockNum.2) 0
    (by
      intro c hc
      rw [hg.2.2, hg.1]
      exact neighborBlockIds_lt (blockNum_prod_lt ps hg) (hg.1 ▸ hg.2.1) c hc)
  rw [hr]
  exact ⟨_, rfl, by simp [hl], by simp⟩

theorem forceStep_isSome (M : MathLib F) (cfg : Lagrangian2dPara F) (ps : ParticleSystem2d F)
    (hg : validGrid ps) (n : Nat) (hext : ∀ e ∈ ps.blockExtens, e.2 ≤ n)
    (i : Nat) (l : List (ParticleInfo2d F)) (hl : l.length = n) (hi : i < l.length) :
    ∃ l1, forceStep M cfg ps i l = some l1 ∧ l1.length = n ∧ l1.length = l.length := by
  simp only [forceStep, List.getElem?_eq_getElem hi]
  obtain ⟨r, hr⟩ := forNeighbors_isSome l ps.blockExtens
    (forceBody M cfg ps l[i])
    (by rw [hl]; exact hext)
    (neighborBlockIds l[i].blockId ps.blockNum.1 ps.blockNum.2) (Vec2.zero, Vec2.zero)
    (by
      intro c hc
      rw [hg.2.2, hg.1]
      exact neighborBlockIds_lt (blockNum_prod_lt ps hg) (hg.1 ▸ hg.2.1) c hc)
  rw [hr]
  exact ⟨_, rfl, by simp [hl], by simp⟩

theorem densityPass_isSome (M : MathLib F) (cfg : Lagrangian2dPara F) (ps : ParticleSystem2d F)
    (hg : validGrid ps) (l : List (ParticleInfo2d F))
    (hext : ∀ e ∈ ps.blockExtens, e.2 ≤ l.length) :
    ∃ l1, densityPass M cfg ps l = some l1 :=
  forEachParticle_isSome (fun l1 => l1.length = l.length)
    (fun i l1 hl hi => densityStep_isSome M cfg ps hg l.length hext i l1 hl hi)
    (List.range l.length) l rfl (fun i hi => List.mem_range.mp hi)

theorem forcePass_isSome (M : MathLib F) (cfg : Lagrangian2dPara F) (ps : ParticleSystem2d F)
    (hg : validGrid ps) (l : List (ParticleInfo2d F))
    (hext : ∀ e ∈ ps.blockExtens, e.2 ≤ l.length) :
    ∃ l1, forcePass M cfg ps l = some l1 :=
  forEachParticle_isSome (fun l1 => l1.length = l.length)
    (fun i l1 hl hi => forceStep_isSome M cfg ps hg l.length hext i l1 hl hi)
    (List.range l.length) l rfl (fun i hi => List.mem_range.mp hi)

theorem solve_isSome (M : MathLib F) (cfg : Lagrangian2dPara F) (ps : ParticleSystem2d F)
    (hg : validGrid ps) (hext : ∀ e ∈ ps.blockExtens, e.2 ≤ ps.particles.length) :
    ∃ ps1, solve M cfg ps = some ps1 := by
  unfold solve
  split_ifs with h1 h2
  · exact ⟨_, rfl⟩
  · exact ⟨_, rfl⟩
  · obtain ⟨wd, hwd⟩ := densityPass_isSome M cfg ps hg ps.particles hext
    have hlen : (wd.map (pressureParticle M cfg)).length = ps.particles.length := by
      rw [List.length_map, (densityPass_rel M cfg ps _ _ hwd).length_eq]
    obtain ⟨wf, hwf⟩ := forcePass_isSome M cfg ps hg (wd.map (pressureParticle M cfg))
      (by rw [hlen]; exact hext)
    rw [hwd]
    simp only
    rw [hwf]
    exact ⟨_, rfl⟩


/-! ## Auxiliary facts about `solve` and the concrete instances -/


theorem solve_of_nil (M : MathLib F) (cfg : Lagrangian2dPara F) (ps : ParticleSystem2d F)
    (h : ps.particles = []) : solve M cfg ps = some ps := by
  unfold solve
  simp [h]

theorem realMath_sqrtExact : realMath.SqrtExact := by
  intro x hx
  exact ⟨Real.sqrt_nonneg x, Real.mul_self_sqrt hx⟩

theorem validGrid_testSystem (lo hi : Vec2 F) (n : Nat) (l : List (ParticleInfo2d F)) :
    validGrid (testSystem lo hi (1, 1) [(0, n)] l) := by
  simp [validGrid, testSystem, blockCount, u32]



/-! ## A single particle -/

theorem forceBody_self (M : MathLib F) (cfg : Lagrangian2dPara F) (ps : ParticleSystem2d F)
    (p q : ParticleInfo2d F) (hq : q.position = p.position) (acc : Vec2 F × Vec2 F) :
    forceBody M cfg ps p acc q = acc := by
  unfold forceBody
  simp [hq, Vec2.sub, Vec2.dot]

theorem forRange_const {β : Type} (particles : List (ParticleInfo2d F))
    (body : β → ParticleInfo2d F → β) (hbody : ∀ acc, ∀ q ∈ particles, body acc q = acc) :
    ∀ (js : List Nat) (acc r : β), forRange particles body js acc = some r → r = acc := by
  intro js
  induction js with
  | nil => intro acc r h; simp only [forRange, Option.some.injEq] at h; exact h.symm
  | cons j js ih =>
    intro acc r h
    simp only [forRange] at h
    cases hj : particles[j]? with
    | none => rw [hj] at h; exact absurd h (by simp)
    | some q =>
      rw [hj] at h
      simp only at h
      rw [hbody acc q (List.getElem?_mem hj)] at h
      exact ih acc r h

theorem forNeighbors_const {β : Type} (particles : List (ParticleInfo2d F))
    (blockExtens : List (Nat × Nat)) (body : β → ParticleInfo2d F → β)
    (hbody : ∀ acc, ∀ q ∈ particles, body acc q = acc) :
    ∀ (cells : List Nat) (acc r : β),
      forNeighbors particles blockExtens body cells acc = some r → r = acc := by
  intro cells
  induction cells with
  | nil => intro acc r h; simp only [forNeighbors, Option.some.injEq] at h; exact h.symm
  | cons c cells ih =>
    intro acc r h
    simp only [forNeighbors] at h
    cases hc : blockExtens[c]? with
    | none => rw [hc] at h; exact absurd h (by simp)
    | some e =>
      rw [hc] at h
      simp only at h
      split_ifs at h
      · exact ih acc r h
      · cases hr : forRange particles body (List.range' e.1 (e.2 - e.1)) acc with
        | none => rw [hr] at h; exact absurd h (by simp)
        | some a =>
          rw [hr] at h
          simp only at h
          rw [forRange_const particles body hbody _ acc a hr] at h
          exact ih acc r h

theorem forcePass_single (M : MathLib F) (cfg : Lagrangian2dPara F) (ps : ParticleSystem2d F)
    (p : ParticleInfo2d F) (l : List (ParticleInfo2d F))
    (h : forcePass M cfg ps [p] = some l) :
    l = [{ p with accleration := solveGravity cfg }] := by
  replace h : forEachParticle (forceStep M cfg ps) [0] [p] = some l := h
  simp only [forEachParticle, forceStep, List.getElem?_cons_zero] at h
  cases hr : forNeighbors [p] ps.blockExtens (forceBody M cfg ps p)
      (neighborBlockIds p.blockId ps.blockNum.1 ps.blockNum.2) (Vec2.zero, Vec2.zero) with
  | none => rw [hr] at h; exact absurd h (by simp)
  | some acc =>
    rw [hr] at h
    have hacc := forNeighbors_const [p] ps.blockExtens (forceBody M cfg ps p)
      (fun a q hq => forceBody_self M cfg ps p q (by rw [List.mem_singleton.mp hq]) a) _ _ _ hr
    subst hacc
    simp only [List.set_cons_zero, Option.some.injEq] at h
    rw [← h]
    simp [Vec2.add, Vec2.zero, solveGravity]

theorem densityPass_single (M : MathLib F) (cfg : Lagrangian2dPara F) (ps : ParticleSystem2d F)
    (p : ParticleInfo2d F) (l : List (ParticleInfo2d F))
    (h : densityPass M cfg ps [p] = some l) :
    ∃ s, l = [{ healParticle ps p with density := max s (cfg.density * 0.1) }] := by
  have hrel := densityPass_rel M cfg ps [p] l h
  cases hrel with
  | cons hab htl =>
    cases htl
    obtain ⟨s, rfl⟩ := hab
    exact ⟨s, rfl⟩


theorem updateBlockInfo_single (ps : ParticleSystem2d F) (p : ParticleInfo2d F)
    (hp : ps.particles = [p]) :
    (updateBlockInfo ps).particles = [{ p with blockId := ps.getBlockIdByPosition p.position }] := by
  simp [updateBlockInfo, hp]

theorem updateBlockInfo_validGrid (ps : ParticleSystem2d F) (hg : validBlockNum ps) :
    validGrid (updateBlockInfo ps) := by
  refine ⟨hg.1, hg.2, ?_⟩
  simp [updateBlockInfo, blockCount]

theorem updateBlockInfo_extent_le (ps : ParticleSystem2d F) :
    ∀ e ∈ (updateBlockInfo ps).blockExtens, e.2 ≤ (updateBlockInfo ps).particles.length := by
  intro e he
  simp only [updateBlockInfo, List.mem_map] at he ⊢
  obtain ⟨c, _, rfl⟩ := he
  exact List.length_filter_le _ _

theorem integrateParticle_free (M : MathLib F) (cfg : Lagrangian2dPara F)
    (ps : ParticleSystem2d F) (p : ParticleInfo2d F)
    (hspeed : Vec2.length M (eulerStep (solveDt cfg) p.accleration (p.position, p.velocity)).2 ≤
      cfg.maxVelocity)
    (hin : strictlyInside ps.lowerBound ps.upperBound
      (eulerStep (solveDt cfg) p.accleration (p.position, p.velocity)).1) :
    ((integrateParticle M cfg ps p).position, (integrateParticle M cfg ps p).velocity) =
      eulerStep (solveDt cfg) p.accleration (p.position, p.velocity) := by
  obtain ⟨h1, h2, h3, h4⟩ := hin
  have hv : stageVelocity M cfg p =
      { p with velocity := p.velocity.add (p.accleration.mulS (solveDt cfg)) } := by
    simp only [stageVelocity]
    rw [if_neg]
    intro hc
    exact absurd hspeed (not_le.mpr hc.1)
  have hx : stageWallX cfg ps (stagePosition cfg (stageVelocity M cfg p)) =
      stagePosition cfg (stageVelocity M cfg p) := by
    rw [hv]
    simp only [stageWallX, stagePosition]
    have e1 : ¬ (p.position.add ((p.velocity.add (p.accleration.mulS (solveDt cfg))).mulS
        (solveDt cfg))).x < ps.lowerBound.x := not_lt.mpr h1.le
    have e2 : ¬ (p.position.add ((p.velocity.add (p.accleration.mulS (solveDt cfg))).mulS
        (solveDt cfg))).x > ps.upperBound.x := not_lt.mpr h2.le
    rw [if_neg e1, if_neg e2]
  have hy : stageWallY cfg ps (stagePosition cfg (stageVelocity M cfg p)) =
      stagePosition cfg (stageVelocity M cfg p) := by
    rw [hv]
    simp only [stageWallY, stagePosition]
    have e1 : ¬ (p.position.add ((p.velocity.add (p.accleration.mulS (solveDt cfg))).mulS
        (solveDt cfg))).y < ps.lowerBound.y := not_lt.mpr h3.le
    have e2 : ¬ (p.position.add ((p.velocity.add (p.accleration.mulS (solveDt cfg))).mulS
        (solveDt cfg))).y > ps.upperBound.y := not_lt.mpr h4.le
    rw [if_neg e1, if_neg e2]
  rw [integrateParticle_eq, stageBlock_eq, (healParticle_fields ps _).1, healParticle_inBox,
    hx, hy, hv]
  · rfl
  · rw [hx, hy, hv]
    exact ⟨h1.le, h2.le, h3.le, h4.le⟩

theorem solve_single_step (M : MathLib F) (cfg : Lagrangian2dPara F) (ps : ParticleSystem2d F)
    (p : ParticleInfo2d F) (hp : ps.particles = [p]) (hg : validBlockNum ps)
    (hbox : inBox ps.lowerBound ps.upperBound p.position)
    (hspeed : Vec2.length M (eulerStep (solveDt cfg) (solveGravity cfg)
      (p.position, p.velocity)).2 ≤ cfg.maxVelocity)
    (hin : strictlyInside ps.lowerBound ps.upperBound
      (eulerStep (solveDt cfg) (solveGravity cfg) (p.position, p.velocity)).1) :
    ∃ ps1 p1, solve M cfg (updateBlockInfo ps) = some ps1 ∧ ps1.particles = [p1] ∧
      (p1.position, p1.velocity) =
        eulerStep (solveDt cfg) (solveGravity cfg) (p.position, p.velocity) ∧
      ps1.blockNum = ps.blockNum ∧ ps1.lowerBound = ps.lowerBound ∧
      ps1.upperBound = ps.upperBound ∧
      ps1.getBlockIdByPosition = ps.getBlockIdByPosition := by
  have hvg := updateBlockInfo_validGrid ps hg
  have hparts := updateBlockInfo_single ps p hp
  obtain ⟨ps1, hs⟩ := solve_isSome M cfg (updateBlockInfo ps) hvg (updateBlockInfo_extent_le ps)
  have hne : (updateBlockInfo ps).particles ≠ [] := by rw [hparts]; simp
  obtain ⟨l, rfl, hl⟩ := solve_cases M cfg _ ps1 hne hs
  rcases hl with ⟨hc, _⟩ | ⟨_, wd, wf, h1, h2, rfl⟩
  · exact absurd hc (by
      rw [not_or, not_not]
      exact ⟨Nat.pos_iff_ne_zero.mp hvg.2.1, hvg.2.2⟩)
  · rw [hparts] at h1
    obtain ⟨s, rfl⟩ := densityPass_single M cfg _ _ wd h1
    rw [List.map_singleton] at h2
    have hwf := forcePass_single M cfg _ _ wf h2
    subst hwf
    have hfinal := updateBlockInfo_single
      { updateBlockInfo ps with
        particles := List.map (integrateParticle M cfg (updateBlockInfo ps))
          [{ pressureParticle M cfg
              { healParticle (updateBlockInfo ps)
                  { p with blockId := ps.getBlockIdByPosition p.position } with
                density := max s (cfg.density * 0.1) } with
            accleration := solveGravity cfg }] } _ (List.map_singleton _ _)
    refine ⟨_, _, hs, hfinal, ?_, rfl, rfl, rfl, rfl⟩
    · simp only
      have hpos : (healParticle (updateBlockInfo ps)
          { p with blockId := ps.getBlockIdByPosition p.position }).position = p.position :=
        healParticle_inBox (updateBlockInfo ps) _ hbox
      have hvel := (healParticle_fields (updateBlockInfo ps)
          { p with blockId := ps.getBlockIdByPosition p.position }).1
      have := integrateParticle_free M cfg (updateBlockInfo ps)
        { pressureParticle M cfg
            { healParticle (updateBlockInfo ps)
                { p with blockId := ps.getBlockIdByPosition p.position } with
              density := max s (cfg.density * 0.1) } with
          accleration := solveGravity cfg }
        (by simpa [pressureParticle, hpos, hvel] using hspeed)
        (by simpa [pressureParticle, hpos, hvel] using hin)
      simpa [pressureParticle, hpos, hvel] using this


theorem eulerSteps_velocity (dt : F) (g : Vec2 F) :
    ∀ (n : Nat) (s : Vec2 F × Vec2 F),
      (eulerSteps dt g n s).2 = ⟨s.2.x + (n : F) * dt * g.x, s.2.y + (n : F) * dt * g.y⟩ := by
  intro n
  induction n with
  | zero => intro s; simp [eulerSteps]
  | succ n ih =>
    intro s
    rw [eulerSteps, ih]
    simp only [eulerStep, Vec2.add, Vec2.mulS, Nat.cast_succ, Vec2.mk.injEq]
    constructor <;> ring

theorem validBlockNum_congr {ps ps1 : ParticleSystem2d F} (h : ps1.blockNum = ps.blockNum)
    (hg : validBlockNum ps) : validBlockNum ps1 := by
  unfold validBlockNum blockCount at *
  rw [h]
  exact hg

theorem strictlyInside_inBox {lo hi v : Vec2 F} (h : strictlyInside lo hi v) : inBox lo hi v :=
  ⟨h.1.le, h.2.1.le, h.2.2.1.le, h.2.2.2.le⟩

theorem plainLoop_single (M : MathLib F) (cfg : Lagrangian2dPara F) :
    ∀ (n : Nat) (ps : ParticleSystem2d F) (p : ParticleInfo2d F),
      ps.particles = [p] → validBlockNum ps →
      (∀ k, k ≤ n → strictlyInside ps.lowerBound ps.upperBound
        (eulerSteps (solveDt cfg) (solveGravity cfg) k (p.position, p.velocity)).1) →
      (∀ k, 1 ≤ k → k ≤ n → Vec2.length M
        (eulerSteps (solveDt cfg) (solveGravity cfg) k (p.position, p.velocity)).2 ≤
          cfg.maxVelocity) →
      ∃ psn pn, plainLoop M cfg n ps = some psn ∧ psn.particles = [pn] ∧
        (pn.position, pn.velocity) =
          eulerSteps (solveDt cfg) (solveGravity cfg) n (p.position, p.velocity) := by
  intro n
  induction n with
  | zero =>
    intro ps p hp _ _ _
    exact ⟨ps, p, rfl, hp, rfl⟩
  | succ n ih =>
    intro ps p hp hg hin hspeed
    obtain ⟨ps1, p1, hs, hp1, hstate, hbn, hlo, hhi, _⟩ :=
      solve_single_step M cfg ps p hp hg (strictlyInside_inBox (hin 0 (Nat.zero_le _)))
        (hspeed 1 (le_refl _) (Nat.succ_le_succ (Nat.zero_le _)))
        (hin 1 (Nat.succ_le_succ (Nat.zero_le _)))
    obtain ⟨psn, pn, hloop, hpn, hfin⟩ := ih ps1 p1 hp1 (validBlockNum_congr hbn hg)
      (by
        intro k hk
        rw [hlo, hhi, hstate]
        exact hin (k + 1) (Nat.succ_le_succ hk))
      (by
        intro k hk1 hk
        rw [hstate]
        exact hspeed (k + 1) (Nat.succ_le_succ (Nat.zero_le _)) (Nat.succ_le_succ hk))
    refine ⟨psn, pn, ?_, hpn, ?_⟩
    · simp only [plainLoop, hs]
      exact hloop
    · rw [hfin, hstate]
      rfl



/-! ## Bucket ranges of a sorted particle list -/

theorem forRange_slice {β : Type} (body : β → ParticleInfo2d F → β)
    (B C : List (ParticleInfo2d F)) :
    ∀ (A : List (ParticleInfo2d F)) (acc : β),
      forRange (A ++ B ++ C) body (List.range' A.length B.length) acc =
        some (B.foldl body acc) := by
  induction B with
  | nil => intro A acc; simp [forRange]
  | cons b B ih =>
    intro A acc
    have hget : (A ++ b :: B ++ C)[A.length]? = some b := by
      rw [List.append_assoc, List.getElem?_append_right (le_refl _)]
      simp
    rw [List.length_cons, List.range'_succ]
    simp only [forRange, hget, List.foldl_cons]
    have h := ih (A ++ [b]) (body acc b)
    simp only [List.length_append, List.length_singleton, List.append_assoc,
      List.singleton_append] at h
    simpa [List.append_assoc] using h

theorem sorted_filter_split (c : Nat) :
    ∀ (l : List (ParticleInfo2d F)), l.Sorted (fun a b => a.blockId ≤ b.blockId) →
      l = l.filter (fun p => decide (p.blockId < c)) ++
          l.filter (fun p => decide (p.blockId = c)) ++
          l.filter (fun p => decide (c < p.blockId)) := by
  intro l
  induction l with
  | nil => intro _; rfl
  | cons x l ih =>
    intro hs
    rw [List.sorted_cons] at hs
    obtain ⟨hx, hl⟩ := hs
    have ihl := ih hl
    rcases Nat.lt_trichotomy x.blockId c with h | h | h
    · rw [List.filter_cons_of_pos (by simpa using h),
        List.filter_cons_of_neg (by simp only [decide_eq_true_eq]; omega),
        List.filter_cons_of_neg (by simp only [decide_eq_true_eq]; omega)]
      simp only [List.cons_append]
      rw [← ihl]
    · have hnil : l.filter (fun p => decide (p.blockId < c)) = [] := by
        rw [List.filter_eq_nil_iff]
        intro p hp
        have := hx p hp
        simp only [decide_eq_true_eq]
        omega
      rw [List.filter_cons_of_neg (by simp only [decide_eq_true_eq]; omega),
        List.filter_cons_of_pos (by simpa using h),
        List.filter_cons_of_neg (by simp only [decide_eq_true_eq]; omega)]
      rw [hnil] at ihl ⊢
      simp only [List.nil_append, List.cons_append] at ihl ⊢
      rw [← ihl]
    · have hnil1 : l.filter (fun p => decide (p.blockId < c)) = [] := by
        rw [List.filter_eq_nil_iff]
        intro p hp
        have := hx p hp
        simp only [decide_eq_true_eq]
        omega
      have hnil2 : l.filter (fun p => decide (p.blockId = c)) = [] := by
        rw [List.filter_eq_nil_iff]
        intro p hp
        have := hx p hp
        simp only [decide_eq_true_eq]
        omega
      rw [List.filter_cons_of_neg (by simp only [decide_eq_true_eq]; omega),
        List.filter_cons_of_neg (by simp only [decide_eq_true_eq]; omega),
        List.filter_cons_of_pos (by simpa using h)]
      rw [hnil1, hnil2] at ihl ⊢
      simp only [List.nil_append] at ihl ⊢
      rw [← ihl]

theorem filter_le_length (c : Nat) (l : List (ParticleInfo2d F)) :
    (l.filter (fun p => decide (p.blockId ≤ c))).length =
      (l.filter (fun p => decide (p.blockId < c))).length +
      (l.filter (fun p => decide (p.blockId = c))).length := by
  induction l with
  | nil => rfl
  | cons x l ih =>
    rcases Nat.lt_trichotomy x.blockId c with h | h | h
    · rw [List.filter_cons_of_pos (by simp only [decide_eq_true_eq]; omega),
        List.filter_cons_of_pos (by simpa using h),
        List.filter_cons_of_neg (by simp only [decide_eq_true_eq]; omega)]
      simp only [List.length_cons, ih]
      omega
    · rw [List.filter_cons_of_pos (by simp only [decide_eq_true_eq]; omega),
        List.filter_cons_of_neg (by simp only [decide_eq_true_eq]; omega),
        List.filter_cons_of_pos (by simpa using h)]
      simp only [List.length_cons, ih]
      omega
    · rw [List.filter_cons_of_neg (by simp only [decide_eq_true_eq]; omega),
        List.filter_cons_of_neg (by simp only [decide_eq_true_eq]; omega),
        List.filter_cons_of_neg (by simp only [decide_eq_true_eq]; omega)]
      exact ih

/-- On a list sorted by cell id, the `j` loop over the bucket range of cell `c` visits, in
order, exactly the particles whose cell id is `c`. -/
theorem forRange_bucket {β : Type} (body : β → ParticleInfo2d F → β) (c : Nat)
    (l : List (ParticleInfo2d F)) (hs : l.Sorted (fun a b => a.blockId ≤ b.blockId)) (acc : β) :
    forRange l body
      (List.range' (l.filter (fun p => decide (p.blockId < c))).length
        ((l.filter (fun p => decide (p.blockId ≤ c))).length -
          (l.filter (fun p => decide (p.blockId < c))).length)) acc =
      some ((l.filter (fun p => decide (p.blockId = c))).foldl body acc) := by
  have hsplit := sorted_filter_split c l hs
  rw [filter_le_length, Nat.add_sub_cancel_left]
  have h := forRange_slice body (l.filter (fun p => decide (p.blockId = c)))
    (l.filter (fun p => decide (c < p.blockId)))
    (l.filter (fun p => decide (p.blockId < c))) acc
  rw [← hsplit] at h
  exact h

/-- The neighbour loops over the cells `cells`, on a list sorted by cell id whose bucket table
lists for each of these cells the range of the particles with that cell id. -/
theorem forNeighbors_sorted {β : Type} (body : β → ParticleInfo2d F → β)
    (l : List (ParticleInfo2d F)) (hs : l.Sorted (fun a b => a.blockId ≤ b.blockId))
    (blockExtens : List (Nat × Nat)) :
    ∀ (cells : List Nat) (acc : β),
      (∀ c ∈ cells, blockExtens[c]? = some
        ((l.filter (fun p => decide (p.blockId < c))).length,
         (l.filter (fun p => decide (p.blockId ≤ c))).length)) →
      forNeighbors l blockExtens body cells acc =
        some (cells.foldl
          (fun a c => (l.filter (fun p => decide (p.blockId = c))).foldl body a) acc) := by
  intro cells
  induction cells with
  | nil => intro acc _; rfl
  | cons c cells ih =>
    intro acc h
    have hc := h c (List.mem_cons_self _ _)
    have hrest : ∀ c ∈ cells, blockExtens[c]? = some
        ((l.filter (fun p => decide (p.blockId < c))).length,
         (l.filter (fun p => decide (p.blockId ≤ c))).length) :=
      fun k hk => h k (List.mem_cons_of_mem _ hk)
    simp only [forNeighbors, hc, List.foldl_cons]
    split_ifs with hle
    · have hnil : l.filter (fun p => decide (p.blockId = c)) = [] := by
        rw [← List.length_eq_zero]
        have := filter_le_length c l
        omega
      rw [hnil]
      exact ih acc hrest
    · rw [forRange_bucket body c l hs acc]
      exact ih _ hrest



/-! ## The neighbour stencil in closed form -/





theorem coord_minus_valid {base n : Nat} (hb : base < n) (hn : n < 2147483648) :
    (addInt32 (toInt32 base) (-1) < 0 ∨ addInt32 (toInt32 base) (-1) ≥ toInt32 n) ↔ ¬ 1 ≤ base := by
  unfold addInt32 toInt32 u32
  rw [if_pos (by omega), if_pos (by omega)]
  constructor <;> intro h <;> omega

theorem coord_minus_value {base n : Nat} (hb : base < n) (hn : n < 2147483648) (h1 : 1 ≤ base) :
    ofInt32 (addInt32 (toInt32 base) (-1)) = base - 1 := by
  unfold addInt32 toInt32 ofInt32 u32
  rw [if_pos (by omega)]
  omega

theorem coord_zero_valid {base n : Nat} (hb : base < n) (hn : n < 2147483648) :
    ¬ (addInt32 (toInt32 base) 0 < 0 ∨ addInt32 (toInt32 base) 0 ≥ toInt32 n) := by
  unfold addInt32 toInt32 u32
  rw [if_pos (by omega), if_pos (by omega)]
  omega

theorem coord_zero_value {base n : Nat} (hb : base < n) (hn : n < 2147483648) :
    ofInt32 (addInt32 (toInt32 base) 0) = base := by
  unfold addInt32 toInt32 ofInt32 u32
  rw [if_pos (by omega)]
  omega

theorem coord_plus_valid {base n : Nat} (hb : base < n) (hn : n < 2147483648) :
    (addInt32 (toInt32 base) 1 < 0 ∨ addInt32 (toInt32 base) 1 ≥ toInt32 n) ↔ ¬ base + 1 < n := by
  unfold addInt32 toInt32 u32
  rw [if_pos (by omega), if_pos (by omega)]
  constructor <;> intro h <;> omega

theorem coord_plus_value {base n : Nat} (hb : base < n) (hn : n < 2147483648) :
    ofInt32 (addInt32 (toInt32 base) 1) = base + 1 := by
  unfold addInt32 toInt32 ofInt32 u32
  rw [if_pos (by omega)]
  omega

theorem stencil_row_eq (blocksX x n : Nat) (hx : x < blocksX) (hbx : blocksX < 2147483648)
    (hn : (n + 1) * blocksX < 4294967296) :
    (([-1, 0, 1] : List Int).flatMap fun dx =>
      if addInt32 (toInt32 x) dx < 0 ∨ addInt32 (toInt32 x) dx ≥ toInt32 blocksX then []
      else [blockIdFromCoord (ofInt32 (addInt32 (toInt32 x) dx), n) blocksX]) =
      stencilRow blocksX x n := by
  have hb : ∀ k, k < blocksX → u32 (n * blocksX + k) = n * blocksX + k := by
    intro k hk
    unfold u32
    apply Nat.mod_eq_of_lt
    have : n * blocksX + k < (n + 1) * blocksX := by rw [Nat.succ_mul]; omega
    omega
  simp only [List.flatMap_cons, List.flatMap_nil, List.append_nil, stencilRow, blockIdFromCoord,
    coord_minus_valid hx hbx, coord_plus_valid hx hbx, coord_zero_valid hx hbx,
    coord_zero_value hx hbx, coord_plus_value hx hbx, ite_not, if_false]
  by_cases h1 : 1 ≤ x
  · rw [if_pos h1, if_pos h1, coord_minus_value hx hbx h1, hb _ (by omega), hb _ hx]
    by_cases h2 : x + 1 < blocksX
    · rw [if_pos h2, if_pos h2, hb _ h2]
      simp
    · rw [if_neg h2, if_neg h2]
      simp
  · rw [if_neg h1, if_neg h1, hb _ hx]
    by_cases h2 : x + 1 < blocksX
    · rw [if_pos h2, if_pos h2, hb _ h2]
      simp
    · rw [if_neg h2, if_neg h2]
      simp

theorem neighborBlockIds_eq (blockId blocksX blocksY : Nat)
    (hbx : blocksX < 2147483648) (hby : blocksY < 2147483648)
    (hprod : blocksX * blocksY < 4294967296) (hid : blockId < blocksX * blocksY) :
    neighborBlockIds blockId blocksX blocksY =
      stencil blocksX blocksY (blockId % blocksX) (blockId / blocksX) := by
  have hx0 : 0 < blocksX := Nat.pos_of_ne_zero (fun e => by simp [e] at hid)
  have hx : blockId % blocksX < blocksX := Nat.mod_lt _ hx0
  have hy : blockId / blocksX < blocksY := Nat.div_lt_of_lt_mul hid
  have hrow : ∀ n, n < blocksY → (n + 1) * blocksX < 4294967296 := by
    intro n hn
    calc (n + 1) * blocksX ≤ blocksY * blocksX := Nat.mul_le_mul_right _ hn
      _ = blocksX * blocksY := Nat.mul_comm _ _
      _ < 4294967296 := hprod
  have flatMap3 : ∀ f : Int → List Nat,
      ([-1, 0, 1] : List Int).flatMap f = f (-1) ++ f 0 ++ f 1 := by
    intro f; simp
  unfold neighborBlockIds blockCoordFromId
  rw [flatMap3]
  simp only [stencil, coord_minus_valid hy hby, coord_plus_valid hy hby, coord_zero_valid hy hby,
    coord_zero_value hy hby, coord_plus_value hy hby, ite_not, if_false]
  rw [stencil_row_eq blocksX _ _ hx hbx (hrow _ hy)]
  by_cases h1 : 1 ≤ blockId / blocksX
  · rw [if_pos h1, if_pos h1, coord_minus_value hy hby h1,
      stencil_row_eq blocksX _ _ hx hbx (hrow _ (by omega))]
    by_cases h2 : blockId / blocksX + 1 < blocksY
    · rw [if_pos h2, if_pos h2, stencil_row_eq blocksX _ _ hx hbx (hrow _ h2)]
    · rw [if_neg h2, if_neg h2]
  · rw [if_neg h1, if_neg h1]
    by_cases h2 : blockId / blocksX + 1 < blocksY
    · rw [if_pos h2, if_pos h2, stencil_row_eq blocksX _ _ hx hbx (hrow _ h2)]
    · rw [if_neg h2, if_neg h2]


theorem cell_eq_iff {blocksX n k n1 k1 : Nat} (hk : k < blocksX) (hk1 : k1 < blocksX) :
    n * blocksX + k = n1 * blocksX + k1 ↔ n = n1 ∧ k = k1 := by
  constructor
  · intro h
    rcases Nat.lt_trichotomy n n1 with hlt | heq | hgt
    · have : (n + 1) * blocksX ≤ n1 * blocksX := Nat.mul_le_mul_right _ hlt
      rw [Nat.succ_mul] at this
      omega
    · subst heq
      exact ⟨rfl, by omega⟩
    · have : (n1 + 1) * blocksX ≤ n * blocksX := Nat.mul_le_mul_right _ hgt
      rw [Nat.succ_mul] at this
      omega
  · rintro ⟨rfl, rfl⟩
    rfl

theorem count_singleton_cell {blocksX n k n1 k1 : Nat} (hk : k < blocksX) (hk1 : k1 < blocksX) :
    List.count (n1 * blocksX + k1) [n * blocksX + k] = if n = n1 ∧ k = k1 then 1 else 0 := by
  rw [List.count_singleton]
  by_cases h : n = n1 ∧ k = k1
  · rw [if_pos h]
    obtain ⟨rfl, rfl⟩ := h
    simp
  · rw [if_neg h]
    have hne : ¬ n * blocksX + k = n1 * blocksX + k1 := by
      rw [cell_eq_iff hk hk1]; exact h
    simp [hne]

theorem stencilRow_count {blocksX x n x1 n1 : Nat} (hx : x < blocksX) (hx1 : x1 < blocksX)
    (hadj : x ≤ x1 + 1 ∧ x1 ≤ x + 1) :
    (stencilRow blocksX x n).count (n1 * blocksX + x1) = if n = n1 then 1 else 0 := by
  unfold stencilRow
  rw [List.count_append, List.count_append, count_singleton_cell hx hx1]
  by_cases h1 : 1 ≤ x <;> by_cases h2 : x + 1 < blocksX
  · rw [if_pos h1, if_pos h2, count_singleton_cell (by omega) hx1, count_singleton_cell h2 hx1]
    by_cases hn : n = n1
    · simp only [hn, true_and, if_true]
      split_ifs <;> omega
    · simp [hn]
  · rw [if_pos h1, if_neg h2, count_singleton_cell (by omega) hx1, List.count_nil]
    by_cases hn : n = n1
    · simp only [hn, true_and, if_true]
      split_ifs <;> omega
    · simp [hn]
  · rw [if_neg h1, if_pos h2, count_singleton_cell h2 hx1, List.count_nil]
    by_cases hn : n = n1
    · simp only [hn, true_and, if_true]
      split_ifs <;> omega
    · simp [hn]
  · rw [if_neg h1, if_neg h2, List.count_nil]
    by_cases hn : n = n1
    · simp only [hn, true_and, if_true]
      split_ifs <;> omega
    · simp [hn]

theorem stencil_count {blocksX blocksY x y x1 y1 : Nat} (hx : x < blocksX) (hx1 : x1 < blocksX)
    (hy : y < blocksY) (hy1 : y1 < blocksY)
    (hadjx : x ≤ x1 + 1 ∧ x1 ≤ x + 1) (hadjy : y ≤ y1 + 1 ∧ y1 ≤ y + 1) :
    (stencil blocksX blocksY x y).count (y1 * blocksX + x1) = 1 := by
  unfold stencil
  rw [List.count_append, List.count_append, stencilRow_count hx hx1 hadjx]
  by_cases h1 : 1 ≤ y <;> by_cases h2 : y + 1 < blocksY
  · rw [if_pos h1, if_pos h2, stencilRow_count hx hx1 hadjx, stencilRow_count hx hx1 hadjx]
    split_ifs <;> omega
  · rw [if_pos h1, if_neg h2, stencilRow_count hx hx1 hadjx, List.count_nil]
    split_ifs <;> omega
  · rw [if_neg h1, if_pos h2, stencilRow_count hx hx1 hadjx, List.count_nil]
    split_ifs <;> omega
  · rw [if_neg h1, if_neg h2, List.count_nil]
    split_ifs <;> omega



theorem neighborBlockIds_count (c c1 blocksX blocksY : Nat)
    (hbx : blocksX < 2147483648) (hby : blocksY < 2147483648)
    (hprod : blocksX * blocksY < 4294967296) (hc : c < blocksX * blocksY)
    (hc1 : c1 < blocksX * blocksY) (hadj : adjacentCells blocksX c c1) :
    (neighborBlockIds c blocksX blocksY).count c1 = 1 := by
  have hx0 : 0 < blocksX := Nat.pos_of_ne_zero (fun e => by simp [e] at hc)
  rw [neighborBlockIds_eq c blocksX blocksY hbx hby hprod hc]
  have h := stencil_count (Nat.mod_lt c hx0) (Nat.mod_lt c1 hx0)
    (Nat.div_lt_of_lt_mul hc) (Nat.div_lt_of_lt_mul hc1) hadj.1 hadj.2
  rw [Nat.div_add_mod' c1 blocksX] at h
  exact h




theorem densityBody_eq (M : MathLib F) (cfg : Lagrangian2dPara F) (ps : ParticleSystem2d F)
    (position : Vec2 F) (acc : F) (q : ParticleInfo2d F) :
    densityBody M cfg ps position acc q = acc + densityTerm M cfg ps position q.position := rfl

theorem foldl_densityBody (M : MathLib F) (cfg : Lagrangian2dPara F) (ps : ParticleSystem2d F)
    (position : Vec2 F) :
    ∀ (l : List (ParticleInfo2d F)) (acc : F),
      l.foldl (densityBody M cfg ps position) acc =
        acc + (l.map fun q => densityTerm M cfg ps position q.position).sum := by
  intro l
  induction l with
  | nil => intro acc; simp
  | cons x l ih =>
    intro acc
    rw [List.foldl_cons, ih, densityBody_eq, List.map_cons, List.sum_cons, add_assoc]

theorem filter_sum_add_count (w : ParticleInfo2d F → F) (c : Nat) (cells : List Nat) :
    ∀ l : List (ParticleInfo2d F),
      ((l.filter fun p => decide (p.blockId = c)).map w).sum +
          (l.map fun p => (cells.count p.blockId : F) * w p).sum =
        (l.map fun p => ((c :: cells).count p.blockId : F) * w p).sum := by
  intro l
  induction l with
  | nil => simp
  | cons x l ih =>
    by_cases h : x.blockId = c
    · rw [List.filter_cons_of_pos (by simpa using h)]
      simp only [List.map_cons, List.sum_cons]
      rw [← ih, List.count_cons, if_pos (by simpa using h.symm)]
      push_cast
      ring
    · rw [List.filter_cons_of_neg (by simpa using h)]
      simp only [List.map_cons, List.sum_cons]
      rw [← ih, List.count_cons, if_neg (by simpa using fun e => h e.symm)]
      push_cast
      ring

theorem cells_foldl_density (M : MathLib F) (cfg : Lagrangian2dPara F) (ps : ParticleSystem2d F)
    (position : Vec2 F) (l : List (ParticleInfo2d F)) :
    ∀ (cells : List Nat) (acc : F),
      cells.foldl (fun a c =>
          (l.filter fun p => decide (p.blockId = c)).foldl (densityBody M cfg ps position) a) acc =
        acc + (l.map fun p =>
          (cells.count p.blockId : F) * densityTerm M cfg ps position p.position).sum := by
  intro cells
  induction cells with
  | nil => intro acc; simp
  | cons c cells ih =>
    intro acc
    rw [List.foldl_cons, ih, foldl_densityBody, add_assoc,
      filter_sum_add_count (fun p => densityTerm M cfg ps position p.position) c cells l]

theorem healParticle_valid (ps : ParticleSystem2d F) (p : ParticleInfo2d F)
    (h : p.blockId < blockCount ps) : healParticle ps p = p := by
  simp [healParticle, isValidBlockId, h]

/-- The density loop body for the particle at index `i` of a list sorted by cell id, with valid
cell ids and a bucket table matching the list: the density becomes the floored sum over the
whole list of the kernel terms weighted by the number of times each particle's cell occurs in
the stencil. -/
theorem densityStep_sorted (M : MathLib F) (cfg : Lagrangian2dPara F) (ps : ParticleSystem2d F)
    (l : List (ParticleInfo2d F)) (hs : l.Sorted (fun a b => a.blockId ≤ b.blockId))
    (htable : ∀ c, c < blockCount ps → ps.blockExtens[c]? = some
      ((l.filter (fun p => decide (p.blockId < c))).length,
       (l.filter (fun p => decide (p.blockId ≤ c))).length))
    (hgrid : blockCount ps = ps.blockNum.1 * ps.blockNum.2 ∧ 0 < blockCount ps)
    (i : Nat) (p : ParticleInfo2d F) (hi : l[i]? = some p) (hp : p.blockId < blockCount ps) :
    densityStep M cfg ps i l = some (l.set i { p with
      density := max (0 + (l.map fun q =>
          ((neighborBlockIds p.blockId ps.blockNum.1 ps.blockNum.2).count q.blockId : F) *
            densityTerm M cfg ps p.position q.position).sum) (cfg.density * 0.1) }) := by
  have hset : l.set i p = l := by
    apply List.ext_getElem?
    intro k
    by_cases hk : i = k
    · subst hk
      rw [hi]
      have hlt : i < l.length := by
        rcases Nat.lt_or_ge i l.length with h | h
        · exact h
        · rw [List.getElem?_eq_none h] at hi; exact absurd hi (by simp)
      rw [List.getElem?_set_self hlt]
    · rw [List.getElem?_set_ne hk]
  have hprod : ps.blockNum.1 * ps.blockNum.2 < 4294967296 := by
    rw [← hgrid.1]
    exact Nat.mod_lt _ (by norm_num)
  simp only [densityStep, hi, healParticle_valid ps p hp, hset]
  rw [forNeighbors_sorted (densityBody M cfg ps p.position) l hs ps.blockExtens _ 0
    (fun c hc => htable c (by
      rw [hgrid.1]
      exact neighborBlockIds_lt hprod (hgrid.1 ▸ hgrid.2) c hc))]
  simp only [cells_foldl_density]



theorem adjacentCells_symm {blocksX c c1 : Nat} (h : adjacentCells blocksX c c1) :
    adjacentCells blocksX c1 c :=
  ⟨⟨h.1.2, h.1.1⟩, ⟨h.2.2, h.2.1⟩⟩

theorem adjacentCells_refl (blocksX c : Nat) : adjacentCells blocksX c c :=
  ⟨⟨Nat.le_succ _, Nat.le_succ _⟩, ⟨Nat.le_succ _, Nat.le_succ _⟩⟩

/-- The density pass on two particles sorted by cell id, in the same or in adjacent cells, with
a bucket table matching the list. -/
theorem densityPass_pair (M : MathLib F) (cfg : Lagrangian2dPara F) (ps : ParticleSystem2d F)
    (p0 p1 : ParticleInfo2d F) (hle : p0.blockId ≤ p1.blockId)
    (htable : ∀ c, c < blockCount ps → ps.blockExtens[c]? = some
      (([p0, p1].filter (fun p => decide (p.blockId < c))).length,
       ([p0, p1].filter (fun p => decide (p.blockId ≤ c))).length))
    (hgrid : validBlockNum ps)
    (hbx : ps.blockNum.1 < 2147483648) (hby : ps.blockNum.2 < 2147483648)
    (h0 : p0.blockId < blockCount ps) (h1 : p1.blockId < blockCount ps)
    (hadj : adjacentCells ps.blockNum.1 p0.blockId p1.blockId) :
    densityPass M cfg ps [p0, p1] = some
      [{ p0 with density := max (densityTerm M cfg ps p0.position p0.position +
            densityTerm M cfg ps p0.position p1.position) (cfg.density * 0.1) },
       { p1 with density := max (densityTerm M cfg ps p1.position p0.position +
            densityTerm M cfg ps p1.position p1.position) (cfg.density * 0.1) }] := by
  have hprod : ps.blockNum.1 * ps.blockNum.2 < 4294967296 := by
    rw [← hgrid.1]
    exact Nat.mod_lt _ (by norm_num)
  have h0' : p0.blockId < ps.blockNum.1 * ps.blockNum.2 := hgrid.1 ▸ h0
  have h1' : p1.blockId < ps.blockNum.1 * ps.blockNum.2 := hgrid.1 ▸ h1
  have c00 := neighborBlockIds_count p0.blockId p0.blockId _ _ hbx hby hprod h0' h0'
    (adjacentCells_refl _ _)
  have c01 := neighborBlockIds_count p0.blockId p1.blockId _ _ hbx hby hprod h0' h1' hadj
  have c10 := neighborBlockIds_count p1.blockId p0.blockId _ _ hbx hby hprod h1' h0'
    (adjacentCells_symm hadj)
  have c11 := neighborBlockIds_count p1.blockId p1.blockId _ _ hbx hby hprod h1' h1'
    (adjacentCells_refl _ _)
  have hs : [p0, p1].Sorted (fun a b => a.blockId ≤ b.blockId) := by
    simp [List.Sorted, hle]
  show forEachParticle (densityStep M cfg ps) [0, 1] [p0, p1] = _
  simp only [forEachParticle]
  rw [densityStep_sorted M cfg ps [p0, p1] hs htable hgrid 0 p0 rfl h0]
  simp only [List.set_cons_zero, List.map_cons, List.map_nil, List.sum_cons, List.sum_nil,
    c00, c01, Nat.cast_one, one_mul, add_zero, zero_add]
  generalize hq : ({ p0 with density := max (densityTerm M cfg ps p0.position p0.position +
      densityTerm M cfg ps p0.position p1.position) (cfg.density * 0.1) } : ParticleInfo2d F) = q
  have hqid : q.blockId = p0.blockId := by rw [← hq]
  have hqpos : q.position = p0.position := by rw [← hq]
  have htable1 : ∀ c, c < blockCount ps → ps.blockExtens[c]? = some
      (([q, p1].filter (fun p => decide (p.blockId < c))).length,
       ([q, p1].filter (fun p => decide (p.blockId ≤ c))).length) := by
    intro c hc
    rw [htable c hc]
    simp only [List.filter_cons, hqid, List.filter_nil]
    split_ifs <;> rfl
  rw [densityStep_sorted M cfg ps [q, p1] (by simp [List.Sorted, hqid, hle]) htable1 hgrid 1 p1
    rfl h1]
  simp only [List.set_cons_succ, List.set_cons_zero, List.map_cons, List.map_nil, List.sum_cons,
    List.sum_nil, hqid, hqpos, c10, c11, Nat.cast_one, one_mul, add_zero, zero_add]

theorem updateBlockInfo_table (ps : ParticleSystem2d F) (c : Nat) (hc : c < blockCount ps) :
    (updateBlockInfo ps).blockExtens[c]? = some
      (((updateBlockInfo ps).particles.filter (fun p => decide (p.blockId < c))).length,
       ((updateBlockInfo ps).particles.filter (fun p => decide (p.blockId ≤ c))).length) := by
  simp [updateBlockInfo, List.getElem?_map, List.getElem?_range hc]

theorem densityTerm_self (M : MathLib F) (cfg : Lagrangian2dPara F) (ps : ParticleSystem2d F)
    (x : Vec2 F) (hh2 : ps.supportRadius2 = ps.supportRadius * ps.supportRadius) :
    densityTerm M cfg ps x x =
      cfg.density * ps.particleVolume * (4 / (piLit * M.pow ps.supportRadius 8)) *
        ps.supportRadius ^ 6 := by
  unfold densityTerm poly6Kernel2D particleMass poly6Coeff
  have hr : (x.sub x).dot (x.sub x) = 0 := by simp [Vec2.sub, Vec2.dot]
  rw [hr, hh2]
  by_cases h : ps.supportRadius = 0
  · simp [h]
  · have hpos : 0 < ps.supportRadius * ps.supportRadius := mul_self_pos.mpr h
    rw [if_neg (not_le.mpr hpos)]
    simp only [sub_zero]
    ring

theorem densityTerm_pair (M : MathLib F) (cfg : Lagrangian2dPara F) (ps : ParticleSystem2d F)
    (x y : Vec2 F) (d : F) (hh2 : ps.supportRadius2 = ps.supportRadius * ps.supportRadius)
    (hh : 0 ≤ ps.supportRadius) (hd0 : 0 ≤ d) (hd : d * d = (x.sub y).dot (x.sub y)) :
    densityTerm M cfg ps x y =
      if d < ps.supportRadius then
        cfg.density * ps.particleVolume * (4 / (piLit * M.pow ps.supportRadius 8)) *
          (ps.supportRadius ^ 2 - d ^ 2) ^ 3
      else 0 := by
  unfold densityTerm poly6Kernel2D particleMass poly6Coeff
  rw [← hd, hh2]
  by_cases h : d < ps.supportRadius
  · have hlt : d * d < ps.supportRadius * ps.supportRadius := by nlinarith
    rw [if_neg (not_le.mpr hlt), if_pos h]
    ring
  · have hge : d * d ≥ ps.supportRadius * ps.supportRadius := by
      have := not_lt.mp h
      nlinarith
    rw [if_pos hge, if_neg h, mul_zero]

theorem dot_sub_comm (x y : Vec2 F) : (x.sub y).dot (x.sub y) = (y.sub x).dot (y.sub x) := by
  simp only [Vec2.sub, Vec2.dot]
  ring




/-! ## The cull -/

theorem eraseRemoveIf_eq_filter {α : Type} (pred : α → Bool) (l : List α) :
    eraseRemoveIf pred l = l.filter (fun a => !pred a) := by
  induction l with
  | nil => rfl
  | cons a l ih =>
    by_cases h : pred a = true
    · simp [eraseRemoveIf, h, ih]
    · simp [eraseRemoveIf, h, ih]

theorem cullPredicate_eq (ps : ParticleSystem2d F) (p : ParticleInfo2d F) :
    cullPredicate ps p = (inDrain ps.scale p || outOfSim ps.scale p) := by
  have hx : p.position.x * (1.0 / ps.scale) = p.position.x / ps.scale := by
    rw [show (1.0 : F) = 1 by norm_num, mul_one_div]
  have hy : p.position.y * (1.0 / ps.scale) = p.position.y / ps.scale := by
    rw [show (1.0 : F) = 1 by norm_num, mul_one_div]
  have hd : (drainY : F) = -1 := by unfold drainY; norm_num
  simp only [cullPredicate, inDrain, outOfSim, Vec2.mulS, hx, hy, drainMinX, drainMaxX, hd,
    killBound, ge_iff_le, gt_iff_lt]
  congr 1
  · congr 1
    simp only [not_and_or, not_le, eq_iff_iff]
    constructor
    · rintro (h | h | h | h)
      · exact Or.inl (Or.inl h)
      · exact Or.inl (Or.inr h)
      · exact Or.inr (Or.inl h)
      · exact Or.inr (Or.inr h)
    · rintro ((h | h) | (h | h))
      · exact Or.inl h
      · exact Or.inr (Or.inl h)
      · exact Or.inr (Or.inr (Or.inl h))
      · exact Or.inr (Or.inr (Or.inr h))

theorem solve_length (M : MathLib F) (cfg : Lagrangian2dPara F) (ps ps1 : ParticleSystem2d F)
    (h : solve M cfg ps = some ps1) : ps1.particles.length = ps.particles.length := by
  by_cases hne : ps.particles = []
  · rw [solve_of_nil M cfg ps hne, Option.some.injEq] at h
    rw [← h]
  · obtain ⟨l, rfl, hl⟩ := solve_cases M cfg ps ps1 hne h
    rw [updateBlockInfo_length]
    rcases hl with ⟨_, rfl⟩ | ⟨_, wd, wf, h1, h2, rfl⟩
    · simp
    · have e1 := (densityPass_rel M cfg ps _ _ h1).length_eq
      have e2 := (forcePass_rel M cfg ps _ _ h2).length_eq
      simp only [List.length_map] at e2 ⊢
      rw [← e2, ← e1]

theorem cull_length_le (ps : ParticleSystem2d F) :
    (cull ps).particles.length ≤ ps.particles.length := by
  show (eraseRemoveIf (cullPredicate ps) ps.particles).length ≤ _
  rw [eraseRemoveIf_eq_filter]
  exact List.length_filter_le _ _

theorem emitLayer_length_le (M : MathLib F) (cfg : Lagrangian2dPara F) (ps : ParticleSystem2d F)
    (rand : Nat → F) (jitterX y xStep : F) :
    ∀ (fuel : Nat) (x : F) (st st1 : EmitState F),
      st.particles.length ≤ maxParticleCount →
      emitLayer M cfg ps rand jitterX y xStep fuel x st = some st1 →
      st1.particles.length ≤ maxParticleCount ∧ st.particles.length ≤ st1.particles.length := by
  intro fuel
  induction fuel with
  | zero => intro x st st1 _ h; simp [emitLayer] at h
  | succ fuel ih =>
    intro x st st1 hle h
    simp only [emitLayer] at h
    split_ifs at h with h1 h2 h3
    · rw [Option.some.injEq] at h; subst h; exact ⟨hle, le_refl _⟩
    · have := ih _ _ _ (by
        simp only [List.length_append, List.length_singleton]
        simp only [ge_iff_le, not_le] at h2
        exact h2) h
      simp only [List.length_append, List.length_singleton] at this
      exact ⟨this.1, by omega⟩
    · exact ih _ { particles := st.particles, draws := st.draws + 1 } _ hle h
    · rw [Option.some.injEq] at h; subst h; exact ⟨hle, le_refl _⟩

theorem emitPhase_length_le (M : MathLib F) (cfg : Lagrangian2dPara F) (ps : ParticleSystem2d F)
    (rand : Nat → F) (emitterStep fuel : Nat) (st st1 : EmitState F)
    (hle : st.particles.length ≤ maxParticleCount)
    (h : emitPhase M cfg ps rand emitterStep fuel st = some st1) :
    st1.particles.length ≤ maxParticleCount ∧ st.particles.length ≤ st1.particles.length := by
  simp only [emitPhase] at h
  split_ifs at h with h1
  · split at h
    · exact absurd h (by simp)
    · rename_i e he
      have h2 := emitLayer_length_le M cfg ps rand _ _ _ _ _ _ _ (by exact hle) he
      have h3 := emitLayer_length_le M cfg ps rand _ _ _ _ _ _ _ h2.1 h
      exact ⟨h3.1, le_trans h2.2 h3.2⟩
  · rw [Option.some.injEq] at h; subst h; exact ⟨hle, le_refl _⟩

/-- One continuous-flow sub-step keeps the count at or below the ceiling, also right after its
emission phase. -/
theorem fountainSubstep_length_le (M : MathLib F) (cfg : Lagrangian2dPara F) (rand : Nat → F)
    (emitterStep fuel : Nat) (st st1 : FountainState F)
    (hle : st.ps.particles.length ≤ maxParticleCount)
    (h : fountainSubstep M cfg rand emitterStep fuel st = some st1) :
    st1.ps.particles.length ≤ maxParticleCount ∧
    ∃ e, emitPhase M cfg st.ps rand emitterStep fuel ⟨st.ps.particles, st.draws⟩ = some e ∧
      e.particles.length ≤ maxParticleCount := by
  simp only [fountainSubstep] at h
  cases he : emitPhase M cfg st.ps rand emitterStep fuel ⟨st.ps.particles, st.draws⟩ with
  | none => rw [he] at h; exact absurd h (by simp)
  | some e =>
    rw [he] at h
    simp only at h
    have hem := (emitPhase_length_le M cfg st.ps rand emitterStep fuel _ e hle he).1
    cases hs : solve M cfg (updateBlockInfo { st.ps with particles := e.particles }) with
    | none => rw [hs] at h; exact absurd h (by simp)
    | some solved =>
      rw [hs] at h
      rw [Option.some.injEq] at h
      subst h
      refine ⟨?_, e, rfl, hem⟩
      have h1 := solve_length M cfg _ _ hs
      rw [updateBlockInfo_length] at h1
      have h2 := cull_length_le solved
      simp only at h1 ⊢
      omega

theorem fountainLoop_length_le (M : MathLib F) (cfg : Lagrangian2dPara F) (rand : Nat → F)
    (emitterStep fuel : Nat) :
    ∀ (n : Nat) (st stn : FountainState F), st.ps.particles.length ≤ maxParticleCount →
      fountainLoop M cfg rand emitterStep fuel n st = some stn →
      ∀ k, k ≤ n → ∃ stk, fountainLoop M cfg rand emitterStep fuel k st = some stk ∧
        stk.ps.particles.length ≤ maxParticleCount ∧
        (k < n → ∃ e, emitPhase M cfg stk.ps rand emitterStep fuel
            ⟨stk.ps.particles, stk.draws⟩ = some e ∧
          e.particles.length ≤ maxParticleCount) := by
  intro n
  induction n with
  | zero =>
    intro st stn hle _ k hk
    have hk0 : k = 0 := Nat.le_zero.mp hk
    subst hk0
    exact ⟨st, rfl, hle, fun h => absurd h (Nat.lt_irrefl 0)⟩
  | succ n ih =>
    intro st stn hle h k hk
    simp only [fountainLoop] at h
    cases hs : fountainSubstep M cfg rand emitterStep fuel st with
    | none => rw [hs] at h; exact absurd h (by simp)
    | some st1 =>
      rw [hs] at h
      simp only at h
      obtain ⟨h1, e, he, hel⟩ := fountainSubstep_length_le M cfg rand emitterStep fuel st st1 hle hs
      cases k with
      | zero => exact ⟨st, rfl, hle, fun _ => ⟨e, he, hel⟩⟩
      | succ k =>
        obtain ⟨stk, hk1, hk2, hk3⟩ := ih st1 stn h1 h k (Nat.le_of_succ_le_succ hk)
        refine ⟨stk, ?_, hk2, fun hlt => hk3 (Nat.lt_of_succ_lt_succ hlt)⟩
        simp only [fountainLoop, hs]
        exact hk1

/-! ## Emission -/

theorem exists_loopRuns [Archimedean F] (xMax xStep : F) (hstep : 0 < xStep) (x : F) :
    ∃ K, loopRuns xMax xStep K x := by
  obtain ⟨n, hn⟩ := Archimedean.arch (xMax - x + 1) hstep
  have key : ∀ (n : Nat) (x : F), xMax - x + 1 ≤ n • xStep → ∃ K, loopRuns xMax xStep K x := by
    intro n
    induction n with
    | zero =>
      intro x h
      rw [zero_smul] at h
      exact ⟨0, by simp only [loopRuns]; linarith⟩
    | succ n ih =>
      intro x h
      by_cases hx : xMax < x
      · exact ⟨0, hx⟩
      · obtain ⟨K, hK⟩ := ih (x + xStep) (by
          rw [succ_nsmul] at h
          linarith)
        exact ⟨K + 1, not_lt.mp hx, hK⟩
  exact key n x hn

theorem emitLayer_count (M : MathLib F) (cfg : Lagrangian2dPara F) (ps : ParticleSystem2d F)
    (rand : Nat → F) (jitterX y xStep : F) :
    ∀ (K fuel : Nat) (x : F) (st : EmitState F),
      loopRuns (emitterMaxX + 1e-6) xStep K x → K < fuel →
      st.particles.length ≤ maxParticleCount →
      ∃ st1, emitLayer M cfg ps rand jitterX y xStep fuel x st = some st1 ∧
        st1.particles.length = min maxParticleCount (st.particles.length +
          ((emitterXs xStep K x).filter (candidateValid ps jitterX y)).length) := by
  intro K
  induction K with
  | zero =>
    intro fuel x st hrun hfuel hle
    obtain ⟨f, rfl⟩ : ∃ f, fuel = f + 1 := ⟨fuel - 1, by omega⟩
    simp only [loopRuns] at hrun
    refine ⟨st, ?_, ?_⟩
    · simp only [emitLayer]
      rw [if_neg (not_le.mpr hrun)]
    · simp only [emitterXs, List.filter_nil, List.length_nil, Nat.add_zero]
      exact (Nat.min_eq_right hle).symm
  | succ K ih =>
    intro fuel x st hrun hfuel hle
    obtain ⟨f, rfl⟩ : ∃ f, fuel = f + 1 := ⟨fuel - 1, by omega⟩
    obtain ⟨hx, hrest⟩ := hrun
    simp only [emitLayer]
    rw [if_pos hx]
    by_cases hfull : st.particles.length ≥ maxParticleCount
    · rw [if_pos hfull]
      refine ⟨st, rfl, ?_⟩
      have : st.particles.length = maxParticleCount := le_antisymm hle hfull
      omega
    · rw [if_neg hfull]
      simp only [emitterXs]
      by_cases hv : candidateValid ps jitterX y x = true
      · have hid : (emitCandidate M cfg ps jitterX y (rand st.draws) x).blockId ≠
            invalidBlockId := by
          simpa [candidateValid, emitCandidate] using hv
        rw [if_pos hid, List.filter_cons_of_pos hv]
        obtain ⟨st1, h1, h2⟩ := ih f (x + xStep)
          { particles := st.particles ++ [emitCandidate M cfg ps jitterX y (rand st.draws) x],
            draws := st.draws + 1 } hrest (by omega) (by
              simp only [List.length_append, List.length_singleton]
              omega)
        refine ⟨st1, h1, ?_⟩
        simp only [List.length_append, List.length_singleton] at h2
        rw [h2]
        simp only [List.length_cons]
        omega
      · have hid : ¬ (emitCandidate M cfg ps jitterX y (rand st.draws) x).blockId ≠
            invalidBlockId := by
          simpa [candidateValid, emitCandidate] using hv
        rw [if_neg hid, List.filter_cons_of_neg hv]
        exact ih f (x + xStep) { particles := st.particles, draws := st.draws + 1 } hrest
          (by omega) hle

theorem emitPhase_count (M : MathLib F) (cfg : Lagrangian2dPara F) (ps : ParticleSystem2d F)
    (rand : Nat → F) (emitterStep K0 K1 fuel : Nat) (st : EmitState F)
    (h0 : loopRuns (emitterMaxX + 1e-6) (emitXStep ps) K0 (layerStartX (emitXStep ps) 0))
    (h1 : loopRuns (emitterMaxX + 1e-6) (emitXStep ps) K1 (layerStartX (emitXStep ps) 1))
    (hf0 : K0 < fuel) (hf1 : K1 < fuel) (hle : st.particles.length ≤ maxParticleCount) :
    ∃ st1, emitPhase M cfg ps rand emitterStep fuel st = some st1 ∧
      st1.particles.length = min maxParticleCount
        (st.particles.length + emitCandidates ps rand emitterStep K0 K1 st.draws) := by
  simp only [emitPhase]
  by_cases hlt : st.particles.length < maxParticleCount
  · rw [if_pos hlt]
    obtain ⟨e, he, hlen⟩ := emitLayer_count M cfg ps rand (emitJitterX ps (rand st.draws))
      (emitLayerY ps emitterStep 0) (emitXStep ps) K0 fuel (layerStartX (emitXStep ps) 0)
      { particles := st.particles, draws := st.draws + 1 } h0 hf0 hle
    have he' : emitLayer M cfg ps rand ((rand st.draws - 0.5) * ps.particleDiameter * 0.05)
        (emitterY + (((emitterStep % 4 : Nat) : F) - 1.5) * (ps.particleDiameter * 0.04) +
          ((0 : Nat) : F) * (ps.particleDiameter * 0.85)) (ps.particleDiameter * 0.85) fuel
        (layerStartX (ps.particleDiameter * 0.85) 0)
        { particles := st.particles, draws := st.draws + 1 } = some e := he
    rw [he']
    simp only
    obtain ⟨e1, he1, hlen1⟩ := emitLayer_count M cfg ps rand (emitJitterX ps (rand st.draws))
      (emitLayerY ps emitterStep 1) (emitXStep ps) K1 fuel (layerStartX (emitXStep ps) 1)
      e h1 hf1 (by rw [hlen]; exact Nat.min_le_left _ _)
    refine ⟨e1, he1, ?_⟩
    rw [hlen1, hlen]
    simp only [emitCandidates]
    omega
  · rw [if_neg hlt]
    refine ⟨st, rfl, ?_⟩
    omega

theorem solve_frame (M : MathLib F) (cfg : Lagrangian2dPara F) (ps ps1 : ParticleSystem2d F)
    (h : solve M cfg ps = some ps1) :
    ps1.blockNum = ps.blockNum ∧ ps1.particleDiameter = ps.particleDiameter ∧
      ps1.scale = ps.scale ∧ ps1.getBlockIdByPosition = ps.getBlockIdByPosition ∧
      ps1.lowerBound = ps.lowerBound ∧ ps1.upperBound = ps.upperBound := by
  by_cases hne : ps.particles = []
  · rw [solve_of_nil M cfg ps hne, Option.some.injEq] at h
    rw [← h]
    exact ⟨rfl, rfl, rfl, rfl, rfl, rfl⟩
  · obtain ⟨l, rfl, _⟩ := solve_cases M cfg ps ps1 hne h
    exact ⟨rfl, rfl, rfl, rfl, rfl, rfl⟩

theorem solve_reindexed_isSome (M : MathLib F) (cfg : Lagrangian2dPara F)
    (ps : ParticleSystem2d F) (hg : validBlockNum ps ∨ blockCount ps = 0) :
    ∃ ps1, solve M cfg (updateBlockInfo ps) = some ps1 := by
  rcases hg with hg | hg
  · exact solve_isSome M cfg _ (updateBlockInfo_validGrid ps hg) (updateBlockInfo_extent_le ps)
  · have hb : blockCount (updateBlockInfo ps) = 0 := hg
    unfold solve
    split_ifs with h1 h2
    · exact ⟨_, rfl⟩
    · exact ⟨_, rfl⟩
    · exact absurd (Or.inl hb) h2

theorem fountainSubstep_eq (M : MathLib F) (cfg : Lagrangian2dPara F) (rand : Nat → F)
    (emitterStep fuel : Nat) (st st1 : FountainState F)
    (h : fountainSubstep M cfg rand emitterStep fuel st = some st1) :
    ∃ e solved, emitPhase M cfg st.ps rand emitterStep fuel ⟨st.ps.particles, st.draws⟩ = some e ∧
      solve M cfg (updateBlockInfo { st.ps with particles := e.particles }) = some solved ∧
      st1 = ⟨cull solved, e.draws⟩ := by
  simp only [fountainSubstep] at h
  cases he : emitPhase M cfg st.ps rand emitterStep fuel ⟨st.ps.particles, st.draws⟩ with
  | none => rw [he] at h; exact absurd h (by simp)
  | some e =>
    rw [he] at h
    simp only at h
    cases hs : solve M cfg (updateBlockInfo { st.ps with particles := e.particles }) with
    | none => rw [hs] at h; exact absurd h (by simp)
    | some solved =>
      rw [hs] at h
      rw [Option.some.injEq] at h
      exact ⟨e, solved, rfl, hs, h.symm⟩

theorem fountainSubstep_frame (M : MathLib F) (cfg : Lagrangian2dPara F) (rand : Nat → F)
    (emitterStep fuel : Nat) (st st1 : FountainState F)
    (h : fountainSubstep M cfg rand emitterStep fuel st = some st1) :
    st1.ps.blockNum = st.ps.blockNum ∧ st1.ps.particleDiameter = st.ps.particleDiameter ∧
      st1.ps.scale = st.ps.scale ∧ st1.ps.getBlockIdByPosition = st.ps.getBlockIdByPosition ∧
      st1.ps.lowerBound = st.ps.lowerBound ∧ st1.ps.upperBound = st.ps.upperBound := by
  obtain ⟨e, solved, _, hs, rfl⟩ := fountainSubstep_eq M cfg rand emitterStep fuel st st1 h
  have hf := solve_frame M cfg _ solved hs
  exact hf

theorem fountainSubstep_isSome (M : MathLib F) (cfg : Lagrangian2dPara F) (rand : Nat → F)
    (emitterStep K0 K1 fuel : Nat) (st : FountainState F)
    (h0 : loopRuns (emitterMaxX + 1e-6) (emitXStep st.ps) K0 (layerStartX (emitXStep st.ps) 0))
    (h1 : loopRuns (emitterMaxX + 1e-6) (emitXStep st.ps) K1 (layerStartX (emitXStep st.ps) 1))
    (hf0 : K0 < fuel) (hf1 : K1 < fuel)
    (hg : validBlockNum st.ps ∨ blockCount st.ps = 0)
    (hle : st.ps.particles.length ≤ maxParticleCount) :
    ∃ st1, fountainSubstep M cfg rand emitterStep fuel st = some st1 := by
  obtain ⟨e, he, _⟩ := emitPhase_count M cfg st.ps rand emitterStep K0 K1 fuel
    ⟨st.ps.particles, st.draws⟩ h0 h1 hf0 hf1 hle
  obtain ⟨solved, hs⟩ := solve_reindexed_isSome M cfg { st.ps with particles := e.particles }
    (by
      rcases hg with hg | hg
      · exact Or.inl (validBlockNum_congr rfl hg)
      · exact Or.inr hg)
  refine ⟨⟨cull solved, e.draws⟩, ?_⟩
  simp only [fountainSubstep, he, hs]

theorem fountainLoop_isSome (M : MathLib F) (cfg : Lagrangian2dPara F) (rand : Nat → F)
    (emitterStep K0 K1 fuel : Nat) (hf0 : K0 < fuel) (hf1 : K1 < fuel) :
    ∀ (n : Nat) (st : FountainState F),
      loopRuns (emitterMaxX + 1e-6) (emitXStep st.ps) K0 (layerStartX (emitXStep st.ps) 0) →
      loopRuns (emitterMaxX + 1e-6) (emitXStep st.ps) K1 (layerStartX (emitXStep st.ps) 1) →
      (validBlockNum st.ps ∨ blockCount st.ps = 0) →
      st.ps.particles.length ≤ maxParticleCount →
      ∃ stn, fountainLoop M cfg rand emitterStep fuel n st = some stn := by
  intro n
  induction n with
  | zero => intro st _ _ _ _; exact ⟨st, rfl⟩
  | succ n ih =>
    intro st h0 h1 hg hle
    obtain ⟨st1, hs⟩ := fountainSubstep_isSome M cfg rand emitterStep K0 K1 fuel st h0 h1 hf0 hf1
      hg hle
    obtain ⟨hbn, hd, _, _, _, _⟩ := fountainSubstep_frame M cfg rand emitterStep fuel st st1 hs
    have hx : emitXStep st1.ps = emitXStep st.ps := by
      simp only [emitXStep]
      rw [hd]
    obtain ⟨stn, hn⟩ := ih st1 (by rw [hx]; exact h0) (by rw [hx]; exact h1)
      (by
        rcases hg with hg | hg
        · exact Or.inl (validBlockNum_congr hbn hg)
        · right
          unfold blockCount at hg ⊢
          rw [hbn]
          exact hg)
      (fountainSubstep_length_le M cfg rand emitterStep fuel st st1 hle hs).1
    refine ⟨stn, ?_⟩
    simp only [fountainLoop, hs]
    exact hn

theorem fountainLoop_count (M : MathLib F) (cfg : Lagrangian2dPara F) (rand : Nat → F)
    (emitterStep K0 K1 fuel : Nat) (hf0 : K0 < fuel) (hf1 : K1 < fuel) :
    ∀ (n : Nat) (st stn : FountainState F),
      loopRuns (emitterMaxX + 1e-6) (emitXStep st.ps) K0 (layerStartX (emitXStep st.ps) 0) →
      loopRuns (emitterMaxX + 1e-6) (emitXStep st.ps) K1 (layerStartX (emitXStep st.ps) 1) →
      st.ps.particles.length ≤ maxParticleCount →
      fountainLoop M cfg rand emitterStep fuel n st = some stn →
      cullIdle M cfg rand emitterStep fuel n st →
      stn.ps.particles.length = min maxParticleCount (st.ps.particles.length +
          (candidateCounts M cfg rand emitterStep fuel K0 K1 n st).sum) ∧
        stn.ps.particles.length = st.ps.particles.length +
          (emittedCounts M cfg rand emitterStep fuel n st).sum := by
  intro n
  induction n with
  | zero =>
    intro st stn _ _ hle h _
    simp only [fountainLoop, Option.some.injEq] at h
    subst h
    simp only [candidateCounts, emittedCounts, List.sum_nil, Nat.add_zero]
    exact ⟨(Nat.min_eq_right hle).symm, trivial⟩
  | succ n ih =>
    intro st stn h0 h1 hle h hidle
    simp only [fountainLoop] at h
    cases hs : fountainSubstep M cfg rand emitterStep fuel st with
    | none => rw [hs] at h; exact absurd h (by simp)
    | some st1 =>
      rw [hs] at h
      simp only at h
      obtain ⟨e, solved, he, hsol, hst1⟩ :=
        fountainSubstep_eq M cfg rand emitterStep fuel st st1 hs
      obtain ⟨e1, he1, hlen⟩ := emitPhase_count M cfg st.ps rand emitterStep K0 K1 fuel
        ⟨st.ps.particles, st.draws⟩ h0 h1 hf0 hf1 hle
      rw [he, Option.some.injEq] at he1
      subst he1
      obtain ⟨hkeep, hrest⟩ := hidle e solved he hsol
      obtain ⟨hbn, hd, _, _, _, _⟩ := fountainSubstep_frame M cfg rand emitterStep fuel st st1 hs
      have hx : emitXStep st1.ps = emitXStep st.ps := by
        simp only [emitXStep]
        rw [hd]
      have hsl := solve_length M cfg _ _ hsol
      rw [updateBlockInfo_length] at hsl
      have hlen1 : st1.ps.particles.length = e.particles.length := by
        rw [hst1]
        show (cull solved).particles.length = _
        rw [hkeep, hsl]
      have hge := (emitPhase_length_le M cfg st.ps rand emitterStep fuel _ e hle he).2
      have hle1 : st1.ps.particles.length ≤ maxParticleCount := by
        rw [hlen1, hlen]
        exact Nat.min_le_left _ _
      rw [← hst1] at hrest
      obtain ⟨hc, hem⟩ := ih st1 stn (by rw [hx]; exact h0) (by rw [hx]; exact h1) hle1 h hrest
      simp only [candidateCounts, emittedCounts, he, hs, List.sum_cons]
      simp only at hlen hge
      constructor
      · rw [hc, hlen1, hlen]
        omega
      · rw [hem, hlen1]
        omega

theorem cull_of_inBox (ps : ParticleSystem2d F) (hu : drainUnreachable ps)
    (hbox : ∀ p ∈ ps.particles, inBox ps.lowerBound ps.upperBound p.position) :
    (cull ps).particles = ps.particles := by
  obtain ⟨hs, _, _, hlx, hux, hly, huy⟩ := hu
  show eraseRemoveIf (cullPredicate ps) ps.particles = _
  rw [eraseRemoveIf_eq_filter, List.filter_eq_self]
  intro p hp
  obtain ⟨b1, b2, b3, b4⟩ := hbox p hp
  have e1 : -1.25 ≤ p.position.x / ps.scale := (le_div_iff₀ hs).mpr (le_trans hlx b1)
  have e2 : p.position.x / ps.scale ≤ 1.25 := (div_le_iff₀ hs).mpr (le_trans b2 hux)
  have e3 : -1 < p.position.y / ps.scale := (lt_div_iff₀ hs).mpr (lt_of_lt_of_le hly b3)
  have e4 : p.position.y / ps.scale ≤ 1.25 := (div_le_iff₀ hs).mpr (le_trans b4 huy)
  have e5 : -1.25 ≤ p.position.y / ps.scale := le_trans (by norm_num) e3.le
  rw [cullPredicate_eq]
  have hd : inDrain ps.scale p = false := by
    simp only [inDrain, decide_eq_false_iff_not, not_and, not_le]
    intro _ _
    exact e3
  have ho : outOfSim ps.scale p = false := by
    simp only [outOfSim, decide_eq_false_iff_not, not_or, not_not]
    exact ⟨⟨e1, e2⟩, ⟨e5, e4⟩⟩
  rw [hd, ho]
  rfl

theorem solve_reindexed_inBox (M : MathLib F) (cfg : Lagrangian2dPara F)
    (ps solved : ParticleSystem2d F)
    (hx : ps.lowerBound.x ≤ ps.upperBound.x) (hy : ps.lowerBound.y ≤ ps.upperBound.y)
    (h : solve M cfg (updateBlockInfo ps) = some solved) :
    ∀ p ∈ solved.particles, inBox ps.lowerBound ps.upperBound p.position := by
  by_cases hne : (updateBlockInfo ps).particles = []
  · rw [solve_of_nil M cfg _ hne, Option.some.injEq] at h
    rw [← h, hne]
    intro p hp
    exact absurd hp (List.not_mem_nil p)
  · exact (solve_inBox M cfg (updateBlockInfo ps) solved hne hx hy h).2.2

theorem cullIdle_of_unreachable (M : MathLib F) (cfg : Lagrangian2dPara F) (rand : Nat → F)
    (emitterStep fuel : Nat) :
    ∀ (n : Nat) (st : FountainState F), drainUnreachable st.ps →
      cullIdle M cfg rand emitterStep fuel n st := by
  intro n
  induction n with
  | zero => intro st _; exact trivial
  | succ n ih =>
    intro st hu e solved _ hsol
    obtain ⟨_, _, hsc, _, hlo, hhi⟩ := solve_frame M cfg _ solved hsol
    have hlo1 : solved.lowerBound = st.ps.lowerBound := hlo
    have hhi1 : solved.upperBound = st.ps.upperBound := hhi
    have hsc1 : solved.scale = st.ps.scale := hsc
    have hu1 : drainUnreachable solved := by
      unfold drainUnreachable at hu ⊢
      rw [hlo1, hhi1, hsc1]
      exact hu
    have hbox := solve_reindexed_inBox M cfg { st.ps with particles := e.particles } solved
      hu.2.1 hu.2.2.1 hsol
    refine ⟨cull_of_inBox solved hu1 (by rw [hlo1, hhi1]; exact hbox), ih _ hu1⟩

theorem fountainSystem_loopRuns0 :
    loopRuns (emitterMaxX + 1e-6) (emitXStep (fountainSystem : ParticleSystem2d ℚ)) 4
      (layerStartX (emitXStep (fountainSystem : ParticleSystem2d ℚ)) 0) := by
  simp only [loopRuns, emitXStep, layerStartX, emitterMaxX, emitterMinX, fountainSystem,
    testSystem]
  norm_num

theorem fountainSystem_loopRuns1 :
    loopRuns (emitterMaxX + 1e-6) (emitXStep (fountainSystem : ParticleSystem2d ℚ)) 4
      (layerStartX (emitXStep (fountainSystem : ParticleSystem2d ℚ)) 1) := by
  simp only [loopRuns, emitXStep, layerStartX, emitterMaxX, emitterMinX, fountainSystem,
    testSystem]
  norm_num

theorem fountainSystem_validBlockNum : validBlockNum (fountainSystem : ParticleSystem2d ℚ) := by
  simp [validBlockNum, blockCount, u32, fountainSystem, testSystem]

theorem fountainSystem_unreachable : drainUnreachable (fountainSystem : ParticleSystem2d ℚ) := by
  simp only [drainUnreachable, fountainSystem, testSystem]
  norm_num

theorem fountainSystem_candidates (emitterStep draws : Nat) :
    emitCandidates (fountainSystem : ParticleSystem2d ℚ) (fun _ => 1 / 2) emitterStep 4 4
      draws = 8 := by
  simp [emitCandidates, emitterXs, candidateValid, fountainSystem, testSystem, invalidBlockId]

/-! ## The pressure pass -/

theorem pressureParticle_law (M : MathLib F) (cfg : Lagrangian2dPara F) (p : ParticleInfo2d F) :
    ((pressureParticle M cfg p).pressure = cfg.stiffness * (M.pow ((pressureParticle M cfg p).density / cfg.density) cfg.exponent - 1) ∧
      (pressureParticle M cfg p).pressDivDens2 = (pressureParticle M cfg p).pressure / ((pressureParticle M cfg p).density * (pressureParticle M cfg p).density)) ∧
      (pressureParticle M cfg p).density = p.density :=
  ⟨⟨rfl, rfl⟩, rfl⟩

theorem pressureLaw_sign (M : MathLib F) (cfg : Lagrangian2dPara F) (q : ParticleInfo2d F)
    (hlaw : (q.pressure = cfg.stiffness * (M.pow (q.density / cfg.density) cfg.exponent - 1) ∧
      q.pressDivDens2 = q.pressure / (q.density * q.density))) (hd : 0 < q.density) (hs : 0 < cfg.stiffness)
    (hr : 0 < cfg.density) (hpow : M.PowMonotone cfg.exponent) :
    (q.density = cfg.density → q.pressure = 0) ∧ (q.pressure < 0 ↔ q.density < cfg.density) := by
  obtain ⟨h1, hmono⟩ := hpow
  have hratio : 0 < q.density / cfg.density := div_pos hd hr
  constructor
  · intro he
    rw [hlaw.1, he, div_self hr.ne', h1, sub_self, mul_zero]
  · rw [hlaw.1]
    constructor
    · intro hneg
      by_contra hge
      have hge1 : 1 ≤ q.density / cfg.density := (one_le_div hr).mpr (not_lt.mp hge)
      have hp : 1 ≤ M.pow (q.density / cfg.density) cfg.exponent := by
        rcases eq_or_lt_of_le hge1 with he | hl
        · rw [← he, h1]
        · rw [← h1]
          exact (hmono 1 _ zero_le_one hl).le
      have : 0 ≤ cfg.stiffness * (M.pow (q.density / cfg.density) cfg.exponent - 1) :=
        mul_nonneg hs.le (sub_nonneg.mpr hp)
      exact absurd hneg (not_lt.mpr this)
    · intro hlt
      have hl1 : q.density / cfg.density < 1 := (div_lt_one hr).mpr hlt
      have hp : M.pow (q.density / cfg.density) cfg.exponent < 1 := by
        have := hmono _ 1 hratio.le hl1
        rwa [h1] at this
      exact mul_neg_of_pos_of_neg hs (sub_neg.mpr hp)

theorem ratMath_powMonotone_seven : ratMath.PowMonotone 7 := by
  have hf : (Rat.floor 7).toNat = 7 := by rfl
  refine ⟨?_, ?_⟩
  · show (1 : ℚ) ^ (Rat.floor 7).toNat = 1
    exact one_pow _
  · intro x y hx hxy
    show x ^ (Rat.floor 7).toNat < y ^ (Rat.floor 7).toNat
    rw [hf]
    exact pow_lt_pow_left₀ hxy hx (by norm_num)

theorem realMath_powMonotone (e : ℝ) (he : 0 < e) : realMath.PowMonotone e :=
  ⟨Real.one_rpow e, fun _ _ hx hxy => Real.rpow_lt_rpow hx hxy he⟩

/-! ## The pressure term of a pair -/

theorem forceBody_pressure_eq (M : MathLib F) (cfg : Lagrangian2dPara F)
    (ps : ParticleSystem2d F) (p q : ParticleInfo2d F) (acc : Vec2 F × Vec2 F)
    (h1 : 0 < (p.position.sub q.position).dot (p.position.sub q.position))
    (h2 : (p.position.sub q.position).dot (p.position.sub q.position) < ps.supportRadius2) :
    (forceBody M cfg ps p acc q).1 = acc.1.sub
      (Vec2.smul (particleMass cfg ps * (p.pressDivDens2 + q.pressDivDens2))
        (spikyGradKernel2D (p.position.sub q.position)
          (M.sqrt ((p.position.sub q.position).dot (p.position.sub q.position)))
          ps.supportRadius (spikyGradCoeff M ps.supportRadius) (solveEps cfg))) := by
  unfold forceBody
  simp only
  rw [if_neg (by
    rintro (h | h)
    · exact absurd h2 (not_lt.mpr h)
    · exact absurd h1 (not_lt.mpr h))]

theorem forceBody_pressure_skip (M : MathLib F) (cfg : Lagrangian2dPara F)
    (ps : ParticleSystem2d F) (p q : ParticleInfo2d F) (acc : Vec2 F × Vec2 F)
    (h : ¬ (0 < (p.position.sub q.position).dot (p.position.sub q.position) ∧
      (p.position.sub q.position).dot (p.position.sub q.position) < ps.supportRadius2)) :
    forceBody M cfg ps p acc q = acc := by
  unfold forceBody
  simp only
  rw [if_pos (by
    by_cases h2 : (p.position.sub q.position).dot (p.position.sub q.position) <
        ps.supportRadius2
    · exact Or.inr (not_lt.mp fun h1 => h ⟨h1, h2⟩)
    · exact Or.inl (not_lt.mp h2))]

theorem spikyGrad_flip (r1 r2 : Vec2 F) (dist h c eps : F) (hr : r2 = Vec2.neg r1) :
    spikyGradKernel2D r2 dist h c eps = Vec2.neg (spikyGradKernel2D r1 dist h c eps) := by
  subst hr
  unfold spikyGradKernel2D
  split_ifs
  · simp [Vec2.neg, Vec2.zero]
  · simp only [Vec2.neg, Vec2.smul, Vec2.divS, Vec2.mk.injEq]
    constructor <;> ring

theorem sub_flip (a b : Vec2 F) : b.sub a = Vec2.neg (a.sub b) := by
  simp [Vec2.sub, Vec2.neg]

theorem forceBody_pressure_acc (M : MathLib F) (cfg : Lagrangian2dPara F)
    (ps : ParticleSystem2d F) (p q : ParticleInfo2d F) (acc : Vec2 F × Vec2 F) :
    (forceBody M cfg ps p acc q).1 =
      acc.1.add (forceBody M cfg ps p (Vec2.zero, Vec2.zero) q).1 := by
  by_cases h : 0 < (p.position.sub q.position).dot (p.position.sub q.position) ∧
      (p.position.sub q.position).dot (p.position.sub q.position) < ps.supportRadius2
  · rw [forceBody_pressure_eq M cfg ps p q _ h.1 h.2,
      forceBody_pressure_eq M cfg ps p q _ h.1 h.2]
    simp only [Vec2.sub, Vec2.add, Vec2.zero, Vec2.mk.injEq]
    constructor <;> ring
  · rw [forceBody_pressure_skip M cfg ps p q _ h, forceBody_pressure_skip M cfg ps p q _ h]
    simp [Vec2.add, Vec2.zero]

theorem forceBody_pressure_flip (M : MathLib F) (cfg : Lagrangian2dPara F)
    (ps : ParticleSystem2d F) (p q : ParticleInfo2d F) :
    (forceBody M cfg ps p (Vec2.zero, Vec2.zero) q).1 =
      Vec2.neg (forceBody M cfg ps q (Vec2.zero, Vec2.zero) p).1 := by
  have hdot := dot_sub_comm p.position q.position
  by_cases h : 0 < (p.position.sub q.position).dot (p.position.sub q.position) ∧
      (p.position.sub q.position).dot (p.position.sub q.position) < ps.supportRadius2
  · have h' := h
    rw [hdot] at h'
    rw [forceBody_pressure_eq M cfg ps p q _ h.1 h.2,
      forceBody_pressure_eq M cfg ps q p _ h'.1 h'.2, ← hdot,
      spikyGrad_flip (p.position.sub q.position) (q.position.sub p.position) _ _ _ _
        (sub_flip _ _)]
    simp only [Vec2.sub, Vec2.neg, Vec2.smul, Vec2.zero, Vec2.mk.injEq]
    constructor <;> ring
  · have h' := h
    rw [hdot] at h'
    rw [forceBody_pressure_skip M cfg ps p q _ h, forceBody_pressure_skip M cfg ps q p _ h']
    simp [Vec2.neg, Vec2.zero]

theorem piLit_pos : (0 : F) < piLit := by
  unfold piLit
  norm_num

theorem spikyGrad_inside (r : Vec2 F) (dist h c eps : F) (h1 : eps < dist) (h2 : dist < h) :
    spikyGradKernel2D r dist h c eps = Vec2.smul (c * ((h - dist) * (h - dist)) / dist) r := by
  unfold spikyGradKernel2D
  rw [if_neg (by
    rintro (h3 | h3)
    · exact absurd h1 (not_lt.mpr h3)
    · exact absurd h2 (not_lt.mpr h3))]
  simp only [Vec2.smul, Vec2.divS, Vec2.mk.injEq]
  constructor <;> ring

/-- Inside the support, beyond `eps`, the pressure term is the separation vector scaled by
`(pressDivDens2_i + pressDivDens2_j) * c` with the positive factor
`c = m * (30 / (pi * pow(h, 5))) * (h - d)^2 / d`. -/
theorem forceBody_pressure_direction (M : MathLib F) (cfg : Lagrangian2dPara F)
    (ps : ParticleSystem2d F) (p q : ParticleInfo2d F) (hM : M.SqrtExact)
    (hh : ps.supportRadius2 = ps.supportRadius * ps.supportRadius)
    (hpow : 0 < M.pow ps.supportRadius 5)
    (heps : solveEps cfg <
      M.sqrt ((p.position.sub q.position).dot (p.position.sub q.position)))
    (hd : M.sqrt ((p.position.sub q.position).dot (p.position.sub q.position)) <
      ps.supportRadius)
    (hm : 0 < particleMass cfg ps) :
    0 < particleMass cfg ps * (30 / (piLit * M.pow ps.supportRadius 5)) *
        ((ps.supportRadius -
            M.sqrt ((p.position.sub q.position).dot (p.position.sub q.position))) *
          (ps.supportRadius -
            M.sqrt ((p.position.sub q.position).dot (p.position.sub q.position)))) /
        M.sqrt ((p.position.sub q.position).dot (p.position.sub q.position)) ∧
    (forceBody M cfg ps p (Vec2.zero, Vec2.zero) q).1 =
      Vec2.smul ((p.pressDivDens2 + q.pressDivDens2) *
        (particleMass cfg ps * (30 / (piLit * M.pow ps.supportRadius 5)) *
          ((ps.supportRadius -
              M.sqrt ((p.position.sub q.position).dot (p.position.sub q.position))) *
            (ps.supportRadius -
              M.sqrt ((p.position.sub q.position).dot (p.position.sub q.position)))) /
          M.sqrt ((p.position.sub q.position).dot (p.position.sub q.position))))
        (p.position.sub q.position) := by
  obtain ⟨_, hsq⟩ := hM _ (dot_self_nonneg (p.position.sub q.position))
  have hdpos : 0 < M.sqrt ((p.position.sub q.position).dot (p.position.sub q.position)) :=
    lt_trans (solveEps_pos cfg) heps
  have h1 : 0 < (p.position.sub q.position).dot (p.position.sub q.position) := by
    rw [← hsq]
    exact mul_pos hdpos hdpos
  have h2 : (p.position.sub q.position).dot (p.position.sub q.position) <
      ps.supportRadius2 := by
    rw [hh]
    nth_rewrite 1 [← hsq]
    exact mul_lt_mul'' hd hd hdpos.le hdpos.le
  constructor
  · have hgap : 0 < ps.supportRadius -
        M.sqrt ((p.position.sub q.position).dot (p.position.sub q.position)) :=
      sub_pos.mpr hd
    have hc : 0 < 30 / (piLit * M.pow ps.supportRadius 5) :=
      div_pos (by norm_num) (mul_pos piLit_pos hpow)
    exact div_pos (mul_pos (mul_pos hm hc) (mul_pos hgap hgap)) hdpos
  · rw [forceBody_pressure_eq M cfg ps p q _ h1 h2, spikyGrad_inside _ _ _ _ _ heps hd]
    simp only [Vec2.sub, Vec2.smul, Vec2.zero, spikyGradCoeff, Vec2.mk.injEq]
    constructor <;> ring

theorem pair_dot_real : (((pairLeft 1 : ParticleInfo2d ℝ).position.sub (pairRight 1).position).dot
    ((pairLeft 1 : ParticleInfo2d ℝ).position.sub (pairRight 1).position)) = 0.03 * 0.03 := by
  simp only [pairLeft, pairRight, particleAt, Vec2.sub, Vec2.dot]
  norm_num

theorem pair_dot_rat : (((pairLeft 1 : ParticleInfo2d ℚ).position.sub (pairRight 1).position).dot
    ((pairLeft 1 : ParticleInfo2d ℚ).position.sub (pairRight 1).position)) = 0.03 * 0.03 := by
  simp only [pairLeft, pairRight, particleAt, Vec2.sub, Vec2.dot]
  norm_num

/-! ## The fallback branch and the last loop of the main path -/

theorem stageVelocity_thermo (M : MathLib F) (cfg : Lagrangian2dPara F) (p : ParticleInfo2d F)
    (d pr x : F) :
    stageVelocity M cfg { p with density := d, pressure := pr, pressDivDens2 := x } =
      { stageVelocity M cfg p with density := d, pressure := pr, pressDivDens2 := x } := by
  unfold stageVelocity
  simp only
  split_ifs <;> rfl

theorem stageWallX_thermo (cfg : Lagrangian2dPara F) (ps : ParticleSystem2d F)
    (p : ParticleInfo2d F) (d pr x : F) :
    stageWallX cfg ps { p with density := d, pressure := pr, pressDivDens2 := x } =
      { stageWallX cfg ps p with density := d, pressure := pr, pressDivDens2 := x } := by
  unfold stageWallX
  simp only
  split_ifs <;> rfl

theorem stageWallY_thermo (cfg : Lagrangian2dPara F) (ps : ParticleSystem2d F)
    (p : ParticleInfo2d F) (d pr x : F) :
    stageWallY cfg ps { p with density := d, pressure := pr, pressDivDens2 := x } =
      { stageWallY cfg ps p with density := d, pressure := pr, pressDivDens2 := x } := by
  unfold stageWallY
  simp only
  split_ifs <;> rfl

theorem stageBlock_thermo (ps : ParticleSystem2d F) (p : ParticleInfo2d F) (d pr x : F) :
    stageBlock ps { p with density := d, pressure := pr, pressDivDens2 := x } =
      { stageBlock ps p with density := d, pressure := pr, pressDivDens2 := x } := by
  unfold stageBlock
  simp only
  split_ifs <;> rfl

theorem integrateParticle_thermo (M : MathLib F) (cfg : Lagrangian2dPara F)
    (ps : ParticleSystem2d F) (p : ParticleInfo2d F) (d pr x : F) :
    integrateParticle M cfg ps { p with density := d, pressure := pr, pressDivDens2 := x } =
      { integrateParticle M cfg ps p with density := d, pressure := pr, pressDivDens2 := x } := by
  have hpos : stagePosition cfg
      { stageVelocity M cfg p with density := d, pressure := pr, pressDivDens2 := x } =
      { stagePosition cfg (stageVelocity M cfg p) with
        density := d, pressure := pr, pressDivDens2 := x } := rfl
  rw [integrateParticle_eq, integrateParticle_eq, stageVelocity_thermo, hpos,
    stageWallX_thermo, stageWallY_thermo, stageBlock_thermo]

theorem fallbackParticle_gravity (M : MathLib F) (cfg : Lagrangian2dPara F)
    (ps : ParticleSystem2d F) (p : ParticleInfo2d F) :
    fallbackParticle M cfg ps p =
      { integrateParticle M cfg ps { p with accleration := solveGravity cfg } with
        density := cfg.density, pressure := 0, pressDivDens2 := 0 } := by
  rw [fallbackParticle_eq, ← integrateParticle_thermo]

/-! ## The order of the operations of `simulate` -/

theorem preceded_nil (i : Nat) (s : ParticleSystem2d F)
    (h : ([] : List (Op × ParticleSystem2d F))[i]? = some (Op.solve, s)) :
    ∃ j s0, i = j + 1 ∧ ([] : List (Op × ParticleSystem2d F))[j]? =
      some (Op.updateBlockInfo, s0) ∧ s = updateBlockInfo s0 := by
  simp at h

theorem preceded_cons (e : Op × ParticleSystem2d F) (t : List (Op × ParticleSystem2d F))
    (he : e.1 ≠ Op.solve)
    (ht : ∀ i s, t[i]? = some (Op.solve, s) →
      ∃ j s0, i = j + 1 ∧ t[j]? = some (Op.updateBlockInfo, s0) ∧ s = updateBlockInfo s0) :
    ∀ i s, (e :: t)[i]? = some (Op.solve, s) →
      ∃ j s0, i = j + 1 ∧ (e :: t)[j]? = some (Op.updateBlockInfo, s0) ∧
        s = updateBlockInfo s0 := by
  intro i s h
  cases i with
  | zero =>
    simp only [List.getElem?_cons_zero, Option.some.injEq] at h
    exact absurd (by rw [h]) he
  | succ i =>
    simp only [List.getElem?_cons_succ] at h
    obtain ⟨j, s0, rfl, hj, hs⟩ := ht i s h
    exact ⟨j + 1, s0, rfl, by simpa using hj, hs⟩

theorem preceded_pair (s0 : ParticleSystem2d F) (t : List (Op × ParticleSystem2d F))
    (ht : ∀ i s, t[i]? = some (Op.solve, s) →
      ∃ j s0, i = j + 1 ∧ t[j]? = some (Op.updateBlockInfo, s0) ∧ s = updateBlockInfo s0) :
    ∀ i s, ((Op.updateBlockInfo, s0) :: (Op.solve, updateBlockInfo s0) :: t)[i]? =
        some (Op.solve, s) →
      ∃ j s1, i = j + 1 ∧
        ((Op.updateBlockInfo, s0) :: (Op.solve, updateBlockInfo s0) :: t)[j]? =
          some (Op.updateBlockInfo, s1) ∧ s = updateBlockInfo s1 := by
  intro i s h
  cases i with
  | zero => simp at h
  | succ i =>
    cases i with
    | zero =>
      simp only [List.getElem?_cons_succ, List.getElem?_cons_zero, Option.some.injEq,
        Prod.mk.injEq, true_and] at h
      exact ⟨0, s0, rfl, rfl, h.symm⟩
    | succ i =>
      simp only [List.getElem?_cons_succ] at h
      obtain ⟨j, s1, rfl, hj, hs⟩ := ht i s h
      exact ⟨j + 2, s1, rfl, by simpa using hj, hs⟩

theorem plainTrace_preceded (M : MathLib F) (cfg : Lagrangian2dPara F) :
    ∀ (n : Nat) (ps : ParticleSystem2d F) (i : Nat) (s : ParticleSystem2d F),
      (plainTrace M cfg n ps)[i]? = some (Op.solve, s) →
      ∃ j s0, i = j + 1 ∧ (plainTrace M cfg n ps)[j]? = some (Op.updateBlockInfo, s0) ∧
        s = updateBlockInfo s0 := by
  intro n
  induction n with
  | zero => intro ps i s h; exact preceded_nil i s h
  | succ n ih =>
    intro ps
    simp only [plainTrace]
    apply preceded_pair
    cases solve M cfg (updateBlockInfo ps) with
    | none => exact preceded_nil
    | some ps1 => exact ih ps1

theorem fountainTrace_preceded (M : MathLib F) (cfg : Lagrangian2dPara F) (rand : Nat → F)
    (emitterStep fuel : Nat) :
    ∀ (n : Nat) (st : FountainState F) (i : Nat) (s : ParticleSystem2d F),
      (fountainTrace M cfg rand emitterStep fuel n st)[i]? = some (Op.solve, s) →
      ∃ j s0, i = j + 1 ∧
        (fountainTrace M cfg rand emitterStep fuel n st)[j]? = some (Op.updateBlockInfo, s0) ∧
        s = updateBlockInfo s0 := by
  intro n
  induction n with
  | zero => intro st i s h; exact preceded_nil i s h
  | succ n ih =>
    intro st
    simp only [fountainTrace]
    apply preceded_cons _ _ (by simp)
    cases emitPhase M cfg st.ps rand emitterStep fuel ⟨st.ps.particles, st.draws⟩ with
    | none => exact preceded_nil
    | some emitted =>
      simp only
      apply preceded_pair
      cases solve M cfg (updateBlockInfo { st.ps with particles := emitted.particles }) with
      | none => exact preceded_nil
      | some solved =>
        simp only
        exact preceded_cons _ _ (by simp) (ih _)

theorem plainTrace_complete (M : MathLib F) (cfg : Lagrangian2dPara F) :
    ∀ (n : Nat) (ps psn : ParticleSystem2d F), plainLoop M cfg n ps = some psn →
      (plainTrace M cfg n ps).length = 2 * n ∧ solveCalls (plainTrace M cfg n ps) = n := by
  intro n
  induction n with
  | zero => intro ps psn _; exact ⟨rfl, rfl⟩
  | succ n ih =>
    intro ps psn h
    simp only [plainLoop] at h
    cases hs : solve M cfg (updateBlockInfo ps) with
    | none => rw [hs] at h; exact absurd h (by simp)
    | some ps1 =>
      rw [hs] at h
      obtain ⟨h1, h2⟩ := ih ps1 psn h
      simp only [plainTrace, hs, List.length_cons, h1]
      refine ⟨by omega, ?_⟩
      unfold solveCalls at h2 ⊢
      simp [List.filter_cons, h2]

theorem fountainTrace_complete (M : MathLib F) (cfg : Lagrangian2dPara F) (rand : Nat → F)
    (emitterStep fuel : Nat) :
    ∀ (n : Nat) (st stn : FountainState F),
      fountainLoop M cfg rand emitterStep fuel n st = some stn →
      (fountainTrace M cfg rand emitterStep fuel n st).length = 4 * n ∧
        solveCalls (fountainTrace M cfg rand emitterStep fuel n st) = n := by
  intro n
  induction n with
  | zero => intro st stn _; exact ⟨rfl, rfl⟩
  | succ n ih =>
    intro st stn h
    simp only [fountainLoop] at h
    cases hs : fountainSubstep M cfg rand emitterStep fuel st with
    | none => rw [hs] at h; exact absurd h (by simp)
    | some st1 =>
      rw [hs] at h
      obtain ⟨e, solved, he, hsol, rfl⟩ := fountainSubstep_eq M cfg rand emitterStep fuel st st1 hs
      obtain ⟨h1, h2⟩ := ih _ stn h
      simp only [fountainTrace, he, hsol, List.length_cons, h1]
      refine ⟨by omega, ?_⟩
      unfold solveCalls at h2 ⊢
      simp [List.filter_cons, h2]

theorem plainLoop_isSome (M : MathLib F) (cfg : Lagrangian2dPara F) :
    ∀ (n : Nat) (ps : ParticleSystem2d F), (validBlockNum ps ∨ blockCount ps = 0) →
      ∃ psn, plainLoop M cfg n ps = some psn := by
  intro n
  induction n with
  | zero => intro ps _; exact ⟨ps, rfl⟩
  | succ n ih =>
    intro ps hg
    obtain ⟨ps1, hs⟩ := solve_reindexed_isSome M cfg ps hg
    have hbn : ps1.blockNum = ps.blockNum := (solve_frame M cfg _ ps1 hs).1
    obtain ⟨psn, hn⟩ := ih ps1 (by
      rcases hg with hg | hg
      · exact Or.inl (validBlockNum_congr hbn hg)
      · right
        unfold blockCount at hg ⊢
        rw [hbn]
        exact hg)
    refine ⟨psn, ?_⟩
    simp only [plainLoop, hs]
    exact hn

/-! ## Simulated time per call -/

theorem simulate_plain_calls (M : MathLib F) (cfg : Lagrangian2dPara F) (rand : Nat → F)
    (fuel : Nat) (c c1 : Lagrangian2dComponent F) (hmode : cfg.enableFountain2d = false)
    (h : simulate M cfg rand fuel c = some c1) :
    solveCalls (simulateTrace M cfg rand fuel c) = cfg.substep.toNat := by
  unfold simulate at h
  unfold simulateTrace
  simp only [hmode, Bool.false_eq_true, not_false_eq_true, if_true] at h ⊢
  cases hl : plainLoop M cfg cfg.substep.toNat c.ps with
  | none => rw [hl] at h; exact absurd h (by simp)
  | some psn => exact (plainTrace_complete M cfg _ _ psn hl).2

theorem substep_mul_solveDt (cfg : Lagrangian2dPara F) (hsub : 1 ≤ cfg.substep) :
    ((cfg.substep.toNat : Nat) : F) * solveDt cfg = cfg.dt := by
  have hmax : solveSubstep cfg = cfg.substep := max_eq_right hsub
  have hcast : ((cfg.substep.toNat : Nat) : F) = ((cfg.substep : Int) : F) := by
    rw [← Int.cast_natCast, Int.toNat_of_nonneg (by omega)]
  have hpos : (0 : F) < ((cfg.substep : Int) : F) := by
    exact_mod_cast (show (0 : Int) < cfg.substep by omega)
  unfold solveDt
  rw [hmax, hcast, mul_div_cancel₀ _ hpos.ne']

theorem simulate_plain (M : MathLib F) (cfg : Lagrangian2dPara F) (rand : Nat → F)
    (fuel : Nat) (c : Lagrangian2dComponent F) (psn : ParticleSystem2d F)
    (hmode : cfg.enableFountain2d = false)
    (hl : plainLoop M cfg cfg.substep.toNat c.ps = some psn) :
    simulate M cfg rand fuel c = some { c with ps := psn } := by
  simp only [simulate, hmode, Bool.false_eq_true, not_false_eq_true, if_true, hl]

theorem simulateTrace_plain (M : MathLib F) (cfg : Lagrangian2dPara F) (rand : Nat → F)
    (fuel : Nat) (c : Lagrangian2dComponent F) (hmode : cfg.enableFountain2d = false) :
    simulateTrace M cfg rand fuel c = plainTrace M cfg cfg.substep.toNat c.ps := by
  simp only [simulateTrace, hmode, Bool.false_eq_true, not_false_eq_true, if_true]

theorem fountainSystem_simulate :
    ∃ c1, simulate ratMath fountainPara (fun _ => 1 / 2) 5 ⟨fountainSystem, 0⟩ = some c1 := by
  obtain ⟨stn, hn⟩ := fountainLoop_isSome ratMath fountainPara (fun _ => 1 / 2) 1 4 4 5
    (by decide) (by decide) 1 ⟨fountainSystem, 0⟩ fountainSystem_loopRuns0
    fountainSystem_loopRuns1 (Or.inl fountainSystem_validBlockNum)
    (by simp [fountainSystem, testSystem])
  refine ⟨⟨stn.ps, 1⟩, ?_⟩
  have hsub : (fountainPara : Lagrangian2dPara ℚ).substep.toNat = 1 := rfl
  have hmode : (fountainPara : Lagrangian2dPara ℚ).enableFountain2d = true := rfl
  simp only [simulate, hmode, hsub, not_true_eq_false, if_false]
  rw [show (0 + 1) % 18446744073709551616 = 1 from rfl, hn]

theorem plain_two_simulate :
    ∃ c1, simulate ratMath { (defaultPara : Lagrangian2dPara ℚ) with substep := 2 }
      (fun _ => 0) 0
      ⟨testSystem ⟨-1, -1⟩ ⟨1, 1⟩ (1, 1) [(0, 1)] [particleAt ⟨0, 0⟩ ⟨0, 0⟩], 0⟩ = some c1 := by
  obtain ⟨psn, hn⟩ := plainLoop_isSome ratMath
    { (defaultPara : Lagrangian2dPara ℚ) with substep := 2 } 2
    (testSystem ⟨-1, -1⟩ ⟨1, 1⟩ (1, 1) [(0, 1)] [particleAt ⟨0, 0⟩ ⟨0, 0⟩])
    (Or.inl (by simp [validBlockNum, blockCount, u32, testSystem]))
  exact ⟨_, simulate_plain ratMath { (defaultPara : Lagrangian2dPara ℚ) with substep := 2 }
    (fun _ => 0) 0 _ psn rfl hn⟩

/-! ## The kill boundary after `solve` -/

theorem poly6Kernel2D_closed (c h r : F) (hr : 0 ≤ r) (hrh : r ≤ h) :
    poly6Kernel2D (r ^ 2) (h ^ 2) c = c * (h ^ 2 - r ^ 2) ^ 3 := by
  unfold poly6Kernel2D
  split_ifs with hge
  · have hle : r ^ 2 ≤ h ^ 2 := pow_le_pow_left₀ hr hrh 2
    have heq : h ^ 2 - r ^ 2 = 0 := sub_eq_zero.mpr (le_antisymm hge hle)
    rw [heq]
    ring
  · ring

theorem poly6Kernel2D_outside (c h r : F) (hh : 0 ≤ h) (hrh : h ≤ r) :
    poly6Kernel2D (r ^ 2) (h ^ 2) c = 0 := by
  unfold poly6Kernel2D
  rw [if_pos (pow_le_pow_left₀ hh hrh 2)]

theorem poly6_integral (c h : ℝ) (hh : 0 ≤ h) :
    ∫ r in (0 : ℝ)..h, 2 * Real.pi * r * poly6Kernel2D (r ^ 2) (h ^ 2) c =
      c * Real.pi * h ^ 8 / 4 := by
  have hcongr : ∫ r in (0 : ℝ)..h, 2 * Real.pi * r * poly6Kernel2D (r ^ 2) (h ^ 2) c =
      ∫ r in (0 : ℝ)..h, 2 * Real.pi * r * (c * (h ^ 2 - r ^ 2) ^ 3) := by
    apply intervalIntegral.integral_congr
    intro r hr
    rw [Set.uIcc_of_le hh] at hr
    simp only
    rw [poly6Kernel2D_closed c h r hr.1 hr.2]
  rw [hcongr]
  have hderiv : ∀ r ∈ Set.uIcc (0 : ℝ) h,
      HasDerivAt (fun r : ℝ => -(c * Real.pi / 4) * (h ^ 2 - r ^ 2) ^ 4)
        (2 * Real.pi * r * (c * (h ^ 2 - r ^ 2) ^ 3)) r := by
    intro r _
    have h1 : HasDerivAt (fun r : ℝ => h ^ 2 - r ^ 2) (-(2 * r)) r := by
      have := ((hasDerivAt_id r).pow 2).const_sub (h ^ 2)
      convert this using 1
      simp
    have h2 := (h1.pow 4).const_mul (-(c * Real.pi / 4))
    convert h2 using 1
    simp only [Nat.cast_ofNat]
    ring
  have hint : IntervalIntegrable (fun r : ℝ => 2 * Real.pi * r * (c * (h ^ 2 - r ^ 2) ^ 3))
      MeasureTheory.volume 0 h := by
    apply Continuous.intervalIntegrable
    continuity
  rw [intervalIntegral.integral_eq_sub_of_hasDerivAt hderiv hint]
  ring

theorem poly6Coeff_real (h : ℝ) : poly6Coeff realMath h = 4 / (piLit * h ^ 8) := by
  unfold poly6Coeff realMath
  simp only
  rw [show (8 : ℝ) = ((8 : ℕ) : ℝ) by norm_num, Real.rpow_natCast]

theorem piLit_lt_pi : (piLit : ℝ) < Real.pi := by
  unfold piLit
  exact Real.pi_gt_d20

theorem pi_lt_piLit_add : Real.pi < (piLit : ℝ) + 1e-20 := by
  unfold piLit
  have := Real.pi_lt_d20
  norm_num at this ⊢
  linarith

end Proofs

/-! ## The claims -/

/-- C3 (amended). For a non-empty particle set, when `solve` returns every particle's density
is at least `0.1 * restDensity`: in the main path for every configuration, and in the
degenerate-grid fallback path whenever `restDensity ≥ 0`. -/
theorem solve_density_floor {F : Type} [LinearOrderedField F] (M : MathLib F)
    (cfg : Lagrangian2dPara F) (ps ps1 : ParticleSystem2d F) (hne : ps.particles ≠ [])
    (hrest : 0 ≤ cfg.density ∨ ¬ (blockCount ps = 0 ∨ ps.blockExtens.length ≠ blockCount ps))
    (h : solve M cfg ps = some ps1) :
    ∀ p ∈ ps1.particles, 0.1 * cfg.density ≤ p.density :=
  solve_density_ge M cfg ps ps1 hne hrest h

/-- Witness of C3 (amended): the main path on a one-cell grid holding one particle, with the
default rest density `1000`. -/
theorem solve_density_floor_witness :
    ∃ ps1, solve ratMath (defaultPara : Lagrangian2dPara ℚ)
        (testSystem ⟨-1, -1⟩ ⟨1, 1⟩ (1, 1) [(0, 1)] [particleAt ⟨0, 0⟩ ⟨0, 0⟩]) = some ps1 ∧
      ∀ p ∈ ps1.particles, 0.1 * (defaultPara : Lagrangian2dPara ℚ).density ≤ p.density := by
  obtain ⟨ps1, h⟩ := solve_isSome ratMath (defaultPara : Lagrangian2dPara ℚ)
    (testSystem ⟨-1, -1⟩ ⟨1, 1⟩ (1, 1) [(0, 1)] [particleAt ⟨0, 0⟩ ⟨0, 0⟩])
    (validGrid_testSystem _ _ _ _) (by simp [testSystem])
  exact ⟨ps1, h, solve_density_floor ratMath _ _ ps1 (by simp [testSystem])
    (Or.inl (by norm_num [defaultPara])) h⟩

/-- Counterexample to C3 as stated: with `restDensity = -1` and an unbuilt grid the fallback
path stores `density = -1`, which is below `0.1 * restDensity = -0.1`. -/
theorem solve_density_below_floor :
    solve ratMath { (defaultPara : Lagrangian2dPara ℚ) with gravityY := 0, density := -1 }
        (testSystem ⟨-1, -1⟩ ⟨1, 1⟩ (0, 0) [] [particleAt ⟨0, 0⟩ ⟨0, 0⟩]) =
      some (testSystem ⟨-1, -1⟩ ⟨1, 1⟩ (0, 0) []
        [{ particleAt ⟨0, (0 : ℚ)⟩ ⟨0, 0⟩ with density := -1 }]) ∧
    (-1 : ℚ) < 0.1 * (-1) := by
  constructor
  · simp [solve, testSystem, blockCount, u32, updateBlockInfo, fallbackParticle_eq,
      integrateParticle_eq, stageBlock_eq, healParticle, isValidBlockId, stageWallY, stageWallX,
      stagePosition, stageVelocity, particleAt, defaultPara, solveDt, solveSubstep, solveEps,
      solveGravity, Vec2.add, Vec2.mulS, Vec2.length, Vec2.dot, Vec2.zero, ratMath, clampVec2,
      clampFloat]
    norm_num
  · norm_num

/-- C10. On a valid grid (`blockCount = blocksX * blocksY > 0` without wrap-around and a bucket
table of `blockCount` entries), for arbitrary incoming `blockId` values: every particle leaves
the self-healing density loop with `blockId < blockCount`; every neighbour cell id
`ny * blocksX + nx` produced by the `dy`/`dx` loops is `< blockCount`; and when every bucket
range ends at or before the particle count, `solve` returns, that is, no read of `blockExtens`
or of `particles` in the density and force passes is out of range. -/
theorem solve_indices_in_range {F : Type} [LinearOrderedField F] (M : MathLib F)
    (cfg : Lagrangian2dPara F) (ps : ParticleSystem2d F) (hg : validGrid ps) :
    (∀ l l1, densityPass M cfg ps l = some l1 → ∀ p ∈ l1, p.blockId < blockCount ps) ∧
    (∀ blockId, ∀ c ∈ neighborBlockIds blockId ps.blockNum.1 ps.blockNum.2,
      c < blockCount ps ∧ c < ps.blockExtens.length) ∧
    ((∀ e ∈ ps.blockExtens, e.2 ≤ ps.particles.length) →
      ∃ ps1, solve M cfg ps = some ps1) := by
  refine ⟨?_, ?_, fun hext => solve_isSome M cfg ps hg hext⟩
  · intro l l1 h p hp
    obtain ⟨q, _, s, rfl⟩ := forall₂_mem_right (densityPass_rel M cfg ps l l1 h) p hp
    exact healParticle_blockId ps q hg.2.1
  · intro b c hc
    have h := neighborBlockIds_lt (blockNum_prod_lt ps hg) (hg.1 ▸ hg.2.1) c hc
    rw [hg.2.2, hg.1]
    exact ⟨h, h⟩

/-- Witness of C10: a 3 x 3 grid whose nine buckets are empty except the centre one, which
holds the only particle; the incoming `blockId` of the particle is the invalid sentinel. -/
theorem solve_indices_in_range_witness :
    validGrid (testSystem (⟨-1, -1⟩ : Vec2 ℚ) ⟨1, 1⟩ (3, 3)
      [(0, 0), (0, 0), (0, 0), (0, 0), (0, 1), (1, 1), (1, 1), (1, 1), (1, 1)]
      [{ particleAt ⟨0, 0⟩ ⟨0, 0⟩ with blockId := invalidBlockId }]) ∧
    ∃ ps1, solve ratMath (defaultPara : Lagrangian2dPara ℚ)
      (testSystem (⟨-1, -1⟩ : Vec2 ℚ) ⟨1, 1⟩ (3, 3)
        [(0, 0), (0, 0), (0, 0), (0, 0), (0, 1), (1, 1), (1, 1), (1, 1), (1, 1)]
        [{ particleAt ⟨0, 0⟩ ⟨0, 0⟩ with blockId := invalidBlockId }]) = some ps1 := by
  have hg : validGrid (testSystem (⟨-1, -1⟩ : Vec2 ℚ) ⟨1, 1⟩ (3, 3)
      [(0, 0), (0, 0), (0, 0), (0, 0), (0, 1), (1, 1), (1, 1), (1, 1), (1, 1)]
      [{ particleAt ⟨0, 0⟩ ⟨0, 0⟩ with blockId := invalidBlockId }]) := by
    simp [validGrid, testSystem, blockCount, u32]
  exact ⟨hg, (solve_indices_in_range ratMath defaultPara _ hg).2.2 (by
    intro e he
    simp [testSystem] at he ⊢
    rcases he with rfl | rfl | rfl <;> simp)⟩


/-- C5. A particle set of exactly one particle with zero initial velocity on a grid whose cell
count is valid; `n` consecutive sub-steps, each a reindexing followed by `solve`.  If the
positions `x_k` of the free-fall recurrence (`v += g * dt`, `x += v * dt`) stay strictly inside
the bounds for `k ≤ n` and its speeds stay at most `maxVelocity` for `1 ≤ k ≤ n`, then the `n`
sub-steps return and leave one particle whose velocity is exactly
`n * (dt / substep) * (gravityX, -gravityY)` and whose position is `x_n`, where `dt / substep`
is the sub-step size of lines 96-97 (`substep` is the local `max(1, Lagrangian2dPara::substep)`).
A pair at zero distance contributes nothing to the pressure and viscosity accumulators. -/
theorem single_particle_free_fall {F : Type} [LinearOrderedField F] (M : MathLib F)
    (cfg : Lagrangian2dPara F) (ps : ParticleSystem2d F) (p : ParticleInfo2d F) (n : Nat)
    (hp : ps.particles = [p]) (hv : p.velocity = Vec2.zero) (hg : validBlockNum ps)
    (hin : ∀ k, k ≤ n → strictlyInside ps.lowerBound ps.upperBound
      (eulerSteps (solveDt cfg) (solveGravity cfg) k (p.position, p.velocity)).1)
    (hspeed : ∀ k, 1 ≤ k → k ≤ n → Vec2.length M
      (eulerSteps (solveDt cfg) (solveGravity cfg) k (p.position, p.velocity)).2 ≤
        cfg.maxVelocity) :
    (∀ (q : ParticleInfo2d F) (acc : Vec2 F × Vec2 F), forceBody M cfg ps q acc q = acc) ∧
    ∃ psn pn, plainLoop M cfg n ps = some psn ∧ psn.particles = [pn] ∧
      pn.velocity =
        ⟨(n : F) * (cfg.dt / ((max 1 cfg.substep : Int) : F)) * cfg.gravityX,
         (n : F) * (cfg.dt / ((max 1 cfg.substep : Int) : F)) * (-cfg.gravityY)⟩ ∧
      pn.position =
        (eulerSteps (solveDt cfg) (solveGravity cfg) n (p.position, p.velocity)).1 := by
  refine ⟨fun q acc => forceBody_self M cfg ps q q rfl acc, ?_⟩
  obtain ⟨psn, pn, hloop, hpn, hfin⟩ := plainLoop_single M cfg n ps p hp hg hin hspeed
  refine ⟨psn, pn, hloop, hpn, ?_, ?_⟩
  · have h2 := congrArg Prod.snd hfin
    simp only at h2
    rw [h2, eulerSteps_velocity, hv]
    simp [Vec2.zero, solveDt, solveSubstep, solveGravity]
  · exact congrArg Prod.fst hfin

/-- Witness of C5: the default parameters (gravity `9.8`, `dt = 0.0016`), one particle at rest
at the centre of the container `[-1, 1]²` on a one-cell grid, two sub-steps. -/
theorem single_particle_free_fall_witness :
    ∃ psn pn, plainLoop ratMath (defaultPara : Lagrangian2dPara ℚ) 2
        (testSystem ⟨-1, -1⟩ ⟨1, 1⟩ (1, 1) [] [particleAt ⟨0, 0⟩ Vec2.zero]) = some psn ∧
      psn.particles = [pn] ∧ pn.velocity = ⟨0, -0.03136⟩ := by
  have hle : ∀ a : ℚ, 0 ≤ a → a ≤ 10 → ∀ b : ℚ, b = a * a → Rat.sqrt b ≤ 10 := by
    intro a ha h10 b hb
    rw [hb, Rat.sqrt_eq, abs_of_nonneg ha]
    exact h10
  obtain ⟨_, psn, pn, hloop, hpn, hvel, _⟩ := single_particle_free_fall ratMath
    (defaultPara : Lagrangian2dPara ℚ)
    (testSystem ⟨-1, -1⟩ ⟨1, 1⟩ (1, 1) [] [particleAt ⟨0, 0⟩ Vec2.zero])
    (particleAt ⟨0, 0⟩ Vec2.zero) 2 rfl rfl
    (by simp [validBlockNum, blockCount, testSystem, u32])
    (by
      intro k hk
      interval_cases k <;>
        simp [strictlyInside, eulerSteps, eulerStep, testSystem, particleAt, Vec2.zero, Vec2.add,
          Vec2.mulS, defaultPara, solveDt, solveSubstep, solveGravity] <;> norm_num)
    (by
      intro k hk1 hk
      interval_cases k
      · simp only [eulerSteps, eulerStep, particleAt, Vec2.zero, Vec2.add,
          Vec2.mulS, defaultPara, solveDt, solveSubstep, solveGravity, Vec2.length, Vec2.dot,
          ratMath]
        norm_num
        exact hle (49 / 3125) (by norm_num) (by norm_num) _ (by norm_num)
      · simp only [eulerSteps, eulerStep, particleAt, Vec2.zero, Vec2.add,
          Vec2.mulS, defaultPara, solveDt, solveSubstep, solveGravity, Vec2.length, Vec2.dot,
          ratMath]
        norm_num
        exact hle (98 / 3125) (by norm_num) (by norm_num) _ (by norm_num))
  refine ⟨psn, pn, hloop, hpn, ?_⟩
  rw [hvel]
  simp [defaultPara]
  norm_num



/-- C6. Two particles `a`, `b` whose cells, as assigned by the reindexing, are valid and are the
same cell or adjacent cells of a grid with representable dimensions (`blocksX`, `blocksY` below
`2^31`, cell count positive and not wrapped); `h = supportRadius ≥ 0` with
`supportRadius2 = h * h`, `c = 4 / (pi * pow(h, 8))`, `m = restDensity * particleVolume`, and
`d ≥ 0` the separation (`d * d = |a - b|²`).  The density pass on the freshly rebuilt grid
returns both particles, each with density `max(0.1 * restDensity, m c h^6 + m c (h² - d²)³)`
if `d < h`; if `d ≥ h` the mutual kernel term is exactly zero and each density is
`max(0.1 * restDensity, m c h^6)`. -/
theorem two_particle_density {F : Type} [LinearOrderedField F] (M : MathLib F)
    (cfg : Lagrangian2dPara F) (ps : ParticleSystem2d F) (a b : ParticleInfo2d F) (d : F)
    (hp : ps.particles = [a, b]) (hg : validBlockNum ps)
    (hbx : ps.blockNum.1 < 2147483648) (hby : ps.blockNum.2 < 2147483648)
    (ha : ps.getBlockIdByPosition a.position < blockCount ps)
    (hb : ps.getBlockIdByPosition b.position < blockCount ps)
    (hadj : adjacentCells ps.blockNum.1 (ps.getBlockIdByPosition a.position)
      (ps.getBlockIdByPosition b.position))
    (hh2 : ps.supportRadius2 = ps.supportRadius * ps.supportRadius)
    (hh : 0 ≤ ps.supportRadius) (hd0 : 0 ≤ d)
    (hd : d * d = (a.position.sub b.position).dot (a.position.sub b.position)) :
    ∃ l1, densityPass M cfg (updateBlockInfo ps) (updateBlockInfo ps).particles = some l1 ∧
      l1.length = 2 ∧
      (d < ps.supportRadius → ∀ q ∈ l1, q.density = max (0.1 * cfg.density)
        (cfg.density * ps.particleVolume * (4 / (piLit * M.pow ps.supportRadius 8)) *
            ps.supportRadius ^ 6 +
          cfg.density * ps.particleVolume * (4 / (piLit * M.pow ps.supportRadius 8)) *
            (ps.supportRadius ^ 2 - d ^ 2) ^ 3)) ∧
      (ps.supportRadius ≤ d →
        particleMass cfg ps * poly6Kernel2D (d * d) ps.supportRadius2
          (poly6Coeff M ps.supportRadius) = 0 ∧
        ∀ q ∈ l1, q.density = max (0.1 * cfg.density)
          (cfg.density * ps.particleVolume * (4 / (piLit * M.pow ps.supportRadius 8)) *
            ps.supportRadius ^ 6)) := by
  have hd' : d * d = (b.position.sub a.position).dot (b.position.sub a.position) := by
    rw [hd]; exact dot_sub_comm _ _
  have taa := densityTerm_self M cfg ps a.position hh2
  have tbb := densityTerm_self M cfg ps b.position hh2
  have tab := densityTerm_pair M cfg ps a.position b.position d hh2 hh hd0 hd
  have tba := densityTerm_pair M cfg ps b.position a.position d hh2 hh hd0 hd'
  have hterm : ∀ x y, densityTerm M cfg (updateBlockInfo ps) x y = densityTerm M cfg ps x y :=
    fun _ _ => rfl
  have hvg : validBlockNum (updateBlockInfo ps) := hg
  have hzero : ps.supportRadius ≤ d →
      particleMass cfg ps * poly6Kernel2D (d * d) ps.supportRadius2
        (poly6Coeff M ps.supportRadius) = 0 := by
    intro hge
    have h := tab
    rw [if_neg (not_lt.mpr hge)] at h
    unfold densityTerm at h
    rw [← hd] at h
    exact h
  have hparts : (updateBlockInfo ps).particles =
      if ps.getBlockIdByPosition a.position ≤ ps.getBlockIdByPosition b.position then
        [{ a with blockId := ps.getBlockIdByPosition a.position },
         { b with blockId := ps.getBlockIdByPosition b.position }]
      else
        [{ b with blockId := ps.getBlockIdByPosition b.position },
         { a with blockId := ps.getBlockIdByPosition a.position }] := by
    simp [updateBlockInfo, hp, List.insertionSort, List.orderedInsert]
  by_cases hle : ps.getBlockIdByPosition a.position ≤ ps.getBlockIdByPosition b.position
  · rw [if_pos hle] at hparts
    have hpass := densityPass_pair M cfg (updateBlockInfo ps)
      { a with blockId := ps.getBlockIdByPosition a.position }
      { b with blockId := ps.getBlockIdByPosition b.position } hle
      (fun c hc => by rw [← hparts]; exact updateBlockInfo_table ps c hc)
      hvg hbx hby ha hb hadj
    rw [hparts, hpass]
    refine ⟨_, rfl, rfl, ?_, ?_⟩
    · intro hlt q hq
      simp only [List.mem_cons, List.mem_singleton, List.not_mem_nil, or_false] at hq
      rcases hq with rfl | rfl
      · simp only [hterm, taa, tab, if_pos hlt]
        rw [max_comm, mul_comm cfg.density (0.1 : F)]
      · simp only [hterm, tbb, tba, if_pos hlt]
        rw [max_comm, mul_comm cfg.density (0.1 : F), add_comm]
    · intro hge
      refine ⟨hzero hge, ?_⟩
      intro q hq
      simp only [List.mem_cons, List.mem_singleton, List.not_mem_nil, or_false] at hq
      rcases hq with rfl | rfl
      · simp only [hterm, taa, tab, if_neg (not_lt.mpr hge), add_zero]
        rw [max_comm, mul_comm cfg.density (0.1 : F)]
      · simp only [hterm, tbb, tba, if_neg (not_lt.mpr hge), zero_add]
        rw [max_comm, mul_comm cfg.density (0.1 : F)]
  · rw [if_neg hle] at hparts
    have hpass := densityPass_pair M cfg (updateBlockInfo ps)
      { b with blockId := ps.getBlockIdByPosition b.position }
      { a with blockId := ps.getBlockIdByPosition a.position } (Nat.le_of_not_le hle)
      (fun c hc => by rw [← hparts]; exact updateBlockInfo_table ps c hc)
      hvg hbx hby hb ha (adjacentCells_symm hadj)
    rw [hparts, hpass]
    refine ⟨_, rfl, rfl, ?_, ?_⟩
    · intro hlt q hq
      simp only [List.mem_cons, List.mem_singleton, List.not_mem_nil, or_false] at hq
      rcases hq with rfl | rfl
      · simp only [hterm, tbb, tba, if_pos hlt]
        rw [max_comm, mul_comm cfg.density (0.1 : F)]
      · simp only [hterm, taa, tab, if_pos hlt]
        rw [max_comm, mul_comm cfg.density (0.1 : F), add_comm]
    · intro hge
      refine ⟨hzero hge, ?_⟩
      intro q hq
      simp only [List.mem_cons, List.mem_singleton, List.not_mem_nil, or_false] at hq
      rcases hq with rfl | rfl
      · simp only [hterm, tbb, tba, if_neg (not_lt.mpr hge), add_zero]
        rw [max_comm, mul_comm cfg.density (0.1 : F)]
      · simp only [hterm, taa, tab, if_neg (not_lt.mpr hge), zero_add]
        rw [max_comm, mul_comm cfg.density (0.1 : F)]

/-- Witness of C6: two particles `0.03` apart (support radius `0.04`) on a one-cell grid, with
the default rest density. -/
theorem two_particle_density_witness :
    ∃ l1, densityPass ratMath (defaultPara : Lagrangian2dPara ℚ)
        (updateBlockInfo
          (testSystem ⟨-1, -1⟩ ⟨1, 1⟩ (1, 1) [] [particleAt ⟨0, 0⟩ ⟨0, 0⟩, particleAt ⟨0.03, 0⟩ ⟨0, 0⟩]))
        (updateBlockInfo
          (testSystem ⟨-1, -1⟩ ⟨1, 1⟩ (1, 1) []
            [particleAt ⟨0, 0⟩ ⟨0, 0⟩, particleAt ⟨0.03, 0⟩ ⟨0, 0⟩])).particles = some l1 ∧
      l1.length = 2 ∧
      ∀ q ∈ l1, q.density = max (0.1 * 1000)
        (1000 * 0.0004 * (4 / (piLit * (0.04 : ℚ) ^ 8)) * 0.04 ^ 6 +
          1000 * 0.0004 * (4 / (piLit * (0.04 : ℚ) ^ 8)) * (0.04 ^ 2 - 0.03 ^ 2) ^ 3) := by
  obtain ⟨l1, h, hlen, hlt, _⟩ := two_particle_density ratMath (defaultPara : Lagrangian2dPara ℚ)
    (testSystem ⟨-1, -1⟩ ⟨1, 1⟩ (1, 1) [] [particleAt ⟨0, 0⟩ ⟨0, 0⟩, particleAt ⟨0.03, 0⟩ ⟨0, 0⟩])
    (particleAt ⟨0, 0⟩ ⟨0, 0⟩) (particleAt ⟨0.03, 0⟩ ⟨0, 0⟩) 0.03 rfl
    (by simp [validBlockNum, blockCount, testSystem, u32])
    (by norm_num [testSystem]) (by norm_num [testSystem])
    (by simp [blockCount, testSystem, u32]) (by simp [blockCount, testSystem, u32])
    (by simp [adjacentCells, testSystem])
    (by norm_num [testSystem]) (by norm_num [testSystem]) (by norm_num)
    (by norm_num [particleAt, Vec2.sub, Vec2.dot])
  refine ⟨l1, h, hlen, ?_⟩
  intro q hq
  have := hlt (by norm_num [testSystem]) q hq
  have hf : (Rat.floor 8).toNat = 8 := by rfl
  rw [this]
  simp [testSystem, defaultPara, ratMath]
  norm_num [hf]


/-- C7. Continuous-flow mode: if the particle count is at most 40000 when `simulate` is called
and the call returns, then the count is at most 40000 on return and, for every `k` up to the
number of sub-steps, after the first `k` sub-steps and after the emission phase of the next
sub-step; this holds for every `substep` value, every random sequence `rand` and every `fuel`. -/
theorem simulate_count_bounded {F : Type} [LinearOrderedField F] (M : MathLib F)
    (cfg : Lagrangian2dPara F) (rand : Nat → F) (fuel : Nat) (c c1 : Lagrangian2dComponent F)
    (hmode : cfg.enableFountain2d = true)
    (hle : c.ps.particles.length ≤ 40000)
    (h : simulate M cfg rand fuel c = some c1) :
    c1.ps.particles.length ≤ 40000 ∧
    ∀ k, k ≤ cfg.substep.toNat →
      ∃ stk, fountainLoop M cfg rand ((c.emitterStep + 1) % 18446744073709551616) fuel k
          ⟨c.ps, 0⟩ = some stk ∧
        stk.ps.particles.length ≤ 40000 ∧
        (k < cfg.substep.toNat →
          ∃ e, emitPhase M cfg stk.ps rand ((c.emitterStep + 1) % 18446744073709551616) fuel
              ⟨stk.ps.particles, stk.draws⟩ = some e ∧
            e.particles.length ≤ 40000) := by
  simp only [simulate, hmode, not_true_eq_false, if_false] at h
  cases hl : fountainLoop M cfg rand ((c.emitterStep + 1) % 18446744073709551616) fuel
      cfg.substep.toNat ⟨c.ps, 0⟩ with
  | none => rw [hl] at h; exact absurd h (by simp)
  | some stn =>
    rw [hl] at h
    rw [Option.some.injEq] at h
    subst h
    have hall := fountainLoop_length_le M cfg rand _ fuel cfg.substep.toNat ⟨c.ps, 0⟩ stn hle hl
    refine ⟨?_, hall⟩
    obtain ⟨stk, hk1, hk2, _⟩ := hall cfg.substep.toNat (le_refl _)
    rw [hl, Option.some.injEq] at hk1
    subst hk1
    exact hk2

/-- Witness of C7: one continuous-flow call on the empty test system returns, with at most
40000 particles. -/
theorem simulate_count_bounded_witness :
    ∃ c1, simulate ratMath fountainPara (fun _ => 1 / 2) 5 ⟨fountainSystem, 0⟩ = some c1 ∧
      c1.ps.particles.length ≤ 40000 := by
  obtain ⟨stn, hn⟩ := fountainLoop_isSome ratMath fountainPara (fun _ => 1 / 2) 1 4 4 5
    (by decide) (by decide) 1 ⟨fountainSystem, 0⟩ fountainSystem_loopRuns0
    fountainSystem_loopRuns1 (Or.inl fountainSystem_validBlockNum) (by simp [fountainSystem, testSystem])
  have hs : simulate ratMath fountainPara (fun _ => 1 / 2) 5 ⟨fountainSystem, 0⟩ =
      some ⟨stn.ps, 1⟩ := by
    have hsub : (fountainPara : Lagrangian2dPara ℚ).substep.toNat = 1 := rfl
    have hmode : (fountainPara : Lagrangian2dPara ℚ).enableFountain2d = true := rfl
    simp only [simulate, hmode, hsub, not_true_eq_false, if_false]
    rw [show (0 + 1) % 18446744073709551616 = 1 from rfl, hn]
  exact ⟨_, hs, (simulate_count_bounded ratMath fountainPara (fun _ => 1 / 2) 5
    ⟨fountainSystem, 0⟩ _ rfl (by simp [fountainSystem, testSystem]) hs).1⟩

/-- C9. Continuous-flow mode.  Let the x loops of the two emitter layers (from
`emitterMinX + layer offset`, in steps of `0.85 * particleDiameter`, while
`x <= emitterMaxX + 1e-6`) run `K0` and `K1` iterations.  Then an emission phase that starts with
`n <= 40000` particles returns and ends with exactly `min(40000, n + V)` particles, where `V`
counts the candidates of the sub-step whose scaled position resolves to a cell id other than the
invalid sentinel.  Hence, starting from zero particles, `N` sub-steps return on a valid or
degenerate grid, and whenever the cull removes no particle the count after them is the sum of
the `V` of the sub-steps bounded by 40000, which is the cumulative number of appended
particles. -/
theorem emission_count {F : Type} [LinearOrderedField F] (M : MathLib F)
    (cfg : Lagrangian2dPara F) (rand : Nat → F) (emitterStep K0 K1 fuel : Nat)
    (ps : ParticleSystem2d F)
    (h0 : loopRuns (emitterMaxX + 1e-6) (emitXStep ps) K0 (layerStartX (emitXStep ps) 0))
    (h1 : loopRuns (emitterMaxX + 1e-6) (emitXStep ps) K1 (layerStartX (emitXStep ps) 1))
    (hf0 : K0 < fuel) (hf1 : K1 < fuel) :
    (∀ st : EmitState F, st.particles.length ≤ 40000 →
      ∃ st1, emitPhase M cfg ps rand emitterStep fuel st = some st1 ∧
        st1.particles.length =
          min 40000 (st.particles.length + emitCandidates ps rand emitterStep K0 K1 st.draws)) ∧
    (ps.particles = [] → ∀ (N draws : Nat),
      ((validBlockNum ps ∨ blockCount ps = 0) →
        ∃ stN, fountainLoop M cfg rand emitterStep fuel N ⟨ps, draws⟩ = some stN) ∧
      ∀ stN, fountainLoop M cfg rand emitterStep fuel N ⟨ps, draws⟩ = some stN →
        cullIdle M cfg rand emitterStep fuel N ⟨ps, draws⟩ →
        stN.ps.particles.length =
            min 40000 (candidateCounts M cfg rand emitterStep fuel K0 K1 N ⟨ps, draws⟩).sum ∧
          stN.ps.particles.length =
            (emittedCounts M cfg rand emitterStep fuel N ⟨ps, draws⟩).sum) := by
  refine ⟨fun st hle => emitPhase_count M cfg ps rand emitterStep K0 K1 fuel st h0 h1 hf0 hf1 hle,
    fun hnil N draws => ⟨fun hg => ?_, fun stN hN hidle => ?_⟩⟩
  · exact fountainLoop_isSome M cfg rand emitterStep K0 K1 fuel hf0 hf1 N ⟨ps, draws⟩ h0 h1 hg
      (by simp [hnil])
  · have h := fountainLoop_count M cfg rand emitterStep K0 K1 fuel hf0 hf1 N ⟨ps, draws⟩ stN
      h0 h1 (by simp [hnil]) hN hidle
    simpa [hnil] using h

/-- Witness of C9: on the empty test system both x loops run 4 iterations, the emission phase
ends with 8 particles, and so does one whole sub-step. -/
theorem emission_count_witness :
    (∃ st1, emitPhase ratMath fountainPara fountainSystem (fun _ => 1 / 2) 1 5 ⟨[], 0⟩ =
        some st1 ∧ st1.particles.length = 8) ∧
    ∃ stN, fountainLoop ratMath fountainPara (fun _ => 1 / 2) 1 5 1 ⟨fountainSystem, 0⟩ =
        some stN ∧ stN.ps.particles.length = 8 := by
  have h := emission_count ratMath fountainPara (fun _ => 1 / 2) 1 4 4 5 fountainSystem
    fountainSystem_loopRuns0 fountainSystem_loopRuns1 (by decide) (by decide)
  constructor
  · obtain ⟨st1, e1, e2⟩ := h.1 ⟨[], 0⟩ (by simp)
    refine ⟨st1, e1, ?_⟩
    rw [e2, fountainSystem_candidates]
    rfl
  · obtain ⟨hex, hcount⟩ := h.2 rfl 1 0
    obtain ⟨stN, hN⟩ := hex (Or.inl fountainSystem_validBlockNum)
    refine ⟨stN, hN, ?_⟩
    have hc := (hcount stN hN
      (cullIdle_of_unreachable ratMath fountainPara _ 1 5 1 _ fountainSystem_unreachable)).1
    rw [hc]
    simp only [candidateCounts, fountainSystem_candidates]
    cases fountainSubstep ratMath fountainPara (fun _ => 1 / 2) 1 5 ⟨fountainSystem, 0⟩ <;> rfl



/-- C11. Main path of `solve`: right after the pressure pass, and still when `solve` returns,
every particle has `pressure = stiffness * (pow(density / restDensity, exponent) - 1)` and
`pressDivDens2 = pressure / (density * density)`.  If moreover `stiffness > 0`,
`restDensity > 0`, `exponent > 0` and `pow` with this exponent maps `1` to `1` and is strictly
increasing on the non-negative numbers, then the pressure is zero when the density equals
`restDensity` and negative exactly when the density is below `restDensity`. -/
theorem solve_pressure_law {F : Type} [LinearOrderedField F] (M : MathLib F)
    (cfg : Lagrangian2dPara F) (ps ps1 : ParticleSystem2d F) (hne : ps.particles ≠ [])
    (hmain : ¬ (blockCount ps = 0 ∨ ps.blockExtens.length ≠ blockCount ps))
    (h : solve M cfg ps = some ps1) :
    ∃ withDensity, densityPass M cfg ps ps.particles = some withDensity ∧
      ∀ q, q ∈ withDensity.map (pressureParticle M cfg) ∨ q ∈ ps1.particles →
        (q.pressure = cfg.stiffness * (M.pow (q.density / cfg.density) cfg.exponent - 1) ∧
      q.pressDivDens2 = q.pressure / (q.density * q.density)) ∧
        (0 < cfg.stiffness → 0 < cfg.exponent → 0 < cfg.density →
          M.PowMonotone cfg.exponent →
          (q.density = cfg.density → q.pressure = 0) ∧
            (q.pressure < 0 ↔ q.density < cfg.density)) := by
  obtain ⟨l, rfl, hl⟩ := solve_cases M cfg ps ps1 hne h
  rcases hl with ⟨hc, _⟩ | ⟨_, wd, wf, h1, h2, rfl⟩
  · exact absurd hc hmain
  · refine ⟨wd, h1, ?_⟩
    have hpass : ∀ q ∈ wd.map (pressureParticle M cfg),
        (q.pressure = cfg.stiffness * (M.pow (q.density / cfg.density) cfg.exponent - 1) ∧
      q.pressDivDens2 = q.pressure / (q.density * q.density)) ∧ (0 < cfg.density → 0 < q.density) := by
      intro q hq
      obtain ⟨q1, hq1, rfl⟩ := List.mem_map.mp hq
      obtain ⟨p, _, s, rfl⟩ := forall₂_mem_right (densityPass_rel M cfg ps _ _ h1) q1 hq1
      refine ⟨(pressureParticle_law M cfg _).1, fun hr => ?_⟩
      show 0 < max s (cfg.density * 0.1)
      exact lt_of_lt_of_le (by positivity) (le_max_right _ _)
    have hall : ∀ q, q ∈ wd.map (pressureParticle M cfg) ∨
        q ∈ (updateBlockInfo { ps with particles := wf.map (integrateParticle M cfg ps) }).particles →
        (q.pressure = cfg.stiffness * (M.pow (q.density / cfg.density) cfg.exponent - 1) ∧
      q.pressDivDens2 = q.pressure / (q.density * q.density)) ∧ (0 < cfg.density → 0 < q.density) := by
      intro q hq
      rcases hq with hq | hq
      · exact hpass q hq
      · obtain ⟨q4, hq4, rfl⟩ := mem_updateBlockInfo.mp hq
        obtain ⟨q3, hq3, rfl⟩ := List.mem_map.mp hq4
        obtain ⟨q2, hq2, a, rfl⟩ := forall₂_mem_right (forcePass_rel M cfg ps _ _ h2) q3 hq3
        obtain ⟨hlaw, hpos⟩ := hpass q2 hq2
        obtain ⟨f1, f2, f3, _⟩ := stages_fields M cfg ps { q2 with accleration := a }
        simp only [f1, f2, f3]
        exact ⟨hlaw, hpos⟩
    intro q hq
    obtain ⟨hlaw, hpos⟩ := hall q hq
    exact ⟨hlaw, fun hs _ hr hpow => pressureLaw_sign M cfg q hlaw (hpos hr) hs hr hpow⟩

/-- Witness of C11: the main path on a one-cell grid holding one particle, with the default
stiffness `70`, exponent `7` and rest density `1000`. -/
theorem solve_pressure_law_witness :
    ratMath.PowMonotone (defaultPara : Lagrangian2dPara ℚ).exponent ∧
    ∃ ps1, solve ratMath (defaultPara : Lagrangian2dPara ℚ)
        (testSystem ⟨-1, -1⟩ ⟨1, 1⟩ (1, 1) [(0, 1)] [particleAt ⟨0, 0⟩ ⟨0, 0⟩]) = some ps1 ∧
      ∀ q ∈ ps1.particles, (q.pressure = 70 * (ratMath.pow (q.density / 1000) 7 - 1) ∧
        q.pressDivDens2 = q.pressure / (q.density * q.density)) ∧
        (q.density = 1000 → q.pressure = 0) ∧ (q.pressure < 0 ↔ q.density < 1000) := by
  have hp : ratMath.PowMonotone (defaultPara : Lagrangian2dPara ℚ).exponent := by
    rw [show (defaultPara : Lagrangian2dPara ℚ).exponent = 7 by norm_num [defaultPara]]
    exact ratMath_powMonotone_seven
  refine ⟨hp, ?_⟩
  obtain ⟨ps1, h⟩ := solve_isSome ratMath (defaultPara : Lagrangian2dPara ℚ)
    (testSystem ⟨-1, -1⟩ ⟨1, 1⟩ (1, 1) [(0, 1)] [particleAt ⟨0, 0⟩ ⟨0, 0⟩])
    (validGrid_testSystem _ _ _ _) (by simp [testSystem])
  obtain ⟨_, _, hall⟩ := solve_pressure_law ratMath _ _ ps1 (by simp [testSystem])
    (by simp [testSystem, blockCount, u32]) h
  refine ⟨ps1, h, fun q hq => ?_⟩
  obtain ⟨hlaw, hsign⟩ := hall q (Or.inr hq)
  have hs := hsign (by norm_num [defaultPara]) (by norm_num [defaultPara])
    (by norm_num [defaultPara]) hp
  have hd : (defaultPara : Lagrangian2dPara ℚ).density = 1000 := by norm_num [defaultPara]
  rw [hd] at hs
  have hst : (defaultPara : Lagrangian2dPara ℚ).stiffness = 70 := by norm_num [defaultPara]
  have hex : (defaultPara : Lagrangian2dPara ℚ).exponent = 7 := by norm_num [defaultPara]
  rw [hd, hst, hex] at hlaw
  exact ⟨hlaw, hs⟩



/-- C12. The pressure-acceleration term that `pj` contributes to `pi` in the `j` loop of the
force pass is what the loop body adds to `pressureAcc`.  For `0 < |x_i - x_j|^2 < h2` it is
`-(m * (pressDivDens2_i + pressDivDens2_j)) * spikyGradKernel2D(x_i - x_j)`; for every pair it is
the exact negation of the term that `pi` contributes to `pj`, so the two terms add up to zero. -/
theorem pressure_term_antisymmetric {F : Type} [LinearOrderedField F] (M : MathLib F)
    (cfg : Lagrangian2dPara F) (ps : ParticleSystem2d F) (p q : ParticleInfo2d F) :
    (∀ acc : Vec2 F × Vec2 F, (forceBody M cfg ps p acc q).1 =
      acc.1.add (forceBody M cfg ps p (Vec2.zero, Vec2.zero) q).1) ∧
    (0 < (p.position.sub q.position).dot (p.position.sub q.position) →
      (p.position.sub q.position).dot (p.position.sub q.position) < ps.supportRadius2 →
      (forceBody M cfg ps p (Vec2.zero, Vec2.zero) q).1 =
        Vec2.neg (Vec2.smul (particleMass cfg ps * (p.pressDivDens2 + q.pressDivDens2))
          (spikyGradKernel2D (p.position.sub q.position)
            (M.sqrt ((p.position.sub q.position).dot (p.position.sub q.position)))
            ps.supportRadius (spikyGradCoeff M ps.supportRadius) (solveEps cfg)))) ∧
    (forceBody M cfg ps p (Vec2.zero, Vec2.zero) q).1 =
      Vec2.neg (forceBody M cfg ps q (Vec2.zero, Vec2.zero) p).1 ∧
    ((forceBody M cfg ps p (Vec2.zero, Vec2.zero) q).1).add
      (forceBody M cfg ps q (Vec2.zero, Vec2.zero) p).1 = Vec2.zero := by
  refine ⟨forceBody_pressure_acc M cfg ps p q, ?_, forceBody_pressure_flip M cfg ps p q, ?_⟩
  · intro h1 h2
    rw [forceBody_pressure_eq M cfg ps p q _ h1 h2]
    simp [Vec2.sub, Vec2.neg, Vec2.zero]
  · rw [forceBody_pressure_flip M cfg ps p q]
    simp [Vec2.add, Vec2.neg, Vec2.zero]

/-- Witness of C12: two particles `0.03` apart with support radius `0.04`. -/
theorem pressure_term_antisymmetric_witness :
    (forceBody ratMath defaultPara (testSystem ⟨-1, -1⟩ ⟨1, 1⟩ (1, 1) [(0, 2)] [])
        (pairLeft 1) (Vec2.zero, Vec2.zero) (pairRight 1)).1 =
      Vec2.neg (Vec2.smul
        (particleMass defaultPara (testSystem (⟨-1, -1⟩ : Vec2 ℚ) ⟨1, 1⟩ (1, 1) [(0, 2)] []) *
          (1 + 1))
        (spikyGradKernel2D ((pairLeft 1 : ParticleInfo2d ℚ).position.sub (pairRight 1).position)
          (ratMath.sqrt (0.03 * 0.03)) 0.04 (spikyGradCoeff ratMath 0.04)
          (solveEps defaultPara))) := by
  have h := (pressure_term_antisymmetric ratMath defaultPara
    (testSystem ⟨-1, -1⟩ ⟨1, 1⟩ (1, 1) [(0, 2)] []) (pairLeft 1) (pairRight 1)).2.1
    (by rw [pair_dot_rat]; norm_num) (by rw [pair_dot_rat]; norm_num [testSystem])
  rw [pair_dot_rat] at h
  exact h

/-- C17. Over exact arithmetic with an exact square root, `supportRadius2 = h * h` and
`pow(h, 5) > 0`: for two particles at distance `d = sqrt(|x_i - x_j|^2)` with `eps < d < h`
(`eps` the local `max(1e-6, eps)` of `solve`) and positive particle mass, the pressure term that
`pj` contributes to `pi` is `k * (x_i - x_j)` with
`k = (pressDivDens2_i + pressDivDens2_j) * c` for a factor `c > 0`; so `k > 0` (repulsion) when
the sum is positive and `k < 0` (attraction) when it is negative. -/
theorem pressure_term_sign {F : Type} [LinearOrderedField F] (M : MathLib F)
    (cfg : Lagrangian2dPara F) (ps : ParticleSystem2d F) (p q : ParticleInfo2d F)
    (hM : M.SqrtExact)
    (hh : ps.supportRadius2 = ps.supportRadius * ps.supportRadius)
    (hpow : 0 < M.pow ps.supportRadius 5)
    (heps : solveEps cfg <
      M.sqrt ((p.position.sub q.position).dot (p.position.sub q.position)))
    (hd : M.sqrt ((p.position.sub q.position).dot (p.position.sub q.position)) <
      ps.supportRadius)
    (hm : 0 < particleMass cfg ps) :
    ∃ k : F, (forceBody M cfg ps p (Vec2.zero, Vec2.zero) q).1 =
        Vec2.smul k (p.position.sub q.position) ∧
      (0 < p.pressDivDens2 + q.pressDivDens2 → 0 < k) ∧
      (p.pressDivDens2 + q.pressDivDens2 < 0 → k < 0) := by
  obtain ⟨hc, hterm⟩ := forceBody_pressure_direction M cfg ps p q hM hh hpow heps hd hm
  exact ⟨_, hterm, fun hs => mul_pos hs hc, fun hs => mul_neg_of_neg_of_pos hs hc⟩

/-- Witness of C17: two particles `0.03` apart with support radius `0.04`, mass `0.4` and
`pressDivDens2 = 1` each, over the reals: the term on the first one points away from the
second. -/
theorem pressure_term_sign_witness :
    ∃ k : ℝ, 0 < k ∧
      (forceBody realMath defaultPara (testSystem ⟨-1, -1⟩ ⟨1, 1⟩ (1, 1) [(0, 2)] [])
        (pairLeft 1) (Vec2.zero, Vec2.zero) (pairRight 1)).1 =
      Vec2.smul k ((pairLeft 1 : ParticleInfo2d ℝ).position.sub (pairRight 1).position) := by
  have hs : Real.sqrt (0.03 * 0.03) = 0.03 := Real.sqrt_mul_self (by norm_num)
  obtain ⟨k, hk, hpos, _⟩ := pressure_term_sign realMath defaultPara
    (testSystem ⟨-1, -1⟩ ⟨1, 1⟩ (1, 1) [(0, 2)] []) (pairLeft 1) (pairRight 1)
    realMath_sqrtExact (by norm_num [testSystem])
    (Real.rpow_pos_of_pos (by norm_num [testSystem]) _)
    (by
      rw [pair_dot_real]
      show solveEps defaultPara < Real.sqrt (0.03 * 0.03)
      rw [hs]
      simp only [solveEps, defaultPara]
      rw [max_lt_iff]
      constructor <;> norm_num)
    (by
      rw [pair_dot_real]
      show Real.sqrt (0.03 * 0.03) < 0.04
      rw [hs]
      norm_num)
    (by norm_num [particleMass, defaultPara, testSystem])
  exact ⟨k, hpos (by norm_num [pairLeft, pairRight]), hk⟩



/-- C13. For every particle `p` and every configuration, the body of the degenerate-grid branch
yields the velocity, position and cell id that the last loop body of the main path yields from
`p` with `accleration = (gravityX, -gravityY)`, it leaves that acceleration in place and stores
`density = restDensity`, `pressure = 0`, `pressDivDens2 = 0`; so on a non-empty set the branch
returns the reindexed image of the particles under that gravity-only loop body. -/
theorem fallback_is_gravity_only {F : Type} [LinearOrderedField F] (M : MathLib F)
    (cfg : Lagrangian2dPara F) (ps : ParticleSystem2d F) :
    (∀ p : ParticleInfo2d F,
      (fallbackParticle M cfg ps p).velocity =
        (integrateParticle M cfg ps { p with accleration := solveGravity cfg }).velocity ∧
      (fallbackParticle M cfg ps p).position =
        (integrateParticle M cfg ps { p with accleration := solveGravity cfg }).position ∧
      (fallbackParticle M cfg ps p).blockId =
        (integrateParticle M cfg ps { p with accleration := solveGravity cfg }).blockId ∧
      (fallbackParticle M cfg ps p).accleration = solveGravity cfg ∧
      (fallbackParticle M cfg ps p).density = cfg.density ∧
      (fallbackParticle M cfg ps p).pressure = 0 ∧
      (fallbackParticle M cfg ps p).pressDivDens2 = 0) ∧
    (ps.particles ≠ [] → (blockCount ps = 0 ∨ ps.blockExtens.length ≠ blockCount ps) →
      solve M cfg ps = some (updateBlockInfo { ps with
        particles := ps.particles.map fun p =>
          { integrateParticle M cfg ps { p with accleration := solveGravity cfg } with
            density := cfg.density, pressure := 0, pressDivDens2 := 0 } })) := by
  constructor
  · intro p
    rw [fallbackParticle_gravity]
    refine ⟨rfl, rfl, rfl, ?_, rfl, rfl, rfl⟩
    exact (stages_fields M cfg ps _).2.2.2
  · intro hne hfb
    have hfun : (fun p => { integrateParticle M cfg ps
        { p with accleration := solveGravity cfg } with
        density := cfg.density, pressure := 0, pressDivDens2 := 0 }) =
        fallbackParticle M cfg ps := by
      funext p
      exact (fallbackParticle_gravity M cfg ps p).symm
    rw [hfun]
    unfold solve
    have hemp : ps.particles.isEmpty = false := by
      cases hl : ps.particles with
      | nil => exact absurd hl hne
      | cons a l => rfl
    rw [hemp]
    simp only [Bool.false_eq_true, if_false]
    rw [if_pos hfb]

/-- Witness of C13: one particle at rest on an unbuilt grid (`blockCount = 0`). -/
theorem fallback_is_gravity_only_witness :
    solve ratMath (defaultPara : Lagrangian2dPara ℚ)
        (testSystem ⟨-1, -1⟩ ⟨1, 1⟩ (0, 0) [] [particleAt ⟨0, 0⟩ ⟨0, 0⟩]) =
      some (updateBlockInfo { testSystem ⟨-1, -1⟩ ⟨1, 1⟩ (0, 0) [] [particleAt ⟨0, 0⟩ ⟨0, 0⟩] with
        particles := [particleAt ⟨0, 0⟩ ⟨0, 0⟩].map fun p =>
          { integrateParticle ratMath defaultPara
              (testSystem ⟨-1, -1⟩ ⟨1, 1⟩ (0, 0) [] [particleAt ⟨0, 0⟩ ⟨0, 0⟩])
              { p with accleration := solveGravity defaultPara } with
            density := (defaultPara : Lagrangian2dPara ℚ).density, pressure := 0,
            pressDivDens2 := 0 } }) :=
  (fallback_is_gravity_only ratMath (defaultPara : Lagrangian2dPara ℚ)
    (testSystem ⟨-1, -1⟩ ⟨1, 1⟩ (0, 0) [] [particleAt ⟨0, 0⟩ ⟨0, 0⟩])).2
    (by simp [testSystem]) (Or.inl (by simp [testSystem, blockCount, u32]))



/-- C14. In the list of operations of one call of `simulate` (plain or continuous-flow mode, any
`substep`, any random sequence), every `solve` has a predecessor, the predecessor is
`updateBlockInfo`, and the particle system `solve` runs on is exactly the result of that
`updateBlockInfo`: no emission and no cull lies between the two.  When `simulate` returns, the
list is complete: `2 * max(0, substep)` operations in plain mode and `4 * max(0, substep)` in
continuous-flow mode. -/
theorem solve_preceded_by_reindex {F : Type} [LinearOrderedField F] (M : MathLib F)
    (cfg : Lagrangian2dPara F) (rand : Nat → F) (fuel : Nat) (c : Lagrangian2dComponent F) :
    (∀ i s, (simulateTrace M cfg rand fuel c)[i]? = some (Op.solve, s) →
      ∃ j s0, i = j + 1 ∧
        (simulateTrace M cfg rand fuel c)[j]? = some (Op.updateBlockInfo, s0) ∧
        s = updateBlockInfo s0) ∧
    (∀ c1, simulate M cfg rand fuel c = some c1 →
      (simulateTrace M cfg rand fuel c).length =
        (if cfg.enableFountain2d then 4 else 2) * cfg.substep.toNat) := by
  constructor
  · unfold simulateTrace
    split_ifs
    · exact fountainTrace_preceded M cfg rand _ fuel _ _
    · exact plainTrace_preceded M cfg _ _
  · intro c1 h
    unfold simulate at h
    unfold simulateTrace
    by_cases hm : cfg.enableFountain2d = true
    · simp only [hm, not_true_eq_false, if_false, if_true] at h ⊢
      cases hl : fountainLoop M cfg rand ((c.emitterStep + 1) % 18446744073709551616) fuel
          cfg.substep.toNat ⟨c.ps, 0⟩ with
      | none => rw [hl] at h; exact absurd h (by simp)
      | some stn => exact (fountainTrace_complete M cfg rand _ fuel _ _ stn hl).1
    · simp only [hm, not_false_eq_true, if_true, if_false] at h ⊢
      cases hl : plainLoop M cfg cfg.substep.toNat c.ps with
      | none => rw [hl] at h; exact absurd h (by simp)
      | some psn =>
        simpa using (plainTrace_complete M cfg _ _ psn hl).1



/-- Witness of C14: one continuous-flow call with `substep = 1` on the empty test system returns
after four operations. -/
theorem solve_preceded_by_reindex_witness :
    ∃ c1, simulate ratMath fountainPara (fun _ => 1 / 2) 5 ⟨fountainSystem, 0⟩ = some c1 ∧
      (simulateTrace ratMath fountainPara (fun _ => 1 / 2) 5 ⟨fountainSystem, 0⟩).length = 4 := by
  obtain ⟨c1, h⟩ := fountainSystem_simulate
  exact ⟨c1, h, (solve_preceded_by_reindex ratMath fountainPara (fun _ => 1 / 2) 5
    ⟨fountainSystem, 0⟩).2 c1 h⟩

/-- C15 (amended). One call of `simulate` in plain mode that returns makes `max(0, substep)`
calls of `solve`.  For `substep ≥ 1` that number times the sub-step size `dt / max(1, substep)`
that each call uses is `Lagrangian2dPara::dt`; for `substep ≤ 0` no call is made and the product
is `0`. -/
theorem simulate_time_advance {F : Type} [LinearOrderedField F] (M : MathLib F)
    (cfg : Lagrangian2dPara F) (rand : Nat → F) (fuel : Nat) (c c1 : Lagrangian2dComponent F)
    (hmode : cfg.enableFountain2d = false)
    (h : simulate M cfg rand fuel c = some c1) :
    solveCalls (simulateTrace M cfg rand fuel c) = cfg.substep.toNat ∧
    (1 ≤ cfg.substep →
      ((solveCalls (simulateTrace M cfg rand fuel c) : Nat) : F) * solveDt cfg = cfg.dt) ∧
    (cfg.substep ≤ 0 →
      ((solveCalls (simulateTrace M cfg rand fuel c) : Nat) : F) * solveDt cfg = 0) := by
  have hc := simulate_plain_calls M cfg rand fuel c c1 hmode h
  refine ⟨hc, fun hsub => ?_, fun hsub => ?_⟩
  · rw [hc]
    exact substep_mul_solveDt cfg hsub
  · rw [hc, Int.toNat_eq_zero.mpr hsub]
    simp

/-- Witness of C15 (amended): `substep = 2` and `dt = 0.0016`, one particle on a one-cell
grid. -/
theorem simulate_time_advance_witness :
    ∃ c1, simulate ratMath { (defaultPara : Lagrangian2dPara ℚ) with substep := 2 }
        (fun _ => 0) 0
        ⟨testSystem ⟨-1, -1⟩ ⟨1, 1⟩ (1, 1) [(0, 1)] [particleAt ⟨0, 0⟩ ⟨0, 0⟩], 0⟩ = some c1 ∧
      solveCalls (simulateTrace ratMath { (defaultPara : Lagrangian2dPara ℚ) with substep := 2 }
        (fun _ => 0) 0
        ⟨testSystem ⟨-1, -1⟩ ⟨1, 1⟩ (1, 1) [(0, 1)] [particleAt ⟨0, 0⟩ ⟨0, 0⟩], 0⟩) = 2 ∧
      (2 : ℚ) * solveDt { (defaultPara : Lagrangian2dPara ℚ) with substep := 2 } = 0.0016 := by
  obtain ⟨c1, h⟩ := plain_two_simulate
  obtain ⟨hc, hdt, _⟩ := simulate_time_advance ratMath
    { (defaultPara : Lagrangian2dPara ℚ) with substep := 2 } (fun _ => 0) 0 _ c1 rfl h
  have h2 := hdt (by decide)
  rw [hc] at h2
  exact ⟨c1, h, hc, by simpa [defaultPara] using h2⟩

/-- Counterexample to C15 as stated: with `substep = 0` the loop of `simulate` makes no call of
`solve`, so the simulated time does not advance although `dt = 0.0016`. -/
theorem simulate_zero_substep_no_advance :
    simulate ratMath { (defaultPara : Lagrangian2dPara ℚ) with substep := 0 } (fun _ => 0) 0
        ⟨testSystem ⟨-1, -1⟩ ⟨1, 1⟩ (1, 1) [(0, 1)] [particleAt ⟨0, 0⟩ ⟨0, 0⟩], 0⟩ =
      some ⟨testSystem ⟨-1, -1⟩ ⟨1, 1⟩ (1, 1) [(0, 1)] [particleAt ⟨0, 0⟩ ⟨0, 0⟩], 0⟩ ∧
    solveCalls (simulateTrace ratMath { (defaultPara : Lagrangian2dPara ℚ) with substep := 0 }
        (fun _ => 0) 0
        ⟨testSystem ⟨-1, -1⟩ ⟨1, 1⟩ (1, 1) [(0, 1)] [particleAt ⟨0, 0⟩ ⟨0, 0⟩], 0⟩) = 0 ∧
    ((solveCalls (simulateTrace ratMath
        { (defaultPara : Lagrangian2dPara ℚ) with substep := 0 } (fun _ => 0) 0
        ⟨testSystem ⟨-1, -1⟩ ⟨1, 1⟩ (1, 1) [(0, 1)] [particleAt ⟨0, 0⟩ ⟨0, 0⟩], 0⟩) : Nat) : ℚ) *
        solveDt { (defaultPara : Lagrangian2dPara ℚ) with substep := 0 } ≠
      ({ (defaultPara : Lagrangian2dPara ℚ) with substep := 0 } : Lagrangian2dPara ℚ).dt := by
  have ht : simulateTrace ratMath { (defaultPara : Lagrangian2dPara ℚ) with substep := 0 }
      (fun _ => 0) 0
      ⟨testSystem ⟨-1, -1⟩ ⟨1, 1⟩ (1, 1) [(0, 1)] [particleAt ⟨0, 0⟩ ⟨0, 0⟩], 0⟩ = [] :=
    simulateTrace_plain ratMath { (defaultPara : Lagrangian2dPara ℚ) with substep := 0 }
      (fun _ => 0) 0 _ rfl
  refine ⟨?_, ?_, ?_⟩
  · exact simulate_plain ratMath { (defaultPara : Lagrangian2dPara ℚ) with substep := 0 }
      (fun _ => 0) 0 _ _ rfl rfl
  · rw [ht]; rfl
  · rw [ht]
    simp [solveCalls, defaultPara]
    norm_num



/-- C16. For every support radius `h > 0` the kernel
`W(r) = poly6Kernel2D(r^2, h^2, 4 / (π h^8))` equals `4 / (π h^8) * (h^2 - r^2)^3` for
`0 ≤ r < h` and `0` for `r ≥ h`, and the integral of `2 π r W(r)` over `r` from `0` to `h` is
`1`.  With the coefficient that `solve` computes from the decimal literal
`3.14159265358979323846` in place of `π`, the integral is `π` divided by that literal, which
lies between `1` and `1 + 1e-20`. -/
theorem poly6_normalised (h : ℝ) (hh : 0 < h) :
    (∀ r : ℝ, 0 ≤ r → r < h →
      poly6Kernel2D (r ^ 2) (h ^ 2) (4 / (Real.pi * h ^ 8)) =
        4 / (Real.pi * h ^ 8) * (h ^ 2 - r ^ 2) ^ 3) ∧
    (∀ r : ℝ, h ≤ r → poly6Kernel2D (r ^ 2) (h ^ 2) (4 / (Real.pi * h ^ 8)) = 0) ∧
    ∫ r in (0 : ℝ)..h,
      2 * Real.pi * r * poly6Kernel2D (r ^ 2) (h ^ 2) (4 / (Real.pi * h ^ 8)) = 1 ∧
    ∫ r in (0 : ℝ)..h,
      2 * Real.pi * r * poly6Kernel2D (r ^ 2) (h ^ 2) (poly6Coeff realMath h) =
        Real.pi / piLit ∧
    1 < Real.pi / piLit ∧ Real.pi / piLit < 1 + 1e-20 := by
  have hh8 : h ^ 8 ≠ 0 := pow_ne_zero 8 hh.ne'
  have hpi : (piLit : ℝ) ≠ 0 := piLit_pos.ne'
  refine ⟨fun r hr hrh => poly6Kernel2D_closed _ h r hr hrh.le,
    fun r hrh => poly6Kernel2D_outside _ h r hh.le hrh, ?_, ?_, ?_, ?_⟩
  · rw [poly6_integral _ h hh.le]
    field_simp
    ring
  · rw [poly6_integral _ h hh.le, poly6Coeff_real]
    field_simp
    ring
  · rw [one_lt_div piLit_pos]
    exact piLit_lt_pi
  · rw [div_lt_iff₀ piLit_pos]
    have h1 := pi_lt_piLit_add
    have h2 : (piLit : ℝ) + 1e-20 ≤ (1 + 1e-20) * piLit := by
      have : (1 : ℝ) ≤ piLit := by unfold piLit; norm_num
      nlinarith
    linarith

/-- Witness of C16: the default support radius `h = 0.04`. -/
theorem poly6_normalised_witness :
    ∫ r in (0 : ℝ)..0.04,
      2 * Real.pi * r * poly6Kernel2D (r ^ 2) ((0.04 : ℝ) ^ 2) (4 / (Real.pi * (0.04 : ℝ) ^ 8)) =
        1 :=
  (poly6_normalised 0.04 (by norm_num)).2.2.1


end Lagrangian2d
end FluidSimulation
